import Mathlib

/-!
# Fedwire segment codec: Parse / Format / Validate of five segment kinds

A shallow embedding of `accountCreditedDrawdown.go`, `accountDebitedDrawdown.go`,
`amountNegotiatedDiscount.go`, `currencyInstructedAmount.go` and
`fIBeneficiaryFIAdvice.go`.

* A Go `string` is a sequence of bytes (`GoString`).  `len` is the number of
  bytes, slice expressions index bytes, `utf8.RuneCountInString` counts runes.
* A method with a pointer receiver is a function from the receiver's state to
  the receiver's new state and the returned error; a slice expression out of
  range (a run-time panic) makes the whole call `none`.
* The helpers of the embedded `converters` and `validator` structs are not in
  the five files.  The segment methods take them as a parameter
  (`Converters`, `Validators`); `specConverters` is the field codec as the
  specification describes it.
-/

namespace Wire

/-! ## Go strings -/

/-- A Go string: its bytes, in order. -/
abbrev GoString := List Nat

/-- The bytes of an ASCII literal. -/
def ascii (s : String) : GoString := s.toList.map Char.toNat

/-- Every byte is below `utf8.RuneSelf`. -/
def IsAscii (s : GoString) : Prop := ∀ b ∈ s, b < 128

instance (s : GoString) : Decidable (IsAscii s) := by
  unfold IsAscii; infer_instance

/-- The slice expression `s[lo:hi]`; `none` is the out-of-range panic. -/
def slice (s : GoString) (lo hi : Nat) : Option GoString :=
  if lo ≤ hi ∧ hi ≤ s.length then some ((s.take hi).drop lo) else none

/-- The slice expression `s[lo:]`; `none` is the out-of-range panic. -/
def sliceFrom (s : GoString) (lo : Nat) : Option GoString :=
  if lo ≤ s.length then some (s.drop lo) else none

/-! ## UTF-8 decoding, as package `unicode/utf8` does it -/

/-- A continuation byte `0x80..0xBF`. -/
def isCont (b : Nat) : Bool := decide (128 ≤ b) && decide (b ≤ 191)

/-- Width in bytes of the rune that starts at byte `c` followed by `t`
(`utf8.DecodeRuneInString`): the length of a well-formed encoding, and 1 for a
byte that starts none. -/
def runeWidth (c : Nat) (t : GoString) : Nat :=
  if c < 194 then 1
  else if c < 224 then
    match t with
    | b1 :: _ => if isCont b1 then 2 else 1
    | _ => 1
  else if c < 240 then
    match t with
    | b1 :: b2 :: _ =>
      if decide ((if c = 224 then 160 else 128) ≤ b1) && decide (b1 ≤ (if c = 237 then 159 else 191))
          && isCont b2 then 3 else 1
    | _ => 1
  else if c < 245 then
    match t with
    | b1 :: b2 :: b3 :: _ =>
      if decide ((if c = 240 then 144 else 128) ≤ b1) && decide (b1 ≤ (if c = 244 then 143 else 191))
          && isCont b2 && isCont b3 then 4 else 1
    | _ => 1
  else 1

/-- The runes of a string, each as the bytes that encode it, in order
(`fuel` bounds the number of runes; the length of the string is enough). -/
def runesAux : Nat → GoString → List GoString
  | 0, _ => []
  | _ + 1, [] => []
  | fuel + 1, c :: t =>
    (c :: t.take (runeWidth c t - 1)) :: runesAux fuel (t.drop (runeWidth c t - 1))

/-- The runes of a string, each as the bytes that encode it. -/
def runes (s : GoString) : List GoString := runesAux s.length s

/-- Go `utf8.RuneCountInString`. -/
def RuneCountInString (s : GoString) : Nat := (runes s).length

/-- Go `unicode.IsSpace`, on the encoding of a rune. -/
def isSpaceRune (r : GoString) : Bool :=
  match r with
  | [b] => decide (b = 32) || (decide (9 ≤ b) && decide (b ≤ 13))
  | [194, b] => decide (b = 133) || decide (b = 160)
  | [225, 154, 128] => true
  | [226, 128, b] => (decide (128 ≤ b) && decide (b ≤ 138)) || decide (b = 168) || decide (b = 169)
      || decide (b = 175)
  | [226, 129, 159] => true
  | [227, 128, 128] => true
  | _ => false

/-- Go `strings.TrimSpace`: the string without its leading and trailing
white-space runes. -/
def TrimSpace (s : GoString) : GoString :=
  (((runes s).dropWhile isSpaceRune).rdropWhile isSpaceRune).flatten


/-! ## Errors -/

/-- Go `error` values returned by the segment methods.  `FieldError` is the
result of `fieldError(name, err, value...)`, `TagMinLengthErr` of
`NewTagMinLengthErr(min, found)`, `TagMaxLengthErr` of `NewTagMaxLengthErr(err)`;
`errorString` is an error that carries only a message. -/
inductive GoError where
  | ErrFieldRequired
  | ErrValidTagForType
  | ErrIdentificationCode
  | ErrNonNumeric
  | ErrNonAlphanumeric
  | ErrNonAmount
  | ErrNonCurrencyCode
  | ErrInvalidProperty
  | errorString (msg : String)
  | TagMinLengthErr (min found : Nat)
  | TagMaxLengthErr (err : GoError)
  | FieldError (fieldName : String) (err : GoError) (value : Option GoString)
  deriving DecidableEq

/-- Modelled from the spec: `fieldError` is declared outside the five files;
it builds the field-attributed wrapper that carries the field name, the
underlying failure and the offending value (when one is passed). -/
def fieldError (fieldName : String) (err : GoError) (value : Option GoString) : GoError :=
  GoError.FieldError fieldName err value

/-- Modelled from the spec: `NewTagMinLengthErr` is declared outside the five
files; it builds the min-length error from the minimum and the length found. -/
def NewTagMinLengthErr (min found : Nat) : GoError := GoError.TagMinLengthErr min found

/-- Modelled from the spec: `NewTagMaxLengthErr` is declared outside the five
files; it builds the max-length error around the error it is given. -/
def NewTagMaxLengthErr (err : GoError) : GoError := GoError.TagMaxLengthErr err

/-! ## Constants, options and the helper structs -/

/-- Modelled from the spec: the reserved delimiter character that ends a
variable-width field on the wire, the asterisk. -/
def Delimiter : GoString := [42]

/-- Modelled from the spec: a tag is a constant 6-character code; the constants
are declared outside the five files.  Account credited in drawdown: the
bytes of the code 5400 in braces. -/
def TagAccountCreditedDrawdown : GoString := [123, 53, 52, 48, 48, 125]

/-- Modelled from the spec: the 6-character tag of the account debited in
drawdown, the code 4400 in braces. -/
def TagAccountDebitedDrawdown : GoString := [123, 52, 52, 48, 48, 125]

/-- Modelled from the spec: the 6-character tag of the amount of negotiated
discount, the code 8550 in braces. -/
def TagAmountNegotiatedDiscount : GoString := [123, 56, 53, 53, 48, 125]

/-- Modelled from the spec: the 6-character tag of the currency instructed
amount, the code 7033 in braces. -/
def TagCurrencyInstructedAmount : GoString := [123, 55, 48, 51, 51, 125]

/-- Modelled from the spec: the 6-character tag of the FI to beneficiary FI
advice, the code 6310 in braces. -/
def TagFIBeneficiaryFIAdvice : GoString := [123, 54, 51, 49, 48, 125]

/-- Modelled from the spec: the demand-deposit identification code, the
letter D; the constant is declared outside the five files. -/
def DemandDepositAccountNumber : GoString := [68]

/-- The Go struct `FormatOptions`. -/
structure FormatOptions where
  VariableLengthFields : Bool
  deriving DecidableEq

/-- The methods of the embedded `converters` struct that the five files call.
A field parser returns the value and the count read, or its error. -/
structure Converters where
  parseStringField : GoString → GoString
  parseFixedStringField : GoString → Nat → Except GoError (GoString × Nat)
  parseVariableStringField : GoString → Nat → Except GoError (GoString × Nat)
  alphaField : GoString → Nat → GoString
  numericStringField : GoString → Nat → GoString
  formatAlphaField : GoString → Nat → FormatOptions → GoString
  stripDelimiters : GoString → GoString
  verifyDataWithReadLength : GoString → Nat → Option GoError

/-- The methods of the embedded `validator` struct that the five files call;
`none` is the nil error. -/
structure Validators where
  isNumeric : GoString → Option GoError
  isAlphanumeric : GoString → Option GoError
  isAmount : GoString → Option GoError
  isCurrencyCode : GoString → Option GoError
  isIdentificationCode : GoString → Option GoError
  isAdviceCode : GoString → Option GoError

/-- A validator set that accepts every value: an instance for the statements
that hold whatever the validators are. -/
def acceptingValidators : Validators where
  isNumeric := fun _ => none
  isAlphanumeric := fun _ => none
  isAmount := fun _ => none
  isCurrencyCode := fun _ => none
  isIdentificationCode := fun _ => none
  isAdviceCode := fun _ => none

/-! ## The field codec of the specification

The codec is not in the five files.  Section 4.1 of the specification words it
in "characters".  The five files use every count that a field parser returns
as an offset into the bytes of the record (`length += read`,
`record[length:]`), and every width as a number of bytes of the output: a
fixed-width field occupies exactly its declared width and the byte length of a
fixed-mode segment is constant (sections 3, 6 and 8; `buf.Grow(15)`).  The
codec below therefore counts and pads in bytes, which for text of single-byte
characters is the number of characters. -/

/-- Modelled from the spec: `parseStringField` is not in the five files and the
spec does not list it; as for a fixed field, the value is the text it is given,
trimmed. -/
def specParseStringField (r : GoString) : GoString := TrimSpace r

/-- Modelled from the spec: `parseFixedStringField(input, n)` reads exactly `n`
characters from the start of `input`, returns the trimmed value and the count
of characters consumed (`n`), and fails with `TagMinLengthErr` if fewer than
`n` characters remain.  The count is in bytes. -/
def specParseFixedStringField (input : GoString) (n : Nat) : Except GoError (GoString × Nat) :=
  if input.length < n then .error (NewTagMinLengthErr n input.length)
  else .ok (TrimSpace (input.take n), n)

/-- Modelled from the spec: `parseVariableStringField(input, maxN)` reads up to
`maxN` characters, stopping early at the first occurrence of the reserved
delimiter; it returns the value (delimiter excluded) and the number of
characters consumed (including the delimiter if one was found, else `maxN`),
and fails if the remaining input is shorter than required to determine
termination.  The count is in bytes.  Where section 4.1 is silent: a field
absent from the input (nothing remains) parses to the empty string (section
4.3); the delimiter that directly follows a value of the full width `maxN` is
found and consumed, and the value is returned without its padding, because in
the fixed mode the Format methods of the five files write every field padded to
its width and then the delimiter, and section 8 asks Parse to reproduce the
field values; the failure is reported as the length error that section 7 gives
for input shorter than a field's structural minimum. -/
def specParseVariableStringField (input : GoString) (maxN : Nat) :
    Except GoError (GoString × Nat) :=
  if input = [] then .ok ([], 0)
  else
    let window := input.take (maxN + 1)
    let value := window.takeWhile (fun b => b != 42)
    if value.length < window.length then .ok (TrimSpace value, value.length + 1)
    else if maxN ≤ input.length then .ok (TrimSpace (input.take maxN), maxN)
    else .error (NewTagMinLengthErr maxN input.length)

/-- Modelled from the spec: `alphaField(value, n)` right-pads `value` with
spaces to width `n`.  The width is in bytes.  A value longer than `n` is
outside the contract of section 4.1; so that the field still occupies exactly
its width (section 6), it is cut to its first `n` bytes. -/
def specAlphaField (value : GoString) (n : Nat) : GoString :=
  (value ++ List.replicate (n - value.length) 32).take n

/-- Modelled from the spec: `numericStringField(value, n)` zero-left-pads a
numeric value to width `n` (in bytes). -/
def specNumericStringField (value : GoString) (n : Nat) : GoString :=
  List.replicate (n - value.length) 48 ++ value

/-- Modelled from the spec: `formatAlphaField(value, n, options)` returns
`value` trimmed if `options.VariableLengthFields`, else the fixed-width padded
form. -/
def specFormatAlphaField (value : GoString) (n : Nat) (options : FormatOptions) : GoString :=
  if options.VariableLengthFields then TrimSpace value else specAlphaField value n

/-- Modelled from the spec: `stripDelimiters(buf)` removes the redundant
delimiter padding that writing every field leaves at the end of the buffer: a
trailing run of delimiters is collapsed to the single delimiter that ends the
last written field, so that the output stays unambiguous to a variable-mode
reader.  Delimiters inside the buffer are kept. -/
def specStripDelimiters (buf : GoString) : GoString :=
  if (buf.rdropWhile (fun b => b == 42)).length < buf.length then
    buf.rdropWhile (fun b => b == 42) ++ Delimiter
  else buf

/-- Modelled from the spec: `verifyDataWithReadLength(record, consumed)` fails
with a length violation if `consumed` does not account for the entire record
(counted in bytes, like the counts that Parse adds up). -/
def specVerifyDataWithReadLength (record : GoString) (consumed : Nat) : Option GoError :=
  if record.length = consumed then none
  else some (GoError.errorString "record length differs from the length read")

/-- Modelled from the spec: the field codec of section 4.1. -/
def specConverters : Converters where
  parseStringField := specParseStringField
  parseFixedStringField := specParseFixedStringField
  parseVariableStringField := specParseVariableStringField
  alphaField := specAlphaField
  numericStringField := specNumericStringField
  formatAlphaField := specFormatAlphaField
  stripDelimiters := specStripDelimiters
  verifyDataWithReadLength := specVerifyDataWithReadLength

/-! ## accountCreditedDrawdown.go -/

/-- The Go struct `AccountCreditedDrawdown` (the embedded helper structs carry
no data). -/
structure AccountCreditedDrawdown where
  tag : GoString
  DrawdownCreditAccountNumber : GoString
  deriving DecidableEq

/-- Go `NewAccountCreditedDrawdown`. -/
def NewAccountCreditedDrawdown : AccountCreditedDrawdown :=
  { tag := TagAccountCreditedDrawdown, DrawdownCreditAccountNumber := [] }

/-- Go `(*AccountCreditedDrawdown).Parse`: the receiver after the call and the
error returned (`none` is nil); the outer `none` is a panic. -/
def AccountCreditedDrawdown.Parse (c : Converters) (creditDD : AccountCreditedDrawdown)
    (record : GoString) : Option (AccountCreditedDrawdown × Option GoError) :=
  if RuneCountInString record < 7 then
    some (creditDD, some (NewTagMinLengthErr 7 record.length))
  else
    match slice record 0 6 with
    | none => none
    | some tag =>
      let creditDD := { creditDD with tag := tag }
      let length := 6
      match sliceFrom record length with
      | none => none
      | some rest =>
        match c.parseFixedStringField rest 9 with
        | .error err => some (creditDD, some (fieldError "DrawdownCreditAccountNumber" err none))
        | .ok (value, read) =>
          let creditDD := { creditDD with DrawdownCreditAccountNumber := value }
          let length := length + read
          match c.verifyDataWithReadLength record length with
          | some err => some (creditDD, some (NewTagMaxLengthErr err))
          | none => some (creditDD, none)

/-- Go `DrawdownCreditAccountNumberField`. -/
def AccountCreditedDrawdown.DrawdownCreditAccountNumberField (c : Converters)
    (creditDD : AccountCreditedDrawdown) : GoString :=
  c.alphaField creditDD.DrawdownCreditAccountNumber 9

/-- Go `FormatCreditAccountNumber`. -/
def AccountCreditedDrawdown.FormatCreditAccountNumber (c : Converters)
    (creditDD : AccountCreditedDrawdown) (options : FormatOptions) : GoString :=
  c.formatAlphaField creditDD.DrawdownCreditAccountNumber 9 options

/-- Go `(*AccountCreditedDrawdown).Format`; the options are not consulted. -/
def AccountCreditedDrawdown.Format (c : Converters) (creditDD : AccountCreditedDrawdown)
    (_options : FormatOptions) : GoString :=
  creditDD.tag ++ creditDD.DrawdownCreditAccountNumberField c

/-- Go `(*AccountCreditedDrawdown).String`. -/
def AccountCreditedDrawdown.String (c : Converters) (creditDD : AccountCreditedDrawdown) :
    GoString :=
  creditDD.Format c { VariableLengthFields := false }

/-- Go `(*AccountCreditedDrawdown).fieldInclusion`. -/
def AccountCreditedDrawdown.fieldInclusion (creditDD : AccountCreditedDrawdown) :
    Option GoError :=
  if creditDD.DrawdownCreditAccountNumber = [] then
    some (fieldError "DrawdownCreditAccountNumber" GoError.ErrFieldRequired none)
  else none

/-- Go `(*AccountCreditedDrawdown).Validate`. -/
def AccountCreditedDrawdown.Validate (v : Validators) (creditDD : AccountCreditedDrawdown) :
    Option GoError :=
  match creditDD.fieldInclusion with
  | some err => some err
  | none =>
    if creditDD.tag ≠ TagAccountCreditedDrawdown then
      some (fieldError "tag" GoError.ErrValidTagForType (some creditDD.tag))
    else
      match v.isNumeric creditDD.DrawdownCreditAccountNumber with
      | some err =>
        some (fieldError "DrawdownCreditAccountNumber" err
          (some creditDD.DrawdownCreditAccountNumber))
      | none => none

/-! ## accountDebitedDrawdown.go -/

/-- The Go struct `Address`, as far as the segment uses it. -/
structure Address where
  AddressLineOne : GoString
  AddressLineTwo : GoString
  AddressLineThree : GoString
  deriving DecidableEq

/-- The Go struct `AccountDebitedDrawdown`. -/
structure AccountDebitedDrawdown where
  tag : GoString
  IdentificationCode : GoString
  Identifier : GoString
  Name : GoString
  Address : Address
  deriving DecidableEq

/-- Go `NewAccountDebitedDrawdown`. -/
def NewAccountDebitedDrawdown : AccountDebitedDrawdown :=
  { tag := TagAccountDebitedDrawdown, IdentificationCode := [], Identifier := [], Name := [],
    Address := { AddressLineOne := [], AddressLineTwo := [], AddressLineThree := [] } }

/-- Go `(*AccountDebitedDrawdown).Parse`. -/
def AccountDebitedDrawdown.Parse (c : Converters) (debitDD : AccountDebitedDrawdown)
    (record : GoString) : Option (AccountDebitedDrawdown × Option GoError) :=
  if RuneCountInString record < 9 then
    some (debitDD, some (NewTagMinLengthErr 9 record.length))
  else
    match slice record 0 6 with
    | none => none
    | some tag =>
    let debitDD := { debitDD with tag := tag }
    match slice record 6 7 with
    | none => none
    | some code =>
    let debitDD := { debitDD with IdentificationCode := code }
    let length := 7
    match sliceFrom record length with
    | none => none
    | some rest =>
    match c.parseVariableStringField rest 34 with
    | .error err => some (debitDD, some (fieldError "Identifier" err none))
    | .ok (value, read) =>
    let debitDD := { debitDD with Identifier := value }
    let length := length + read
    match sliceFrom record length with
    | none => none
    | some rest =>
    match c.parseVariableStringField rest 35 with
    | .error err => some (debitDD, some (fieldError "Name" err none))
    | .ok (value, read) =>
    let debitDD := { debitDD with Name := value }
    let length := length + read
    match sliceFrom record length with
    | none => none
    | some rest =>
    match c.parseVariableStringField rest 35 with
    | .error err => some (debitDD, some (fieldError "AddressLineOne" err none))
    | .ok (value, read) =>
    let debitDD := { debitDD with Address := { debitDD.Address with AddressLineOne := value } }
    let length := length + read
    match sliceFrom record length with
    | none => none
    | some rest =>
    match c.parseVariableStringField rest 35 with
    | .error err => some (debitDD, some (fieldError "AddressLineTwo" err none))
    | .ok (value, read) =>
    let debitDD := { debitDD with Address := { debitDD.Address with AddressLineTwo := value } }
    let length := length + read
    match sliceFrom record length with
    | none => none
    | some rest =>
    match c.parseVariableStringField rest 35 with
    | .error err => some (debitDD, some (fieldError "AddressLineThree" err none))
    | .ok (value, read) =>
    let debitDD := { debitDD with Address := { debitDD.Address with AddressLineThree := value } }
    let length := length + read
    match c.verifyDataWithReadLength record length with
    | some err => some (debitDD, some (NewTagMaxLengthErr err))
    | none => some (debitDD, none)

/-- Go `IdentificationCodeField`. -/
def AccountDebitedDrawdown.IdentificationCodeField (c : Converters)
    (debitDD : AccountDebitedDrawdown) : GoString :=
  c.alphaField debitDD.IdentificationCode 1

/-- Go `FormatIdentifier`. -/
def AccountDebitedDrawdown.FormatIdentifier (c : Converters) (debitDD : AccountDebitedDrawdown)
    (options : FormatOptions) : GoString :=
  c.formatAlphaField debitDD.Identifier 34 options

/-- Go `FormatName`. -/
def AccountDebitedDrawdown.FormatName (c : Converters) (debitDD : AccountDebitedDrawdown)
    (options : FormatOptions) : GoString :=
  c.formatAlphaField debitDD.Name 35 options

/-- Go `FormatAddressLineOne`. -/
def AccountDebitedDrawdown.FormatAddressLineOne (c : Converters)
    (debitDD : AccountDebitedDrawdown) (options : FormatOptions) : GoString :=
  c.formatAlphaField debitDD.Address.AddressLineOne 35 options

/-- Go `FormatAddressLineTwo`. -/
def AccountDebitedDrawdown.FormatAddressLineTwo (c : Converters)
    (debitDD : AccountDebitedDrawdown) (options : FormatOptions) : GoString :=
  c.formatAlphaField debitDD.Address.AddressLineTwo 35 options

/-- Go `FormatAddressLineThree`. -/
def AccountDebitedDrawdown.FormatAddressLineThree (c : Converters)
    (debitDD : AccountDebitedDrawdown) (options : FormatOptions) : GoString :=
  c.formatAlphaField debitDD.Address.AddressLineThree 35 options

/-- Go `(*AccountDebitedDrawdown).Format`: every variable-width field is
followed by the delimiter in both modes; only the variable mode strips. -/
def AccountDebitedDrawdown.Format (c : Converters) (debitDD : AccountDebitedDrawdown)
    (options : FormatOptions) : GoString :=
  let buf := debitDD.tag
    ++ debitDD.IdentificationCodeField c
    ++ (debitDD.FormatIdentifier c options ++ Delimiter)
    ++ (debitDD.FormatName c options ++ Delimiter)
    ++ (debitDD.FormatAddressLineOne c options ++ Delimiter)
    ++ (debitDD.FormatAddressLineTwo c options ++ Delimiter)
    ++ (debitDD.FormatAddressLineThree c options ++ Delimiter)
  if options.VariableLengthFields then c.stripDelimiters buf else buf

/-- Go `(*AccountDebitedDrawdown).String`. -/
def AccountDebitedDrawdown.String (c : Converters) (debitDD : AccountDebitedDrawdown) :
    GoString :=
  debitDD.Format c { VariableLengthFields := false }

/-- Go `(*AccountDebitedDrawdown).fieldInclusion`. -/
def AccountDebitedDrawdown.fieldInclusion (debitDD : AccountDebitedDrawdown) : Option GoError :=
  if debitDD.IdentificationCode = [] then
    some (fieldError "IdentificationCode" GoError.ErrFieldRequired none)
  else if debitDD.Identifier = [] then
    some (fieldError "Identifier" GoError.ErrFieldRequired none)
  else if debitDD.Name = [] then
    some (fieldError "Name" GoError.ErrFieldRequired none)
  else none

/-- Go `(*AccountDebitedDrawdown).Validate`. -/
def AccountDebitedDrawdown.Validate (v : Validators) (debitDD : AccountDebitedDrawdown) :
    Option GoError :=
  match debitDD.fieldInclusion with
  | some err => some err
  | none =>
  if debitDD.tag ≠ TagAccountDebitedDrawdown then
    some (fieldError "tag" GoError.ErrValidTagForType (some debitDD.tag))
  else
  match v.isIdentificationCode debitDD.IdentificationCode with
  | some err => some (fieldError "IdentificationCode" err (some debitDD.IdentificationCode))
  | none =>
  if debitDD.IdentificationCode ≠ DemandDepositAccountNumber then
    some (fieldError "IdentificationCode" GoError.ErrIdentificationCode
      (some debitDD.IdentificationCode))
  else
  match v.isAlphanumeric debitDD.Identifier with
  | some err => some (fieldError "Identifier" err (some debitDD.Identifier))
  | none =>
  match v.isAlphanumeric debitDD.Name with
  | some err => some (fieldError "Name" err (some debitDD.Name))
  | none =>
  match v.isAlphanumeric debitDD.Address.AddressLineOne with
  | some err => some (fieldError "AddressLineOne" err (some debitDD.Address.AddressLineOne))
  | none =>
  match v.isAlphanumeric debitDD.Address.AddressLineTwo with
  | some err => some (fieldError "AddressLineTwo" err (some debitDD.Address.AddressLineTwo))
  | none =>
  match v.isAlphanumeric debitDD.Address.AddressLineThree with
  | some err => some (fieldError "AddressLineThree" err (some debitDD.Address.AddressLineThree))
  | none => none

/-! ## amountNegotiatedDiscount.go -/

/-- The Go struct `RemittanceAmount`, as far as the segment uses it. -/
structure RemittanceAmount where
  CurrencyCode : GoString
  Amount : GoString
  deriving DecidableEq

/-- The Go struct `AmountNegotiatedDiscount`. -/
structure AmountNegotiatedDiscount where
  tag : GoString
  RemittanceAmount : RemittanceAmount
  deriving DecidableEq

/-- Go `NewAmountNegotiatedDiscount`. -/
def NewAmountNegotiatedDiscount : AmountNegotiatedDiscount :=
  { tag := TagAmountNegotiatedDiscount, RemittanceAmount := { CurrencyCode := [], Amount := [] } }

/-- Go `(*AmountNegotiatedDiscount).Parse`. -/
def AmountNegotiatedDiscount.Parse (c : Converters) (nd : AmountNegotiatedDiscount)
    (record : GoString) : Option (AmountNegotiatedDiscount × Option GoError) :=
  if RuneCountInString record < 8 then
    some (nd, some (NewTagMinLengthErr 8 record.length))
  else
    match slice record 0 6 with
    | none => none
    | some tag =>
    let nd := { nd with tag := tag }
    let length := 6
    match sliceFrom record length with
    | none => none
    | some rest =>
    match c.parseFixedStringField rest 3 with
    | .error err => some (nd, some (fieldError "CurrencyCode" err none))
    | .ok (value, read) =>
    let nd := { nd with RemittanceAmount := { nd.RemittanceAmount with CurrencyCode := value } }
    let length := length + read
    match sliceFrom record length with
    | none => none
    | some rest =>
    match c.parseVariableStringField rest 19 with
    | .error err => some (nd, some (fieldError "Amount" err none))
    | .ok (value, read) =>
    let nd := { nd with RemittanceAmount := { nd.RemittanceAmount with Amount := value } }
    let length := length + read
    match c.verifyDataWithReadLength record length with
    | some err => some (nd, some (NewTagMaxLengthErr err))
    | none => some (nd, none)

/-- Go `CurrencyCodeField`. -/
def AmountNegotiatedDiscount.CurrencyCodeField (c : Converters) (nd : AmountNegotiatedDiscount) :
    GoString :=
  c.alphaField nd.RemittanceAmount.CurrencyCode 3

/-- Go `AmountField`. -/
def AmountNegotiatedDiscount.AmountField (c : Converters) (nd : AmountNegotiatedDiscount) :
    GoString :=
  c.alphaField nd.RemittanceAmount.Amount 19

/-- Go `FormatCurrencyCode`. -/
def AmountNegotiatedDiscount.FormatCurrencyCode (c : Converters) (nd : AmountNegotiatedDiscount)
    (options : FormatOptions) : GoString :=
  c.formatAlphaField nd.RemittanceAmount.CurrencyCode 3 options

/-- Go `FormatAmount`. -/
def AmountNegotiatedDiscount.FormatAmount (c : Converters) (nd : AmountNegotiatedDiscount)
    (options : FormatOptions) : GoString :=
  c.formatAlphaField nd.RemittanceAmount.Amount 19 options

/-- Go `(*AmountNegotiatedDiscount).Format`: the buffer is returned as built,
in both modes. -/
def AmountNegotiatedDiscount.Format (c : Converters) (nd : AmountNegotiatedDiscount)
    (options : FormatOptions) : GoString :=
  nd.tag ++ nd.CurrencyCodeField c ++ (nd.FormatAmount c options ++ Delimiter)

/-- Go `(*AmountNegotiatedDiscount).String`. -/
def AmountNegotiatedDiscount.String (c : Converters) (nd : AmountNegotiatedDiscount) : GoString :=
  nd.Format c { VariableLengthFields := false }

/-- Go `(*AmountNegotiatedDiscount).fieldInclusion`. -/
def AmountNegotiatedDiscount.fieldInclusion (nd : AmountNegotiatedDiscount) : Option GoError :=
  if nd.RemittanceAmount.Amount = [] then
    some (fieldError "Amount" GoError.ErrFieldRequired none)
  else if nd.RemittanceAmount.CurrencyCode = [] then
    some (fieldError "CurrencyCode" GoError.ErrFieldRequired none)
  else none

/-- Go `(*AmountNegotiatedDiscount).Validate`. -/
def AmountNegotiatedDiscount.Validate (v : Validators) (nd : AmountNegotiatedDiscount) :
    Option GoError :=
  match nd.fieldInclusion with
  | some err => some err
  | none =>
  if nd.tag ≠ TagAmountNegotiatedDiscount then
    some (fieldError "tag" GoError.ErrValidTagForType (some nd.tag))
  else
  match v.isCurrencyCode nd.RemittanceAmount.CurrencyCode with
  | some err => some (fieldError "CurrencyCode" err (some nd.RemittanceAmount.CurrencyCode))
  | none =>
  match v.isAmount nd.RemittanceAmount.Amount with
  | some err => some (fieldError "Amount" err (some nd.RemittanceAmount.Amount))
  | none => none

/-! ## currencyInstructedAmount.go -/

/-- The Go struct `CurrencyInstructedAmount`. -/
structure CurrencyInstructedAmount where
  tag : GoString
  SwiftFieldTag : GoString
  Amount : GoString
  deriving DecidableEq

/-- Go `NewCurrencyInstructedAmount`. -/
def NewCurrencyInstructedAmount : CurrencyInstructedAmount :=
  { tag := TagCurrencyInstructedAmount, SwiftFieldTag := [], Amount := [] }

/-- Go `(*CurrencyInstructedAmount).Parse`. -/
def CurrencyInstructedAmount.Parse (c : Converters) (cia : CurrencyInstructedAmount)
    (record : GoString) : Option (CurrencyInstructedAmount × Option GoError) :=
  if RuneCountInString record < 25 then
    some (cia, some (NewTagMinLengthErr 25 record.length))
  else
    match slice record 0 6 with
    | none => none
    | some tag =>
    let cia := { cia with tag := tag }
    let length := 6
    match sliceFrom record length with
    | none => none
    | some rest =>
    match c.parseVariableStringField rest 5 with
    | .error err => some (cia, some (fieldError "SwiftFieldTag" err none))
    | .ok (value, read) =>
    let cia := { cia with SwiftFieldTag := value }
    let length := length + read
    match sliceFrom record length with
    | none => none
    | some rest =>
    match c.parseVariableStringField rest 18 with
    | .error err => some (cia, some (fieldError "Amount" err none))
    | .ok (value, read) =>
    let cia := { cia with Amount := value }
    let length := length + read
    match c.verifyDataWithReadLength record length with
    | some err => some (cia, some (NewTagMaxLengthErr err))
    | none => some (cia, none)

/-- Go `SwiftFieldTagField`. -/
def CurrencyInstructedAmount.SwiftFieldTagField (c : Converters) (cia : CurrencyInstructedAmount) :
    GoString :=
  c.alphaField cia.SwiftFieldTag 5

/-- Go `AmountField`: the zero-padded amount. -/
def CurrencyInstructedAmount.AmountField (c : Converters) (cia : CurrencyInstructedAmount) :
    GoString :=
  c.numericStringField cia.Amount 18

/-- Go `FormatAmount`. -/
def CurrencyInstructedAmount.FormatAmount (c : Converters) (cia : CurrencyInstructedAmount)
    (options : FormatOptions) : GoString :=
  c.formatAlphaField cia.Amount 18 options

/-- Go `FormatSwiftFieldTag`. -/
def CurrencyInstructedAmount.FormatSwiftFieldTag (c : Converters) (cia : CurrencyInstructedAmount)
    (options : FormatOptions) : GoString :=
  c.formatAlphaField cia.SwiftFieldTag 5 options

/-- Go `(*CurrencyInstructedAmount).Format`: the buffer is returned as built,
in both modes. -/
def CurrencyInstructedAmount.Format (c : Converters) (cia : CurrencyInstructedAmount)
    (options : FormatOptions) : GoString :=
  cia.tag ++ (cia.FormatSwiftFieldTag c options ++ Delimiter)
    ++ (cia.FormatAmount c options ++ Delimiter)

/-- Go `(*CurrencyInstructedAmount).String`. -/
def CurrencyInstructedAmount.String (c : Converters) (cia : CurrencyInstructedAmount) : GoString :=
  cia.Format c { VariableLengthFields := false }

/-- Go `(*CurrencyInstructedAmount).Validate`. -/
def CurrencyInstructedAmount.Validate (v : Validators) (cia : CurrencyInstructedAmount) :
    Option GoError :=
  if cia.tag ≠ TagCurrencyInstructedAmount then
    some (fieldError "tag" GoError.ErrValidTagForType (some cia.tag))
  else
  match v.isAlphanumeric cia.SwiftFieldTag with
  | some err => some (fieldError "SwiftFieldTag" err (some cia.SwiftFieldTag))
  | none =>
  match v.isAmount cia.Amount with
  | some err => some (fieldError "Amount" err (some cia.Amount))
  | none => none

/-! ## fIBeneficiaryFIAdvice.go -/

/-- The Go struct `Advice`, as far as the segment uses it. -/
structure Advice where
  AdviceCode : GoString
  LineOne : GoString
  LineTwo : GoString
  LineThree : GoString
  LineFour : GoString
  LineFive : GoString
  LineSix : GoString
  deriving DecidableEq

/-- The Go struct `FIBeneficiaryFIAdvice`. -/
structure FIBeneficiaryFIAdvice where
  tag : GoString
  Advice : Advice
  deriving DecidableEq

/-- Go `NewFIBeneficiaryFIAdvice`. -/
def NewFIBeneficiaryFIAdvice : FIBeneficiaryFIAdvice :=
  { tag := TagFIBeneficiaryFIAdvice,
    Advice := { AdviceCode := [], LineOne := [], LineTwo := [], LineThree := [], LineFour := [],
                LineFive := [], LineSix := [] } }

/-- Go `(*FIBeneficiaryFIAdvice).Parse`. -/
def FIBeneficiaryFIAdvice.Parse (c : Converters) (fibfia : FIBeneficiaryFIAdvice)
    (record : GoString) : Option (FIBeneficiaryFIAdvice × Option GoError) :=
  if RuneCountInString record < 9 then
    some (fibfia, some (NewTagMinLengthErr 9 record.length))
  else
    match slice record 0 6 with
    | none => none
    | some tag =>
    let fibfia := { fibfia with tag := tag }
    match slice record 6 9 with
    | none => none
    | some code =>
    let fibfia := { fibfia with Advice := { fibfia.Advice with AdviceCode := c.parseStringField code } }
    let length := 9
    match sliceFrom record length with
    | none => none
    | some rest =>
    match c.parseVariableStringField rest 26 with
    | .error err => some (fibfia, some (fieldError "LineOne" err none))
    | .ok (value, read) =>
    let fibfia := { fibfia with Advice := { fibfia.Advice with LineOne := value } }
    let length := length + read
    match sliceFrom record length with
    | none => none
    | some rest =>
    match c.parseVariableStringField rest 33 with
    | .error err => some (fibfia, some (fieldError "LineTwo" err none))
    | .ok (value, read) =>
    let fibfia := { fibfia with Advice := { fibfia.Advice with LineTwo := value } }
    let length := length + read
    match sliceFrom record length with
    | none => none
    | some rest =>
    match c.parseVariableStringField rest 33 with
    | .error err => some (fibfia, some (fieldError "LineThree" err none))
    | .ok (value, read) =>
    let fibfia := { fibfia with Advice := { fibfia.Advice with LineThree := value } }
    let length := length + read
    match sliceFrom record length with
    | none => none
    | some rest =>
    match c.parseVariableStringField rest 33 with
    | .error err => some (fibfia, some (fieldError "LineFour" err none))
    | .ok (value, read) =>
    let fibfia := { fibfia with Advice := { fibfia.Advice with LineFour := value } }
    let length := length + read
    match sliceFrom record length with
    | none => none
    | some rest =>
    match c.parseVariableStringField rest 33 with
    | .error err => some (fibfia, some (fieldError "LineFive" err none))
    | .ok (value, read) =>
    let fibfia := { fibfia with Advice := { fibfia.Advice with LineFive := value } }
    let length := length + read
    match sliceFrom record length with
    | none => none
    | some rest =>
    match c.parseVariableStringField rest 33 with
    | .error err => some (fibfia, some (fieldError "LineSix" err none))
    | .ok (value, read) =>
    let fibfia := { fibfia with Advice := { fibfia.Advice with LineSix := value } }
    let length := length + read
    match c.verifyDataWithReadLength record length with
    | some err => some (fibfia, some (NewTagMaxLengthErr err))
    | none => some (fibfia, none)

/-- Go `AdviceCodeField`. -/
def FIBeneficiaryFIAdvice.AdviceCodeField (c : Converters) (fibfia : FIBeneficiaryFIAdvice) :
    GoString :=
  c.alphaField fibfia.Advice.AdviceCode 3

/-- Go `FormatLineOne`. -/
def FIBeneficiaryFIAdvice.FormatLineOne (c : Converters) (fibfia : FIBeneficiaryFIAdvice)
    (options : FormatOptions) : GoString :=
  c.formatAlphaField fibfia.Advice.LineOne 26 options

/-- Go `FormatLineTwo`. -/
def FIBeneficiaryFIAdvice.FormatLineTwo (c : Converters) (fibfia : FIBeneficiaryFIAdvice)
    (options : FormatOptions) : GoString :=
  c.formatAlphaField fibfia.Advice.LineTwo 33 options

/-- Go `FormatLineThree`. -/
def FIBeneficiaryFIAdvice.FormatLineThree (c : Converters) (fibfia : FIBeneficiaryFIAdvice)
    (options : FormatOptions) : GoString :=
  c.formatAlphaField fibfia.Advice.LineThree 33 options

/-- Go `FormatLineFour`. -/
def FIBeneficiaryFIAdvice.FormatLineFour (c : Converters) (fibfia : FIBeneficiaryFIAdvice)
    (options : FormatOptions) : GoString :=
  c.formatAlphaField fibfia.Advice.LineFour 33 options

/-- Go `FormatLineFive`. -/
def FIBeneficiaryFIAdvice.FormatLineFive (c : Converters) (fibfia : FIBeneficiaryFIAdvice)
    (options : FormatOptions) : GoString :=
  c.formatAlphaField fibfia.Advice.LineFive 33 options

/-- Go `FormatLineSix`. -/
def FIBeneficiaryFIAdvice.FormatLineSix (c : Converters) (fibfia : FIBeneficiaryFIAdvice)
    (options : FormatOptions) : GoString :=
  c.formatAlphaField fibfia.Advice.LineSix 33 options

/-- Go `(*FIBeneficiaryFIAdvice).Format`. -/
def FIBeneficiaryFIAdvice.Format (c : Converters) (fibfia : FIBeneficiaryFIAdvice)
    (options : FormatOptions) : GoString :=
  let buf := fibfia.tag
    ++ fibfia.AdviceCodeField c
    ++ (fibfia.FormatLineOne c options ++ Delimiter)
    ++ (fibfia.FormatLineTwo c options ++ Delimiter)
    ++ (fibfia.FormatLineThree c options ++ Delimiter)
    ++ (fibfia.FormatLineFour c options ++ Delimiter)
    ++ (fibfia.FormatLineFive c options ++ Delimiter)
    ++ (fibfia.FormatLineSix c options ++ Delimiter)
  if options.VariableLengthFields then c.stripDelimiters buf else buf

/-- Go `(*FIBeneficiaryFIAdvice).String`. -/
def FIBeneficiaryFIAdvice.String (c : Converters) (fibfia : FIBeneficiaryFIAdvice) : GoString :=
  fibfia.Format c { VariableLengthFields := false }

/-- Go `(*FIBeneficiaryFIAdvice).Validate`. -/
def FIBeneficiaryFIAdvice.Validate (v : Validators) (fibfia : FIBeneficiaryFIAdvice) :
    Option GoError :=
  if fibfia.tag ≠ TagFIBeneficiaryFIAdvice then
    some (fieldError "tag" GoError.ErrValidTagForType (some fibfia.tag))
  else
  match v.isAdviceCode fibfia.Advice.AdviceCode with
  | some err => some (fieldError "AdviceCode" err (some fibfia.Advice.AdviceCode))
  | none =>
  match v.isAlphanumeric fibfia.Advice.LineOne with
  | some err => some (fieldError "LineOne" err (some fibfia.Advice.LineOne))
  | none =>
  match v.isAlphanumeric fibfia.Advice.LineTwo with
  | some err => some (fieldError "LineTwo" err (some fibfia.Advice.LineTwo))
  | none =>
  match v.isAlphanumeric fibfia.Advice.LineThree with
  | some err => some (fieldError "LineThree" err (some fibfia.Advice.LineThree))
  | none =>
  match v.isAlphanumeric fibfia.Advice.LineFour with
  | some err => some (fieldError "LineFour" err (some fibfia.Advice.LineFour))
  | none =>
  match v.isAlphanumeric fibfia.Advice.LineFive with
  | some err => some (fieldError "LineFive" err (some fibfia.Advice.LineFive))
  | none =>
  match v.isAlphanumeric fibfia.Advice.LineSix with
  | some err => some (fieldError "LineSix" err (some fibfia.Advice.LineSix))
  | none => none

end Wire

/-! ## Field values of the round-trip statements -/

namespace Wire

/-- A field value of at most `max` bytes, free of the delimiter and of leading
or trailing white space. -/
def PlainField (v : GoString) (max : Nat) : Prop :=
  v.length ≤ max ∧ (∀ b ∈ v, b ≠ 42) ∧ TrimSpace v = v

instance (v : GoString) (max : Nat) : Decidable (PlainField v max) := by
  unfold PlainField; infer_instance

end Wire

/-! ## Proof device: a run of variable-width fields -/

namespace Wire

/-- The successful run of consecutive `parseVariableStringField` calls that every
Parse makes, each on `record[length:]` with `length` advanced by the count
read: the values in order and the final `length`; `none` if a slice panics or a
field parse fails.  A device to state lemmas about the unrolled calls; the
Parse functions above do not use it. -/
def parseVarsOk (c : Converters) (record : GoString) : List Nat → Nat → Option (List GoString × Nat)
  | [], length => some ([], length)
  | n :: ns, length =>
    match sliceFrom record length with
    | none => none
    | some rest =>
      match c.parseVariableStringField rest n with
      | .error _ => none
      | .ok (value, read) =>
        match parseVarsOk c record ns (length + read) with
        | none => none
        | some (vals, len) => some (value :: vals, len)

/-- The wire form of a run of delimiter-terminated fields. -/
def wireFields (fs : List GoString) : GoString := (fs.map (fun v => v ++ Delimiter)).flatten

end Wire

/-! ## The validators' error kinds and the error classes -/

namespace Wire

/-- Modelled from the spec: the validators are not in the five files.  Each
returns success or its one specific error kind (section 4.2), named in section
7: `isAlphanumeric` fails with ErrNonAlphanumeric, `isAmount` with
ErrNonAmount, `isCurrencyCode` with ErrNonCurrencyCode. -/
def Validators.OwnErrorKinds (v : Validators) : Prop :=
  (∀ s e, v.isAlphanumeric s = some e → e = GoError.ErrNonAlphanumeric) ∧
  (∀ s e, v.isAmount s = some e → e = GoError.ErrNonAmount) ∧
  (∀ s e, v.isCurrencyCode s = some e → e = GoError.ErrNonCurrencyCode)

/-- A validator set that keeps to its own error kinds, for the witness
statements: `isNumeric` accepts digits, `isAlphanumeric` the printable ASCII
characters, `isAmount` digits with the comma and the dot, `isCurrencyCode` the
code USD; the two enumerated-code checks accept every value. -/
def sampleValidators : Validators where
  isNumeric := fun s => if s.all (fun b => decide (48 ≤ b) && decide (b ≤ 57)) then none
    else some GoError.ErrNonNumeric
  isAlphanumeric := fun s => if s.all (fun b => decide (32 ≤ b) && decide (b ≤ 126)) then none
    else some GoError.ErrNonAlphanumeric
  isAmount := fun s =>
    if s.all (fun b => (decide (48 ≤ b) && decide (b ≤ 57)) || decide (b = 44) || decide (b = 46))
    then none else some GoError.ErrNonAmount
  isCurrencyCode := fun s => if s = [85, 83, 68] then none else some GoError.ErrNonCurrencyCode
  isIdentificationCode := fun _ => none
  isAdviceCode := fun _ => none

/-- A validator set like `sampleValidators` whose `isAmount` also rejects the
empty string: an amount begins with at least one digit. -/
def digitAmountValidators : Validators :=
  { sampleValidators with
    isAmount := fun s =>
      if s ≠ [] ∧ s.all (fun b =>
          (decide (48 ≤ b) && decide (b ≤ 57)) || decide (b = 44) || decide (b = 46)) = true
      then none else some GoError.ErrNonAmount }

/-- The lines of the advice with their field names, in the order in which
Validate checks them. -/
def adviceNamedLines (fibfia : FIBeneficiaryFIAdvice) : List (String × GoString) :=
  [("LineOne", fibfia.Advice.LineOne), ("LineTwo", fibfia.Advice.LineTwo),
   ("LineThree", fibfia.Advice.LineThree), ("LineFour", fibfia.Advice.LineFour),
   ("LineFive", fibfia.Advice.LineFive), ("LineSix", fibfia.Advice.LineSix)]

end Wire

/-! ## JSON decoding -/

namespace Wire

/-- What the call `json.Unmarshal(data, &aux)` of package `encoding/json` does
with the segment behind the alias pointer: the segment afterwards and the error
returned (`none` is nil).  The package is a parameter of the five
`UnmarshalJSON` methods; nothing is assumed about it, so a decoder may write
any field, the tag included, and may leave a partly written segment behind
when it fails. -/
abbrev JSONUnmarshal (α : Type) : Type := GoString → α → α × Option GoError

/-- Go `(*AccountCreditedDrawdown).UnmarshalJSON`: the receiver after the call and
the error returned. -/
def AccountCreditedDrawdown.UnmarshalJSON (jsonUnmarshal : JSONUnmarshal AccountCreditedDrawdown)
    (creditDD : AccountCreditedDrawdown) (data : GoString) : AccountCreditedDrawdown × Option GoError :=
  match jsonUnmarshal data creditDD with
  | (creditDD, some err) => (creditDD, some err)
  | (creditDD, none) => ({ creditDD with tag := TagAccountCreditedDrawdown }, none)

/-- Go `(*AccountDebitedDrawdown).UnmarshalJSON`: the receiver after the call and
the error returned. -/
def AccountDebitedDrawdown.UnmarshalJSON (jsonUnmarshal : JSONUnmarshal AccountDebitedDrawdown)
    (debitDD : AccountDebitedDrawdown) (data : GoString) : AccountDebitedDrawdown × Option GoError :=
  match jsonUnmarshal data debitDD with
  | (debitDD, some err) => (debitDD, some err)
  | (debitDD, none) => ({ debitDD with tag := TagAccountDebitedDrawdown }, none)

/-- Go `(*AmountNegotiatedDiscount).UnmarshalJSON`: the receiver after the call and
the error returned. -/
def AmountNegotiatedDiscount.UnmarshalJSON (jsonUnmarshal : JSONUnmarshal AmountNegotiatedDiscount)
    (nd : AmountNegotiatedDiscount) (data : GoString) : AmountNegotiatedDiscount × Option GoError :=
  match jsonUnmarshal data nd with
  | (nd, some err) => (nd, some err)
  | (nd, none) => ({ nd with tag := TagAmountNegotiatedDiscount }, none)

/-- Go `(*CurrencyInstructedAmount).UnmarshalJSON`: the receiver after the call and
the error returned. -/
def CurrencyInstructedAmount.UnmarshalJSON (jsonUnmarshal : JSONUnmarshal CurrencyInstructedAmount)
    (cia : CurrencyInstructedAmount) (data : GoString) : CurrencyInstructedAmount × Option GoError :=
  match jsonUnmarshal data cia with
  | (cia, some err) => (cia, some err)
  | (cia, none) => ({ cia with tag := TagCurrencyInstructedAmount }, none)

/-- Go `(*FIBeneficiaryFIAdvice).UnmarshalJSON`: the receiver after the call and
the error returned. -/
def FIBeneficiaryFIAdvice.UnmarshalJSON (jsonUnmarshal : JSONUnmarshal FIBeneficiaryFIAdvice)
    (fibfia : FIBeneficiaryFIAdvice) (data : GoString) : FIBeneficiaryFIAdvice × Option GoError :=
  match jsonUnmarshal data fibfia with
  | (fibfia, some err) => (fibfia, some err)
  | (fibfia, none) => ({ fibfia with tag := TagFIBeneficiaryFIAdvice }, none)

/-- A decoder for the witness statements: it overwrites every field of the
segment with the input bytes, the tag included, and reports no error. -/
def overwritingUnmarshal : JSONUnmarshal AccountCreditedDrawdown :=
  fun data _ => (⟨data, data⟩, none)

end Wire

/-! # Theorems -/

namespace Wire

/-! ## Runes -/

theorem runeWidth_pos (c : Nat) (t : GoString) : 1 ≤ runeWidth c t := by
  unfold runeWidth
  repeat' split
  all_goals omega

theorem runeWidth_le (c : Nat) (t : GoString) : runeWidth c t ≤ t.length + 1 := by
  unfold runeWidth
  repeat' split
  all_goals try simp only [List.length_cons, List.length_nil]
  all_goals omega

theorem runesAux_fuel (f : Nat) : ∀ (g : Nat) (s : GoString), s.length ≤ f → s.length ≤ g →
    runesAux f s = runesAux g s := by
  induction f with
  | zero =>
    intro g s hf _
    have : s = [] := List.length_eq_zero.mp (by omega)
    subst this
    cases g <;> simp [runesAux]
  | succ f ih =>
    intro g s hf hg
    cases s with
    | nil => cases g <;> simp [runesAux]
    | cons c t =>
      cases g with
      | zero => simp at hg
      | succ g =>
        simp only [runesAux, List.cons.injEq, true_and]
        simp only [List.length_cons] at hf hg
        apply ih <;> simp only [List.length_drop] <;> omega

theorem runes_nil : runes [] = [] := rfl

theorem runes_cons (c : Nat) (t : GoString) :
    runes (c :: t) = (c :: t.take (runeWidth c t - 1)) :: runes (t.drop (runeWidth c t - 1)) := by
  simp only [runes, List.length_cons, runesAux, List.cons.injEq, true_and]
  apply runesAux_fuel <;> simp only [List.length_drop] <;> omega

theorem runes_cons_ascii (a : Nat) (t : GoString) (ha : a < 128) :
    runes (a :: t) = [a] :: runes t := by
  have hw : runeWidth a t = 1 := by
    unfold runeWidth
    rw [if_pos (by omega)]
  rw [runes_cons, hw]
  simp

theorem runes_ascii (s : GoString) (hs : IsAscii s) : runes s = s.map (fun b => [b]) := by
  induction s with
  | nil => rfl
  | cons a t ih =>
    rw [runes_cons_ascii a t (hs a (List.mem_cons_self a t)), ih (fun b hb => hs b (List.mem_cons_of_mem a hb))]
    rfl

theorem runes_ascii_append (s t : GoString) (hs : IsAscii s) :
    runes (s ++ t) = s.map (fun b => [b]) ++ runes t := by
  induction s with
  | nil => rfl
  | cons a s ih =>
    rw [List.cons_append, runes_cons_ascii a _ (hs a (List.mem_cons_self a s)),
      ih (fun b hb => hs b (List.mem_cons_of_mem a hb))]
    rfl

theorem runeWidth_append_ascii (c a : Nat) (t y : GoString) (ha : a < 128) :
    runeWidth c (t ++ a :: y) = runeWidth c t := by
  have hc : isCont a = false := by
    simp only [isCont, Bool.and_eq_false_imp, decide_eq_true_eq, decide_eq_false_iff_not]
    omega
  have h3 : ¬ (if c = 224 then 160 else 128) ≤ a := by split_ifs <;> omega
  have h4 : ¬ (if c = 240 then 144 else 128) ≤ a := by split_ifs <;> omega
  rcases t with _ | ⟨b1, _ | ⟨b2, _ | ⟨b3, t⟩⟩⟩ <;>
    rcases y with _ | ⟨y1, _ | ⟨y2, y⟩⟩ <;>
    simp [runeWidth, hc, h3, h4]

theorem runes_append_ascii (x : GoString) (a : Nat) (y : GoString) (ha : a < 128) :
    runes (x ++ a :: y) = runes x ++ runes (a :: y) := by
  generalize h : x.length = n
  induction n using Nat.strong_induction_on generalizing x with
  | _ n ih =>
    cases x with
    | nil => rfl
    | cons c t =>
      have hle := runeWidth_le c t
      have hpos := runeWidth_pos c t
      rw [List.cons_append, runes_cons, runes_cons, runeWidth_append_ascii c a t y ha]
      rw [List.take_append_of_le_length (by omega), List.drop_append_of_le_length (by omega)]
      rw [ih (t.drop (runeWidth c t - 1)).length (by simp only [List.length_drop, ← h, List.length_cons]; omega) _ rfl]
      rfl

theorem flatten_runes (s : GoString) : (runes s).flatten = s := by
  generalize h : s.length = n
  induction n using Nat.strong_induction_on generalizing s with
  | _ n ih =>
    cases s with
    | nil => rfl
    | cons c t =>
      rw [runes_cons, List.flatten_cons,
        ih (t.drop (runeWidth c t - 1)).length (by simp only [List.length_drop, ← h, List.length_cons]; omega) _ rfl]
      simp

theorem runes_ne_nil (s : GoString) : ∀ r ∈ runes s, r ≠ [] := by
  generalize h : s.length = n
  induction n using Nat.strong_induction_on generalizing s with
  | _ n ih =>
    cases s with
    | nil => simp [runes_nil]
    | cons c t =>
      rw [runes_cons]
      intro r hr
      rcases List.mem_cons.mp hr with h1 | h1
      · simp [h1]
      · exact ih (t.drop (runeWidth c t - 1)).length (by simp only [List.length_drop, ← h, List.length_cons]; omega) _ rfl r h1

theorem length_le_length_flatten (L : List GoString) (h : ∀ r ∈ L, r ≠ []) :
    L.length ≤ L.flatten.length := by
  induction L with
  | nil => simp
  | cons r L ih =>
    have h1 : r ≠ [] := h r (List.mem_cons_self r L)
    have h2 : 1 ≤ r.length := by
      cases r with
      | nil => exact absurd rfl h1
      | cons _ _ => simp
    have := ih (fun r hr => h r (List.mem_cons_of_mem _ hr))
    simp only [List.length_cons, List.flatten_cons, List.length_append]
    omega

theorem RuneCountInString_le_length (s : GoString) : RuneCountInString s ≤ s.length := by
  have := length_le_length_flatten (runes s) (runes_ne_nil s)
  rwa [flatten_runes] at this

theorem RuneCountInString_ascii (s : GoString) (hs : IsAscii s) : RuneCountInString s = s.length := by
  simp [RuneCountInString, runes_ascii s hs]

/-! ## Trimming -/

theorem rdropWhile_append_of_pos {α : Type} (p : α → Bool) (L S : List α) (hS : ∀ x ∈ S, p x = true) :
    (L ++ S).rdropWhile p = L.rdropWhile p := by
  unfold List.rdropWhile
  rw [List.reverse_append, List.dropWhile_append_of_pos (fun a ha => hS a (List.mem_reverse.mp ha))]

theorem dropWhile_append_of_fixed {α : Type} (p : α → Bool) (L S : List α)
    (hL : L.dropWhile p = L) (hne : L ≠ []) : (L ++ S).dropWhile p = L ++ S := by
  cases L with
  | nil => exact absurd rfl hne
  | cons a L =>
    have ha : p a = false := by
      cases hpa : p a with
      | false => rfl
      | true =>
        rw [List.dropWhile_cons_of_pos hpa] at hL
        have h1 := congrArg List.length hL
        have h2 := (List.dropWhile_suffix p : L.dropWhile p <:+ L).length_le
        simp only [List.length_cons] at h1
        omega
    simp [List.dropWhile_cons, ha]

theorem trim_pad {α : Type} (p : α → Bool) (L S : List α) (h1 : L.dropWhile p = L)
    (h2 : L.rdropWhile p = L) (hS : ∀ x ∈ S, p x = true) :
    ((L ++ S).dropWhile p).rdropWhile p = L := by
  by_cases hne : L = []
  · subst hne
    have : S.dropWhile p = [] := List.dropWhile_eq_nil_iff.mpr hS
    simp [this]
  · rw [dropWhile_append_of_fixed p L S h1 hne, rdropWhile_append_of_pos p L S hS, h2]

theorem trim_idem {α : Type} (p : α → Bool) (L : List α) :
    (((L.dropWhile p).rdropWhile p).dropWhile p).rdropWhile p = (L.dropWhile p).rdropWhile p := by
  have hfix : ((L.dropWhile p).rdropWhile p).dropWhile p = (L.dropWhile p).rdropWhile p := by
    obtain ⟨B, hB⟩ : (L.dropWhile p).rdropWhile p <+: L.dropWhile p := List.rdropWhile_prefix p _
    generalize hN : (L.dropWhile p).rdropWhile p = N at hB ⊢
    cases N with
    | nil => rfl
    | cons a N =>
      have hM : (L.dropWhile p).dropWhile p = L.dropWhile p := List.dropWhile_idempotent p L
      rw [← hB] at hM
      have ha : p a = false := by
        cases hpa : p a with
        | false => rfl
        | true =>
          rw [List.cons_append, List.dropWhile_cons_of_pos hpa] at hM
          have h1 := congrArg List.length hM
          have h2 := (List.dropWhile_suffix p : (N ++ B).dropWhile p <:+ (N ++ B)).length_le
          simp only [List.length_cons] at h1
          omega
      simp [List.dropWhile_cons, ha]
  rw [hfix, List.rdropWhile_idempotent]

theorem flatten_eq_nil_of_length {L : List GoString} (h : ∀ r ∈ L, r ≠ [])
    (h0 : L.flatten.length = 0) : L = [] := by
  have := length_le_length_flatten L h
  exact List.length_eq_zero.mp (by omega)

theorem trim_fixed_of_flatten (p : GoString → Bool) (L : List GoString) (hne : ∀ r ∈ L, r ≠ [])
    (h : ((L.dropWhile p).rdropWhile p).flatten = L.flatten) :
    L.dropWhile p = L ∧ L.rdropWhile p = L := by
  obtain ⟨B, hB⟩ : (L.dropWhile p).rdropWhile p <+: L.dropWhile p := List.rdropWhile_prefix p _
  have hA : L.takeWhile p ++ L.dropWhile p = L := List.takeWhile_append_dropWhile p L
  have hlen := congrArg List.length h
  have e1 : L.flatten.length = (L.takeWhile p).flatten.length + (L.dropWhile p).flatten.length := by
    have := congrArg (fun l => l.flatten.length) hA
    simp only [List.flatten_append, List.length_append] at this
    omega
  have e2 : (L.dropWhile p).flatten.length
      = ((L.dropWhile p).rdropWhile p).flatten.length + B.flatten.length := by
    have := congrArg (fun l => l.flatten.length) hB
    simp only [List.flatten_append, List.length_append] at this
    omega
  have hA0 : L.takeWhile p = [] := by
    apply flatten_eq_nil_of_length
    · intro r hr
      exact hne r ((List.takeWhile_sublist p).subset hr)
    · omega
  have hB0 : B = [] := by
    apply flatten_eq_nil_of_length
    · intro r hr
      apply hne r
      have : r ∈ L.dropWhile p := by rw [← hB]; exact List.mem_append_right _ hr
      exact (List.dropWhile_sublist p).subset this
    · omega
  have hd : L.dropWhile p = L := by
    rw [hA0] at hA
    simpa using hA
  refine ⟨hd, ?_⟩
  rw [hB0, List.append_nil, hd] at hB
  exact hB

theorem runes_pad (v : GoString) (k : Nat) :
    runes (v ++ List.replicate k 32) = runes v ++ List.replicate k [32] := by
  cases k with
  | zero => simp
  | succ k =>
    rw [List.replicate_succ, runes_append_ascii v 32 _ (by omega)]
    congr 1
    rw [← List.replicate_succ, runes_ascii _ (by intro b hb; rw [List.eq_of_mem_replicate hb]; omega)]
    simp

theorem TrimSpace_pad (v : GoString) (k : Nat) (hv : TrimSpace v = v) :
    TrimSpace (v ++ List.replicate k 32) = v := by
  have hfix := trim_fixed_of_flatten isSpaceRune (runes v) (runes_ne_nil v)
    (by rw [flatten_runes]; exact hv)
  unfold TrimSpace
  rw [runes_pad, trim_pad isSpaceRune (runes v) _ hfix.1 hfix.2, flatten_runes]
  intro x hx
  rw [List.eq_of_mem_replicate hx]
  rfl

theorem RuneCountInString_pad (v : GoString) (k : Nat) :
    RuneCountInString (v ++ List.replicate k 32) = RuneCountInString v + k := by
  simp [RuneCountInString, runes_pad]

/-! ## Slices -/

theorem RuneCountInString_ascii_append (s t : GoString) (hs : IsAscii s) :
    RuneCountInString (s ++ t) = s.length + RuneCountInString t := by
  simp [RuneCountInString, runes_ascii_append s t hs]

theorem slice_zero_append (s t : GoString) : slice (s ++ t) 0 s.length = some s := by
  simp [slice]

theorem sliceFrom_append (s t : GoString) : sliceFrom (s ++ t) s.length = some t := by
  simp [sliceFrom]


/-! ## Runes of arbitrary bytes -/

theorem runeWidth_le_four (c : Nat) (t : GoString) : runeWidth c t ≤ 4 := by
  unfold runeWidth
  repeat' split
  all_goals omega

theorem runes_length_le_four (s : GoString) : ∀ r ∈ runes s, r.length ≤ 4 := by
  generalize h : s.length = n
  induction n using Nat.strong_induction_on generalizing s with
  | _ n ih =>
    cases s with
    | nil => simp [runes_nil]
    | cons c t =>
      rw [runes_cons]
      intro r hr
      rcases List.mem_cons.mp hr with h1 | h1
      · have h4 := runeWidth_le_four c t
        rw [h1, List.length_cons, List.length_take]
        omega
      · exact ih (t.drop (runeWidth c t - 1)).length
          (by simp only [List.length_drop, ← h, List.length_cons]; omega) _ rfl r h1

theorem length_flatten_le_four (L : List GoString) (h : ∀ r ∈ L, r.length ≤ 4) :
    L.flatten.length ≤ 4 * L.length := by
  induction L with
  | nil => simp
  | cons r L ih =>
    have h1 := h r (List.mem_cons_self r L)
    have := ih (fun r hr => h r (List.mem_cons_of_mem _ hr))
    simp only [List.length_cons, List.flatten_cons, List.length_append]
    omega

/-- A rune has at most four bytes. -/
theorem length_le_four_mul_RuneCountInString (s : GoString) :
    s.length ≤ 4 * RuneCountInString s := by
  have := length_flatten_le_four (runes s) (runes_length_le_four s)
  rwa [flatten_runes] at this

theorem runeWidth_append_notCont (c a : Nat) (t y : GoString) (ha : isCont a = false) :
    runeWidth c (t ++ a :: y) = runeWidth c t := by
  by_cases hlt : a < 128
  · exact runeWidth_append_ascii c a t y hlt
  · have hgt : 191 < a := by
      simp only [isCont, Bool.and_eq_false_imp, decide_eq_true_eq, decide_eq_false_iff_not] at ha
      have := ha (by omega)
      omega
    have h3 : ¬ a ≤ (if c = 237 then 159 else 191) := by split_ifs <;> omega
    have h4 : ¬ a ≤ (if c = 244 then 143 else 191) := by split_ifs <;> omega
    rcases t with _ | ⟨b1, _ | ⟨b2, _ | ⟨b3, t⟩⟩⟩ <;>
      rcases y with _ | ⟨y1, _ | ⟨y2, y⟩⟩ <;>
      simp [runeWidth, ha, h3, h4]

/-- The runes of a string split at a byte that is not a continuation byte. -/
theorem runes_append_notCont (x : GoString) (a : Nat) (y : GoString) (ha : isCont a = false) :
    runes (x ++ a :: y) = runes x ++ runes (a :: y) := by
  generalize h : x.length = n
  induction n using Nat.strong_induction_on generalizing x with
  | _ n ih =>
    cases x with
    | nil => rfl
    | cons c t =>
      have hle := runeWidth_le c t
      have hpos := runeWidth_pos c t
      rw [List.cons_append, runes_cons, runes_cons, runeWidth_append_notCont c a t y ha]
      rw [List.take_append_of_le_length (by omega), List.drop_append_of_le_length (by omega)]
      rw [ih (t.drop (runeWidth c t - 1)).length
        (by simp only [List.length_drop, ← h, List.length_cons]; omega) _ rfl]
      rfl

/-- The runes of the bytes that follow a run of runes are the remaining runes. -/
theorem runes_flatten_suffix (A : List GoString) :
    ∀ (s : GoString) (B : List GoString), runes s = A ++ B → runes B.flatten = B := by
  induction A with
  | nil =>
    intro s B h
    rw [List.nil_append] at h
    rw [← h, flatten_runes]
  | cons m A ih =>
    intro s B h
    cases s with
    | nil => rw [runes_nil] at h; cases h
    | cons c t =>
      rw [runes_cons, List.cons_append, List.cons.injEq] at h
      exact ih _ B h.2

theorem isSpaceRune_head (r : GoString) (h : isSpaceRune r = true) :
    ∃ a t, r = a :: t ∧ isCont a = false := by
  unfold isSpaceRune at h
  split at h
  · rename_i b
    refine ⟨b, [], rfl, ?_⟩
    simp only [Bool.or_eq_true, decide_eq_true_eq, Bool.and_eq_true] at h
    simp only [isCont, Bool.and_eq_false_imp, decide_eq_true_eq, decide_eq_false_iff_not]
    omega
  · exact ⟨194, _, rfl, by decide⟩
  · exact ⟨225, _, rfl, by decide⟩
  · exact ⟨226, _, rfl, by decide⟩
  · exact ⟨226, _, rfl, by decide⟩
  · exact ⟨227, _, rfl, by decide⟩
  · cases h

/-- The runes of the bytes of a run of runes that is followed by a space rune
are these runes. -/
theorem runes_flatten_prefix (s : GoString) (M B : List GoString) (b : GoString)
    (h : runes s = M ++ b :: B) (hb : isSpaceRune b = true) : runes M.flatten = M := by
  obtain ⟨a, t, rfl, ha⟩ := isSpaceRune_head b hb
  have hs : s = M.flatten ++ a :: (t ++ B.flatten) := by
    have := congrArg List.flatten h
    rw [flatten_runes] at this
    rw [this]
    simp
  have hB : runes (a :: (t ++ B.flatten)) = (a :: t) :: B := by
    have := runes_flatten_suffix M s ((a :: t) :: B) h
    simpa using this
  have h2 := runes_append_notCont M.flatten a (t ++ B.flatten) ha
  rw [← hs, h, hB] at h2
  exact (List.append_cancel_right h2).symm

theorem rdropWhile_append_rest {α : Type} (p : α → Bool) (L : List α) :
    ∃ B, L = L.rdropWhile p ++ B ∧ (∀ x ∈ B, p x = true) := by
  induction L using List.reverseRecOn with
  | nil => exact ⟨[], rfl, by simp⟩
  | append_singleton L a ih =>
    cases hpa : p a with
    | false =>
      refine ⟨[], ?_, by simp⟩
      rw [List.rdropWhile_concat_neg _ _ _ (by simp [hpa])]
      simp
    | true =>
      obtain ⟨B, hB, hBp⟩ := ih
      refine ⟨B ++ [a], ?_, ?_⟩
      · rw [List.rdropWhile_concat_pos _ _ _ hpa, ← List.append_assoc, ← hB]
      · intro x hx
        rcases List.mem_append.mp hx with h | h
        · exact hBp x h
        · rw [List.mem_singleton.mp h]; exact hpa

/-- The runes of a trimmed string are the runes that trimming kept. -/
theorem runes_TrimSpace (s : GoString) :
    runes (TrimSpace s) = ((runes s).dropWhile isSpaceRune).rdropWhile isSpaceRune := by
  unfold TrimSpace
  have hA : (runes s).takeWhile isSpaceRune ++ (runes s).dropWhile isSpaceRune = runes s :=
    List.takeWhile_append_dropWhile isSpaceRune (runes s)
  have hD : runes ((runes s).dropWhile isSpaceRune).flatten = (runes s).dropWhile isSpaceRune :=
    runes_flatten_suffix _ s _ hA.symm
  obtain ⟨B, hB, hBp⟩ := rdropWhile_append_rest isSpaceRune ((runes s).dropWhile isSpaceRune)
  cases B with
  | nil =>
    rw [List.append_nil] at hB
    rw [← hB]
    exact hD
  | cons b B =>
    rw [hB] at hD
    exact runes_flatten_prefix _ _ B b (by rw [← hB] at hD ⊢; exact hD)
      (hBp b (List.mem_cons_self b B))

theorem TrimSpace_idem (s : GoString) : TrimSpace (TrimSpace s) = TrimSpace s := by
  have h : TrimSpace (TrimSpace s)
      = (((runes (TrimSpace s)).dropWhile isSpaceRune).rdropWhile isSpaceRune).flatten := rfl
  rw [h, runes_TrimSpace, trim_idem]
  rfl

theorem TrimSpace_inner (s : GoString) : TrimSpace s <:+: s := by
  unfold TrimSpace
  obtain ⟨B, hB⟩ : ((runes s).dropWhile isSpaceRune).rdropWhile isSpaceRune
      <+: (runes s).dropWhile isSpaceRune := List.rdropWhile_prefix _ _
  have hA : (runes s).takeWhile isSpaceRune ++ (runes s).dropWhile isSpaceRune = runes s :=
    List.takeWhile_append_dropWhile isSpaceRune (runes s)
  refine ⟨((runes s).takeWhile isSpaceRune).flatten, B.flatten, ?_⟩
  rw [List.append_assoc, ← List.flatten_append, hB, ← List.flatten_append, hA, flatten_runes]

theorem TrimSpace_sublist (s : GoString) : (TrimSpace s).Sublist s := (TrimSpace_inner s).sublist

theorem PlainField_TrimSpace (x : GoString) (n : Nat) (hn : x.length ≤ n)
    (h42 : ∀ b ∈ x, b ≠ 42) : PlainField (TrimSpace x) n :=
  ⟨le_trans (TrimSpace_sublist x).length_le hn,
    fun b hb => h42 b ((TrimSpace_sublist x).subset hb), TrimSpace_idem x⟩

theorem RuneCountInString_pos (s : GoString) (h : s ≠ []) : 1 ≤ RuneCountInString s := by
  unfold RuneCountInString
  cases hr : runes s with
  | nil =>
    have := flatten_runes s
    rw [hr] at this
    exact absurd this.symm h
  | cons a t => simp

/-! ## The credited account -/

theorem specConverters_alphaField (v : GoString) (n : Nat) :
    specConverters.alphaField v n = specAlphaField v n := rfl

theorem specConverters_formatAlphaField (v : GoString) (n : Nat) (o : FormatOptions) :
    specConverters.formatAlphaField v n o = specFormatAlphaField v n o := rfl

theorem specConverters_parseFixedStringField (input : GoString) (n : Nat) :
    specConverters.parseFixedStringField input n = specParseFixedStringField input n := rfl

theorem specConverters_parseVariableStringField (input : GoString) (n : Nat) :
    specConverters.parseVariableStringField input n = specParseVariableStringField input n := rfl

theorem specConverters_verifyDataWithReadLength (record : GoString) (n : Nat) :
    specConverters.verifyDataWithReadLength record n = specVerifyDataWithReadLength record n := rfl

theorem specConverters_parseStringField (r : GoString) :
    specConverters.parseStringField r = TrimSpace r := rfl

theorem specAlphaField_of_le (v : GoString) (n : Nat) (h : v.length ≤ n) :
    specAlphaField v n = v ++ List.replicate (n - v.length) 32 := by
  unfold specAlphaField
  apply List.take_of_length_le
  simp only [List.length_append, List.length_replicate]
  omega

theorem specAlphaField_length (v : GoString) (n : Nat) : (specAlphaField v n).length = n := by
  unfold specAlphaField
  simp only [List.length_take, List.length_append, List.length_replicate]
  omega

theorem specFormatAlphaField_fixed (v : GoString) (n : Nat) :
    specFormatAlphaField v n { VariableLengthFields := false } = specAlphaField v n := by
  simp [specFormatAlphaField]

/-- Counterexample to C1, under the codec of the specification: the account
number "ééééé" has 5 characters (10 bytes), no delimiter and no white space.
The fixed-mode Format gives it the 9 bytes of the field, and Parse of that
output returns no error and the account number cut in the middle of the fifth
character, not the account number of the segment. -/
theorem C1_counterexample :
    RuneCountInString [195, 169, 195, 169, 195, 169, 195, 169, 195, 169] ≤ 9 ∧
    (∀ b ∈ ([195, 169, 195, 169, 195, 169, 195, 169, 195, 169] : GoString), b ≠ 42) ∧
    TrimSpace [195, 169, 195, 169, 195, 169, 195, 169, 195, 169]
      = [195, 169, 195, 169, 195, 169, 195, 169, 195, 169] ∧
    AccountCreditedDrawdown.Parse specConverters NewAccountCreditedDrawdown
        (AccountCreditedDrawdown.Format specConverters
          ⟨TagAccountCreditedDrawdown, [195, 169, 195, 169, 195, 169, 195, 169, 195, 169]⟩
          { VariableLengthFields := false })
      = some (⟨TagAccountCreditedDrawdown, [195, 169, 195, 169, 195, 169, 195, 169, 195]⟩,
          none) := by
  decide

/-- C1, amended: for every AccountCreditedDrawdown with the constant tag whose
DrawdownCreditAccountNumber has at most 9 bytes (9 characters when they are
single-byte), no delimiter and no leading or trailing white space, Parse of
its fixed-mode Format returns no error and yields a segment with the same tag
and the same account number. -/
theorem C1_fixed_round_trip_AccountCreditedDrawdown_bytes (s r : AccountCreditedDrawdown)
    (htag : s.tag = TagAccountCreditedDrawdown)
    (hlen : s.DrawdownCreditAccountNumber.length ≤ 9)
    (_hdelim : ∀ b ∈ s.DrawdownCreditAccountNumber, b ≠ 42)
    (htrim : TrimSpace s.DrawdownCreditAccountNumber = s.DrawdownCreditAccountNumber) :
    AccountCreditedDrawdown.Parse specConverters r
        (s.Format specConverters { VariableLengthFields := false })
      = some (s, none) := by
  obtain ⟨tag, acct⟩ := s
  simp only at htag hlen htrim
  subst htag
  have hpl : (acct ++ List.replicate (9 - acct.length) 32).length = 9 := by
    simp only [List.length_append, List.length_replicate]; omega
  have hne : acct ++ List.replicate (9 - acct.length) 32 ≠ [] := by
    intro h; rw [h] at hpl; simp at hpl
  have hfmt : AccountCreditedDrawdown.Format specConverters ⟨TagAccountCreditedDrawdown, acct⟩
      { VariableLengthFields := false }
      = TagAccountCreditedDrawdown ++ (acct ++ List.replicate (9 - acct.length) 32) := by
    simp only [AccountCreditedDrawdown.Format,
      AccountCreditedDrawdown.DrawdownCreditAccountNumberField, specConverters_alphaField,
      specAlphaField_of_le acct 9 hlen]
  have h7 : ¬ RuneCountInString
      (TagAccountCreditedDrawdown ++ (acct ++ List.replicate (9 - acct.length) 32)) < 7 := by
    rw [RuneCountInString_ascii_append _ _ (by decide)]
    have := RuneCountInString_pos _ hne
    have h6 : TagAccountCreditedDrawdown.length = 6 := rfl
    omega
  have h1 := slice_zero_append TagAccountCreditedDrawdown
    (acct ++ List.replicate (9 - acct.length) 32)
  have h2 := sliceFrom_append TagAccountCreditedDrawdown
    (acct ++ List.replicate (9 - acct.length) 32)
  have hlen6 : TagAccountCreditedDrawdown.length = 6 := rfl
  rw [hlen6] at h1 h2
  have hp : specConverters.parseFixedStringField (acct ++ List.replicate (9 - acct.length) 32) 9
      = .ok (acct, 9) := by
    rw [specConverters_parseFixedStringField, specParseFixedStringField, if_neg (by omega),
      List.take_of_length_le (by omega), TrimSpace_pad _ _ htrim]
  have hver : specConverters.verifyDataWithReadLength
      (TagAccountCreditedDrawdown ++ (acct ++ List.replicate (9 - acct.length) 32)) (6 + 9)
      = none := by
    rw [specConverters_verifyDataWithReadLength, specVerifyDataWithReadLength,
      if_pos (by rw [List.length_append, hpl, hlen6])]
  rw [hfmt]
  simp only [AccountCreditedDrawdown.Parse, if_neg h7, h1, h2, hp, hver]

/-- Witness of the amended C1: the account number "é1" (three bytes) under the
constant tag. -/
theorem C1_fixed_round_trip_AccountCreditedDrawdown_bytes_witness :
    ([195, 169, 49] : GoString).length ≤ 9 ∧ TrimSpace [195, 169, 49] = [195, 169, 49] ∧
    AccountCreditedDrawdown.Parse specConverters NewAccountCreditedDrawdown
        (AccountCreditedDrawdown.Format specConverters
          { tag := TagAccountCreditedDrawdown, DrawdownCreditAccountNumber := [195, 169, 49] }
          { VariableLengthFields := false })
      = some ({ tag := TagAccountCreditedDrawdown, DrawdownCreditAccountNumber := [195, 169, 49] },
          none) :=
  ⟨by decide, by decide,
    C1_fixed_round_trip_AccountCreditedDrawdown_bytes
      { tag := TagAccountCreditedDrawdown, DrawdownCreditAccountNumber := [195, 169, 49] }
      NewAccountCreditedDrawdown rfl (by decide) (by decide) (by decide)⟩

/-- C6: a record with fewer code points than the precheck minimum (7 for
AccountCreditedDrawdown, 9 for AccountDebitedDrawdown, 25 for
CurrencyInstructedAmount) makes Parse return the error built by
NewTagMinLengthErr with that minimum; the result is the same for every field
codec and the receiver is returned as it was, so no field parse takes part. -/
theorem C6_min_length_rejection (c : Converters) (record : GoString) :
    (RuneCountInString record < 7 → ∀ s : AccountCreditedDrawdown,
        s.Parse c record = some (s, some (NewTagMinLengthErr 7 record.length))) ∧
    (RuneCountInString record < 9 → ∀ s : AccountDebitedDrawdown,
        s.Parse c record = some (s, some (NewTagMinLengthErr 9 record.length))) ∧
    (RuneCountInString record < 25 → ∀ s : CurrencyInstructedAmount,
        s.Parse c record = some (s, some (NewTagMinLengthErr 25 record.length))) := by
  refine ⟨?_, ?_, ?_⟩
  · intro h s
    simp only [AccountCreditedDrawdown.Parse, if_pos h]
  · intro h s
    simp only [AccountDebitedDrawdown.Parse, if_pos h]
  · intro h s
    simp only [CurrencyInstructedAmount.Parse, if_pos h]

/-- Witness of C6: the six-byte record that is only a tag, under the codec of
the specification. -/
theorem C6_min_length_rejection_witness :
    (RuneCountInString TagAccountCreditedDrawdown < 7 ∧
      NewAccountCreditedDrawdown.Parse specConverters TagAccountCreditedDrawdown
        = some (NewAccountCreditedDrawdown, some (NewTagMinLengthErr 7 6))) ∧
    (RuneCountInString TagAccountCreditedDrawdown < 9 ∧
      NewAccountDebitedDrawdown.Parse specConverters TagAccountCreditedDrawdown
        = some (NewAccountDebitedDrawdown, some (NewTagMinLengthErr 9 6))) ∧
    (RuneCountInString TagAccountCreditedDrawdown < 25 ∧
      NewCurrencyInstructedAmount.Parse specConverters TagAccountCreditedDrawdown
        = some (NewCurrencyInstructedAmount, some (NewTagMinLengthErr 25 6))) :=
  ⟨⟨by decide, (C6_min_length_rejection specConverters TagAccountCreditedDrawdown).1
      (by decide) NewAccountCreditedDrawdown⟩,
   ⟨by decide, (C6_min_length_rejection specConverters TagAccountCreditedDrawdown).2.1
      (by decide) NewAccountDebitedDrawdown⟩,
   ⟨by decide, (C6_min_length_rejection specConverters TagAccountCreditedDrawdown).2.2
      (by decide) NewCurrencyInstructedAmount⟩⟩

/-- Counterexample to C8: the record made of the tag and "1234" has 10
characters, fewer than 15, yet it passes the precheck: whatever the field
codec does, Parse overwrites the tag of a zero-valued receiver, and under the
codec of the specification the error is the field error of the attempted
field parse, not the precheck error. -/
theorem C8_counterexample :
    RuneCountInString (TagAccountCreditedDrawdown ++ [49, 50, 51, 52]) < 15 ∧
    (∀ c : Converters, ∃ res,
      AccountCreditedDrawdown.Parse c { tag := [], DrawdownCreditAccountNumber := [] }
          (TagAccountCreditedDrawdown ++ [49, 50, 51, 52]) = some res ∧
        res.1.tag = TagAccountCreditedDrawdown ∧ res.1.tag ≠ []) ∧
    AccountCreditedDrawdown.Parse specConverters { tag := [], DrawdownCreditAccountNumber := [] }
        (TagAccountCreditedDrawdown ++ [49, 50, 51, 52])
      = some ({ tag := TagAccountCreditedDrawdown, DrawdownCreditAccountNumber := [] },
          some (fieldError "DrawdownCreditAccountNumber" (NewTagMinLengthErr 9 4) none)) := by
  refine ⟨by decide, ?_, by decide⟩
  intro c
  have h7 : ¬ RuneCountInString (TagAccountCreditedDrawdown ++ [49, 50, 51, 52]) < 7 := by decide
  have h1 : slice (TagAccountCreditedDrawdown ++ [49, 50, 51, 52]) 0 6
      = some TagAccountCreditedDrawdown := by decide
  have h2 : sliceFrom (TagAccountCreditedDrawdown ++ [49, 50, 51, 52]) 6
      = some [49, 50, 51, 52] := by decide
  have hne : TagAccountCreditedDrawdown ≠ [] := by decide
  simp only [AccountCreditedDrawdown.Parse, if_neg h7, h1, h2]
  cases c.parseFixedStringField [49, 50, 51, 52] 9 with
  | error e => exact ⟨_, rfl, rfl, hne⟩
  | ok p =>
    obtain ⟨value, read⟩ := p
    simp only
    cases c.verifyDataWithReadLength (TagAccountCreditedDrawdown ++ [49, 50, 51, 52]) (6 + read) with
    | none => exact ⟨_, rfl, rfl, hne⟩
    | some e => exact ⟨_, rfl, rfl, hne⟩

/-- C8, amended: the precheck minimum of AccountCreditedDrawdown is 7 code
points.  A record below it is rejected with NewTagMinLengthErr(7, len(record))
for every field codec, the receiver unmodified.  A record of 7 or more code
points, also one shorter than 15, passes the precheck: Parse does not panic,
stores the first six bytes of the record in the tag, and returns nil, a field
error for DrawdownCreditAccountNumber or a max-length error. -/
theorem C8_precheck_minimum_is_seven (c : Converters) (s : AccountCreditedDrawdown)
    (record : GoString) :
    (RuneCountInString record < 7 →
      s.Parse c record = some (s, some (NewTagMinLengthErr 7 record.length))) ∧
    (7 ≤ RuneCountInString record → ∃ res, s.Parse c record = some res ∧
      res.1.tag = record.take 6 ∧
      (res.2 = none ∨ (∃ e, res.2 = some (fieldError "DrawdownCreditAccountNumber" e none)) ∨
        ∃ e, res.2 = some (NewTagMaxLengthErr e))) := by
  constructor
  · intro h
    simp only [AccountCreditedDrawdown.Parse, if_pos h]
  · intro h
    have hlen := RuneCountInString_le_length record
    have h7 : ¬ RuneCountInString record < 7 := by omega
    have h1 : slice record 0 6 = some (record.take 6) := by
      simp only [slice]
      rw [if_pos ⟨by omega, by omega⟩]
      simp
    have h2 : sliceFrom record 6 = some (record.drop 6) := by
      simp only [sliceFrom]
      rw [if_pos (by omega)]
    simp only [AccountCreditedDrawdown.Parse, if_neg h7, h1, h2]
    cases c.parseFixedStringField (record.drop 6) 9 with
    | error e => exact ⟨_, rfl, rfl, Or.inr (Or.inl ⟨e, rfl⟩)⟩
    | ok p =>
      obtain ⟨value, read⟩ := p
      simp only
      cases c.verifyDataWithReadLength record (6 + read) with
      | none => exact ⟨_, rfl, rfl, Or.inl rfl⟩
      | some e => exact ⟨_, rfl, rfl, Or.inr (Or.inr ⟨e, rfl⟩)⟩

/-- Witness of the amended C8: a six-byte record, and the ten-character record
of the counterexample, under the codec of the specification. -/
theorem C8_precheck_minimum_is_seven_witness :
    (RuneCountInString TagAccountCreditedDrawdown < 7 ∧
      NewAccountCreditedDrawdown.Parse specConverters TagAccountCreditedDrawdown
        = some (NewAccountCreditedDrawdown, some (NewTagMinLengthErr 7 6))) ∧
    (7 ≤ RuneCountInString (TagAccountCreditedDrawdown ++ [49, 50, 51, 52]) ∧
      ∃ res, NewAccountCreditedDrawdown.Parse specConverters
          (TagAccountCreditedDrawdown ++ [49, 50, 51, 52]) = some res ∧
        res.1.tag = (TagAccountCreditedDrawdown ++ [49, 50, 51, 52]).take 6 ∧
        (res.2 = none ∨ (∃ e, res.2 = some (fieldError "DrawdownCreditAccountNumber" e none)) ∨
          ∃ e, res.2 = some (NewTagMaxLengthErr e))) :=
  ⟨⟨by decide, (C8_precheck_minimum_is_seven specConverters NewAccountCreditedDrawdown
      TagAccountCreditedDrawdown).1 (by decide)⟩,
   ⟨by decide, (C8_precheck_minimum_is_seven specConverters NewAccountCreditedDrawdown
      (TagAccountCreditedDrawdown ++ [49, 50, 51, 52])).2 (by decide)⟩⟩

/-- C9: Validate enforces tag identity.  For each of the five kinds, a segment
whose mandatory fields (if the kind has any) are non-empty and whose tag
differs from the kind's constant gets the field error for "tag" with cause
ErrValidTagForType and the tag as value, whatever the validators and the other
fields are; CurrencyInstructedAmount and FIBeneficiaryFIAdvice have no
mandatory-field check, so there it holds for every field content. -/
theorem C9_validate_rejects_foreign_tag (v : Validators) :
    (∀ s : AccountCreditedDrawdown, s.DrawdownCreditAccountNumber ≠ [] →
      s.tag ≠ TagAccountCreditedDrawdown →
      s.Validate v = some (fieldError "tag" GoError.ErrValidTagForType (some s.tag))) ∧
    (∀ s : AccountDebitedDrawdown, s.IdentificationCode ≠ [] → s.Identifier ≠ [] → s.Name ≠ [] →
      s.tag ≠ TagAccountDebitedDrawdown →
      s.Validate v = some (fieldError "tag" GoError.ErrValidTagForType (some s.tag))) ∧
    (∀ s : AmountNegotiatedDiscount, s.RemittanceAmount.Amount ≠ [] →
      s.RemittanceAmount.CurrencyCode ≠ [] → s.tag ≠ TagAmountNegotiatedDiscount →
      s.Validate v = some (fieldError "tag" GoError.ErrValidTagForType (some s.tag))) ∧
    (∀ s : CurrencyInstructedAmount, s.tag ≠ TagCurrencyInstructedAmount →
      s.Validate v = some (fieldError "tag" GoError.ErrValidTagForType (some s.tag))) ∧
    (∀ s : FIBeneficiaryFIAdvice, s.tag ≠ TagFIBeneficiaryFIAdvice →
      s.Validate v = some (fieldError "tag" GoError.ErrValidTagForType (some s.tag))) := by
  refine ⟨?_, ?_, ?_, ?_, ?_⟩
  · intro s h1 ht
    simp [AccountCreditedDrawdown.Validate, AccountCreditedDrawdown.fieldInclusion, h1, ht]
  · intro s h1 h2 h3 ht
    simp [AccountDebitedDrawdown.Validate, AccountDebitedDrawdown.fieldInclusion, h1, h2, h3, ht]
  · intro s h1 h2 ht
    simp [AmountNegotiatedDiscount.Validate, AmountNegotiatedDiscount.fieldInclusion, h1, h2, ht]
  · intro s ht
    simp [CurrencyInstructedAmount.Validate, ht]
  · intro s ht
    simp [FIBeneficiaryFIAdvice.Validate, ht]

/-- Witness of C9: one segment of each kind with the foreign tag of the code
9999 in braces. -/
theorem C9_validate_rejects_foreign_tag_witness :
    (AccountCreditedDrawdown.Validate acceptingValidators
        { tag := [123, 57, 57, 57, 57, 125], DrawdownCreditAccountNumber := [49] }
      = some (fieldError "tag" GoError.ErrValidTagForType (some [123, 57, 57, 57, 57, 125]))) ∧
    (AccountDebitedDrawdown.Validate acceptingValidators
        { tag := [123, 57, 57, 57, 57, 125], IdentificationCode := [68], Identifier := [49],
          Name := [78], Address := NewAccountDebitedDrawdown.Address }
      = some (fieldError "tag" GoError.ErrValidTagForType (some [123, 57, 57, 57, 57, 125]))) ∧
    (AmountNegotiatedDiscount.Validate acceptingValidators
        { tag := [123, 57, 57, 57, 57, 125],
          RemittanceAmount := { CurrencyCode := [85, 83, 68], Amount := [49] } }
      = some (fieldError "tag" GoError.ErrValidTagForType (some [123, 57, 57, 57, 57, 125]))) ∧
    (CurrencyInstructedAmount.Validate acceptingValidators
        { tag := [123, 57, 57, 57, 57, 125], SwiftFieldTag := [], Amount := [] }
      = some (fieldError "tag" GoError.ErrValidTagForType (some [123, 57, 57, 57, 57, 125]))) ∧
    (FIBeneficiaryFIAdvice.Validate acceptingValidators
        { NewFIBeneficiaryFIAdvice with tag := [123, 57, 57, 57, 57, 125] }
      = some (fieldError "tag" GoError.ErrValidTagForType (some [123, 57, 57, 57, 57, 125]))) :=
  ⟨(C9_validate_rejects_foreign_tag acceptingValidators).1 _ (by decide) (by decide),
   (C9_validate_rejects_foreign_tag acceptingValidators).2.1 _ (by decide) (by decide)
     (by decide) (by decide),
   (C9_validate_rejects_foreign_tag acceptingValidators).2.2.1 _ (by decide) (by decide)
     (by decide),
   (C9_validate_rejects_foreign_tag acceptingValidators).2.2.2.1 _ (by decide),
   (C9_validate_rejects_foreign_tag acceptingValidators).2.2.2.2 _ (by decide)⟩

/-- C10: mandatory-field presence.  An AmountNegotiatedDiscount with an empty
Amount gets the field error naming "Amount" with cause ErrFieldRequired; with
a non-empty Amount and an empty CurrencyCode, the one naming "CurrencyCode";
an AccountCreditedDrawdown with an empty DrawdownCreditAccountNumber gets the
one naming "DrawdownCreditAccountNumber".  Tag and validators play no part. -/
theorem C10_mandatory_field_presence (v : Validators) :
    (∀ s : AmountNegotiatedDiscount, s.RemittanceAmount.Amount = [] →
      s.Validate v = some (fieldError "Amount" GoError.ErrFieldRequired none)) ∧
    (∀ s : AmountNegotiatedDiscount, s.RemittanceAmount.Amount ≠ [] →
      s.RemittanceAmount.CurrencyCode = [] →
      s.Validate v = some (fieldError "CurrencyCode" GoError.ErrFieldRequired none)) ∧
    (∀ s : AccountCreditedDrawdown, s.DrawdownCreditAccountNumber = [] →
      s.Validate v
        = some (fieldError "DrawdownCreditAccountNumber" GoError.ErrFieldRequired none)) := by
  refine ⟨?_, ?_, ?_⟩
  · intro s h
    simp [AmountNegotiatedDiscount.Validate, AmountNegotiatedDiscount.fieldInclusion, h]
  · intro s h1 h2
    simp [AmountNegotiatedDiscount.Validate, AmountNegotiatedDiscount.fieldInclusion, h1, h2]
  · intro s h
    simp [AccountCreditedDrawdown.Validate, AccountCreditedDrawdown.fieldInclusion, h]

/-- Witness of C10: the segment with currency "USD" and no amount, the one with
amount "1" and no currency, and a freshly constructed AccountCreditedDrawdown. -/
theorem C10_mandatory_field_presence_witness :
    (AmountNegotiatedDiscount.Validate acceptingValidators
        { tag := TagAmountNegotiatedDiscount,
          RemittanceAmount := { CurrencyCode := [85, 83, 68], Amount := [] } }
      = some (fieldError "Amount" GoError.ErrFieldRequired none)) ∧
    (AmountNegotiatedDiscount.Validate acceptingValidators
        { tag := TagAmountNegotiatedDiscount,
          RemittanceAmount := { CurrencyCode := [], Amount := [49] } }
      = some (fieldError "CurrencyCode" GoError.ErrFieldRequired none)) ∧
    (AccountCreditedDrawdown.Validate acceptingValidators NewAccountCreditedDrawdown
      = some (fieldError "DrawdownCreditAccountNumber" GoError.ErrFieldRequired none)) :=
  ⟨(C10_mandatory_field_presence acceptingValidators).1 _ rfl,
   (C10_mandatory_field_presence acceptingValidators).2.1 _ (by decide) rfl,
   (C10_mandatory_field_presence acceptingValidators).2.2 _ rfl⟩

/-! ## Variable-width fields -/

theorem flatten_map_singleton (s : GoString) : (s.map (fun b => [b])).flatten = s := by
  induction s with
  | nil => rfl
  | cons a s ih => simp [ih]

theorem specParseVariableStringField_nil (n : Nat) :
    specParseVariableStringField [] n = .ok ([], 0) := by
  simp [specParseVariableStringField]

theorem specParseVariableStringField_delimited (v rest : GoString) (n : Nat)
    (h42 : ∀ b ∈ v, b ≠ 42) (hn : v.length ≤ n) :
    specParseVariableStringField (v ++ 42 :: rest) n = .ok (TrimSpace v, v.length + 1) := by
  have hw : List.take (n + 1) (v ++ 42 :: rest) = v ++ 42 :: List.take (n - v.length) rest := by
    rw [List.take_append_eq_append_take, List.take_of_length_le (by omega)]
    have h2 : n + 1 - v.length = (n - v.length) + 1 := by omega
    rw [h2, List.take_succ_cons]
  have ht : List.takeWhile (fun b => b != 42) (v ++ 42 :: List.take (n - v.length) rest) = v := by
    rw [List.takeWhile_append_of_pos]
    · simp
    · intro a ha
      simp [h42 a ha]
  have hne : v ++ 42 :: rest ≠ [] := by simp
  simp only [specParseVariableStringField, if_neg hne, hw, ht]
  simp

theorem parseVarsOk_cons_ok (c : Converters) (record : GoString) (n : Nat) (ns : List Nat)
    (length : Nat) (rest value : GoString) (read : Nat)
    (h1 : sliceFrom record length = some rest)
    (h2 : c.parseVariableStringField rest n = .ok (value, read)) :
    parseVarsOk c record (n :: ns) length
      = (parseVarsOk c record ns (length + read)).map (fun p => (value :: p.1, p.2)) := by
  simp only [parseVarsOk, h1, h2]
  cases parseVarsOk c record ns (length + read) <;> rfl

theorem parseVarsOk_absent (pre : GoString) (ms : List Nat) :
    parseVarsOk specConverters pre ms pre.length = some (ms.map (fun _ => []), pre.length) := by
  induction ms with
  | nil => rfl
  | cons m ms ih =>
    have h1 : sliceFrom pre pre.length = some [] := by simp [sliceFrom]
    rw [parseVarsOk_cons_ok specConverters pre m ms pre.length [] [] 0 h1
      (specParseVariableStringField_nil m), Nat.add_zero, ih]
    rfl

theorem parseVarsOk_delimited (fs : List (GoString × Nat)) (ms : List Nat) :
    ∀ pre : GoString,
    (∀ f ∈ fs, (∀ b ∈ f.1, b ≠ 42) ∧ f.1.length ≤ f.2) →
    parseVarsOk specConverters (pre ++ wireFields (fs.map Prod.fst)) (fs.map Prod.snd ++ ms) pre.length
      = some (fs.map (fun f => TrimSpace f.1) ++ ms.map (fun _ => []),
          (pre ++ wireFields (fs.map Prod.fst)).length) := by
  induction fs with
  | nil =>
    intro pre _
    simpa [wireFields] using parseVarsOk_absent pre ms
  | cons f fs ih =>
    intro pre h
    obtain ⟨hf2, hf3⟩ := h f (List.mem_cons_self f fs)
    have hrec : pre ++ wireFields ((f :: fs).map Prod.fst)
        = (pre ++ (f.1 ++ Delimiter)) ++ wireFields (fs.map Prod.fst) := by
      simp [wireFields]
    have h1 : sliceFrom (pre ++ wireFields ((f :: fs).map Prod.fst)) pre.length
        = some (f.1 ++ 42 :: wireFields (fs.map Prod.fst)) := by
      have := sliceFrom_append pre (wireFields ((f :: fs).map Prod.fst))
      rw [this]
      simp [wireFields, Delimiter]
    have h2 := ih (pre ++ (f.1 ++ Delimiter)) (fun g hg => h g (List.mem_cons_of_mem f hg))
    have h3 : (pre ++ (f.1 ++ Delimiter)).length = pre.length + (f.1.length + 1) := by
      simp [Delimiter]
    rw [h3, ← hrec] at h2
    have hp : specConverters.parseVariableStringField
        (f.1 ++ 42 :: wireFields (fs.map Prod.fst)) f.2 = .ok (TrimSpace f.1, f.1.length + 1) :=
      specParseVariableStringField_delimited f.1 _ f.2 hf2 hf3
    show parseVarsOk specConverters (pre ++ wireFields ((f :: fs).map Prod.fst))
      (f.2 :: (fs.map Prod.snd ++ ms)) pre.length = _
    rw [parseVarsOk_cons_ok specConverters _ f.2 _ pre.length _ _ _ h1 hp, h2]
    rfl

theorem parseVarsOk_cons_inv (c : Converters) (record : GoString) (n : Nat) (ns : List Nat)
    (length : Nat) (vals : List GoString) (len : Nat)
    (h : parseVarsOk c record (n :: ns) length = some (vals, len)) :
    ∃ rest value read tl, sliceFrom record length = some rest ∧
      c.parseVariableStringField rest n = .ok (value, read) ∧
      parseVarsOk c record ns (length + read) = some (tl, len) ∧ vals = value :: tl := by
  simp only [parseVarsOk] at h
  cases h1 : sliceFrom record length with
  | none => simp [h1] at h
  | some rest =>
    cases h2 : c.parseVariableStringField rest n with
    | error e => simp [h1, h2] at h
    | ok p =>
      obtain ⟨value, read⟩ := p
      cases h3 : parseVarsOk c record ns (length + read) with
      | none => simp [h1, h2, h3] at h
      | some q =>
        obtain ⟨tl, len2⟩ := q
        simp only [h1, h2, h3, Option.some.injEq, Prod.mk.injEq] at h
        exact ⟨rest, value, read, tl, rfl, h2, by rw [h3, h.2], h.1.symm⟩

theorem parseVarsOk_nil_inv (c : Converters) (record : GoString) (length : Nat)
    (vals : List GoString) (len : Nat) (h : parseVarsOk c record [] length = some (vals, len)) :
    vals = [] ∧ len = length := by
  simp only [parseVarsOk, Option.some.injEq, Prod.mk.injEq] at h
  exact ⟨h.1.symm, h.2.symm⟩

theorem FIBeneficiaryFIAdvice_Parse_of_parseVarsOk (c : Converters) (s : FIBeneficiaryFIAdvice)
    (record tag code l1 l2 l3 l4 l5 l6 : GoString) (len : Nat)
    (h9 : ¬ RuneCountInString record < 9) (htag : slice record 0 6 = some tag)
    (hcode : slice record 6 9 = some code)
    (hv : parseVarsOk c record [26, 33, 33, 33, 33, 33] 9 = some ([l1, l2, l3, l4, l5, l6], len))
    (hver : c.verifyDataWithReadLength record len = none) :
    s.Parse c record
      = some (⟨tag, ⟨c.parseStringField code, l1, l2, l3, l4, l5, l6⟩⟩, none) := by
  obtain ⟨r1, v1, n1, t1, hs1, hp1, hv1, e1⟩ := parseVarsOk_cons_inv _ _ _ _ _ _ _ hv
  obtain ⟨r2, v2, n2, t2, hs2, hp2, hv2, e2⟩ := parseVarsOk_cons_inv _ _ _ _ _ _ _ hv1
  obtain ⟨r3, v3, n3, t3, hs3, hp3, hv3, e3⟩ := parseVarsOk_cons_inv _ _ _ _ _ _ _ hv2
  obtain ⟨r4, v4, n4, t4, hs4, hp4, hv4, e4⟩ := parseVarsOk_cons_inv _ _ _ _ _ _ _ hv3
  obtain ⟨r5, v5, n5, t5, hs5, hp5, hv5, e5⟩ := parseVarsOk_cons_inv _ _ _ _ _ _ _ hv4
  obtain ⟨r6, v6, n6, t6, hs6, hp6, hv6, e6⟩ := parseVarsOk_cons_inv _ _ _ _ _ _ _ hv5
  obtain ⟨e7, e8⟩ := parseVarsOk_nil_inv _ _ _ _ _ hv6
  subst e7 e6 e5 e4 e3 e2
  simp only [List.cons.injEq, and_true] at e1
  obtain ⟨rfl, rfl, rfl, rfl, rfl, rfl⟩ := e1
  subst e8
  simp only [FIBeneficiaryFIAdvice.Parse, if_neg h9, htag, hcode, hs1, hp1, hs2, hp2, hs3, hp3,
    hs4, hp4, hs5, hp5, hs6, hp6, hver]

theorem AccountDebitedDrawdown_Parse_of_parseVarsOk (c : Converters) (s : AccountDebitedDrawdown)
    (record tag code l1 l2 l3 l4 l5 : GoString) (len : Nat)
    (h9 : ¬ RuneCountInString record < 9) (htag : slice record 0 6 = some tag)
    (hcode : slice record 6 7 = some code)
    (hv : parseVarsOk c record [34, 35, 35, 35, 35] 7 = some ([l1, l2, l3, l4, l5], len))
    (hver : c.verifyDataWithReadLength record len = none) :
    s.Parse c record = some (⟨tag, code, l1, l2, ⟨l3, l4, l5⟩⟩, none) := by
  obtain ⟨r1, v1, n1, t1, hs1, hp1, hv1, e1⟩ := parseVarsOk_cons_inv _ _ _ _ _ _ _ hv
  obtain ⟨r2, v2, n2, t2, hs2, hp2, hv2, e2⟩ := parseVarsOk_cons_inv _ _ _ _ _ _ _ hv1
  obtain ⟨r3, v3, n3, t3, hs3, hp3, hv3, e3⟩ := parseVarsOk_cons_inv _ _ _ _ _ _ _ hv2
  obtain ⟨r4, v4, n4, t4, hs4, hp4, hv4, e4⟩ := parseVarsOk_cons_inv _ _ _ _ _ _ _ hv3
  obtain ⟨r5, v5, n5, t5, hs5, hp5, hv5, e5⟩ := parseVarsOk_cons_inv _ _ _ _ _ _ _ hv4
  obtain ⟨e7, e8⟩ := parseVarsOk_nil_inv _ _ _ _ _ hv5
  subst e7 e5 e4 e3 e2
  simp only [List.cons.injEq, and_true] at e1
  obtain ⟨rfl, rfl, rfl, rfl, rfl⟩ := e1
  subst e8
  simp only [AccountDebitedDrawdown.Parse, if_neg h9, htag, hcode, hs1, hp1, hs2, hp2, hs3, hp3,
    hs4, hp4, hs5, hp5, hver]

theorem CurrencyInstructedAmount_Parse_of_parseVarsOk (c : Converters)
    (s : CurrencyInstructedAmount) (record tag l1 l2 : GoString) (len : Nat)
    (h25 : ¬ RuneCountInString record < 25) (htag : slice record 0 6 = some tag)
    (hv : parseVarsOk c record [5, 18] 6 = some ([l1, l2], len))
    (hver : c.verifyDataWithReadLength record len = none) :
    s.Parse c record = some (⟨tag, l1, l2⟩, none) := by
  obtain ⟨r1, v1, n1, t1, hs1, hp1, hv1, e1⟩ := parseVarsOk_cons_inv _ _ _ _ _ _ _ hv
  obtain ⟨r2, v2, n2, t2, hs2, hp2, hv2, e2⟩ := parseVarsOk_cons_inv _ _ _ _ _ _ _ hv1
  obtain ⟨e7, e8⟩ := parseVarsOk_nil_inv _ _ _ _ _ hv2
  subst e7 e2
  simp only [List.cons.injEq, and_true] at e1
  obtain ⟨rfl, rfl⟩ := e1
  subst e8
  simp only [CurrencyInstructedAmount.Parse, if_neg h25, htag, hs1, hp1, hs2, hp2, hver]

/-! ## ASCII values -/

theorem IsAscii_append (s t : GoString) (hs : IsAscii s) (ht : IsAscii t) : IsAscii (s ++ t) := by
  intro b hb
  rcases List.mem_append.mp hb with h | h
  · exact hs b h
  · exact ht b h

theorem IsAscii_replicate (k b : Nat) (hb : b < 128) : IsAscii (List.replicate k b) := by
  intro x hx
  rw [List.eq_of_mem_replicate hx]
  exact hb

theorem PlainField_pad (v : GoString) (n : Nat) (h : PlainField v n) :
    specAlphaField v n = v ++ List.replicate (n - v.length) 32 ∧
    (∀ b ∈ v ++ List.replicate (n - v.length) 32, b ≠ 42) ∧
    (v ++ List.replicate (n - v.length) 32).length = n ∧
    TrimSpace (v ++ List.replicate (n - v.length) 32) = v := by
  obtain ⟨h2, h3, h4⟩ := h
  refine ⟨specAlphaField_of_le v n h2, ?_, ?_, TrimSpace_pad v _ h4⟩
  · intro b hb
    rcases List.mem_append.mp hb with h | h
    · exact h3 b h
    · rw [List.eq_of_mem_replicate h]; omega
  · simp only [List.length_append, List.length_replicate]; omega

theorem IsAscii_wireFields (fs : List GoString) (h : ∀ v ∈ fs, IsAscii v) :
    IsAscii (wireFields fs) := by
  induction fs with
  | nil => intro b hb; simp [wireFields] at hb
  | cons v fs ih =>
    have : wireFields (v :: fs) = v ++ (Delimiter ++ wireFields fs) := by simp [wireFields]
    rw [this]
    exact IsAscii_append _ _ (h v (List.mem_cons_self v fs))
      (IsAscii_append _ _ (by decide) (ih (fun w hw => h w (List.mem_cons_of_mem v hw))))

theorem slice_append_mid (a b t : GoString) (n m : Nat) (ha : a.length = n) (hb : n + b.length = m) :
    slice (a ++ b ++ t) n m = some b := by
  subst ha hb
  simp [slice, List.take_append_eq_append_take]

theorem slice_append_zero (a t : GoString) (n : Nat) (ha : a.length = n) :
    slice (a ++ t) 0 n = some a := by
  subst ha
  simp [slice]

theorem slice_some (s : GoString) (lo hi : Nat) (v : GoString) (h : slice s lo hi = some v) :
    v = (s.take hi).drop lo ∧ lo ≤ hi ∧ hi ≤ s.length := by
  unfold slice at h
  split at h
  · rename_i hc
    exact ⟨(Option.some.inj h).symm, hc.1, hc.2⟩
  · cases h

theorem AccountDebitedDrawdown_Parse_ok_inv (c : Converters) (s res : AccountDebitedDrawdown)
    (record : GoString) (h : s.Parse c record = some (res, none)) :
    9 ≤ RuneCountInString record ∧ res.tag = record.take 6 ∧
      res.IdentificationCode = (record.take 7).drop 6 := by
  unfold AccountDebitedDrawdown.Parse at h
  split at h
  · simp at h
  · rename_i h9
    split at h
    · cases h
    · rename_i tag htag
      split at h
      · cases h
      · rename_i code hcode
        have e1 := (slice_some _ _ _ _ htag).1
        have e2 := (slice_some _ _ _ _ hcode).1
        simp only [List.drop_zero] at e1
        cases hs1 : sliceFrom record (7) with
        | none => simp [hs1] at h
        | some rest1 =>
          cases hp1 : c.parseVariableStringField rest1 34 with
          | error e => simp [hs1, hp1] at h
          | ok p1 =>
            obtain ⟨v1, n1⟩ := p1
            cases hs2 : sliceFrom record (7 + n1) with
            | none => simp [hs1, hp1, hs2] at h
            | some rest2 =>
              cases hp2 : c.parseVariableStringField rest2 35 with
              | error e => simp [hs1, hp1, hs2, hp2] at h
              | ok p2 =>
                obtain ⟨v2, n2⟩ := p2
                cases hs3 : sliceFrom record (7 + n1 + n2) with
                | none => simp [hs1, hp1, hs2, hp2, hs3] at h
                | some rest3 =>
                  cases hp3 : c.parseVariableStringField rest3 35 with
                  | error e => simp [hs1, hp1, hs2, hp2, hs3, hp3] at h
                  | ok p3 =>
                    obtain ⟨v3, n3⟩ := p3
                    cases hs4 : sliceFrom record (7 + n1 + n2 + n3) with
                    | none => simp [hs1, hp1, hs2, hp2, hs3, hp3, hs4] at h
                    | some rest4 =>
                      cases hp4 : c.parseVariableStringField rest4 35 with
                      | error e => simp [hs1, hp1, hs2, hp2, hs3, hp3, hs4, hp4] at h
                      | ok p4 =>
                        obtain ⟨v4, n4⟩ := p4
                        cases hs5 : sliceFrom record (7 + n1 + n2 + n3 + n4) with
                        | none => simp [hs1, hp1, hs2, hp2, hs3, hp3, hs4, hp4, hs5] at h
                        | some rest5 =>
                          cases hp5 : c.parseVariableStringField rest5 35 with
                          | error e => simp [hs1, hp1, hs2, hp2, hs3, hp3, hs4, hp4, hs5, hp5] at h
                          | ok p5 =>
                            obtain ⟨v5, n5⟩ := p5
                            cases hver : c.verifyDataWithReadLength record (7 + n1 + n2 + n3 + n4 + n5) with
                            | some e => simp [hs1, hp1, hs2, hp2, hs3, hp3, hs4, hp4, hs5, hp5, hver] at h
                            | none =>
                              simp only [hs1, hp1, hs2, hp2, hs3, hp3, hs4, hp4, hs5, hp5, hver, Option.some.injEq, Prod.mk.injEq, and_true] at h
                              subst h
                              exact ⟨by omega, e1, e2⟩

theorem specStripDelimiters_append (Y L : GoString) (j : Nat) (hL : L ≠ [])
    (h42 : ∀ b ∈ L, b ≠ 42) :
    specStripDelimiters (Y ++ L ++ List.replicate (j + 1) 42) = Y ++ L ++ [42] := by
  have h1 : (Y ++ L ++ List.replicate (j + 1) 42).rdropWhile (fun b => b == 42) = Y ++ L := by
    rw [rdropWhile_append_of_pos]
    · rw [List.rdropWhile_eq_self_iff]
      intro hne
      have hlast : (Y ++ L).getLast hne = L.getLast hL := List.getLast_append_of_ne_nil hL
      rw [hlast]
      have := h42 _ (List.getLast_mem hL)
      simpa using this
    · intro x hx
      rw [List.eq_of_mem_replicate hx]
      rfl
  unfold specStripDelimiters
  rw [h1, if_pos (by simp)]
  rfl

theorem FIBeneficiaryFIAdvice_Parse_run (r : FIBeneficiaryFIAdvice) (code : GoString)
    (hcodeA : IsAscii code) (hcode3 : code.length = 3) (fs : List (GoString × Nat))
    (ms : List Nat) (hmax : fs.map Prod.snd ++ ms = [26, 33, 33, 33, 33, 33])
    (hfs : ∀ f ∈ fs, (∀ b ∈ f.1, b ≠ 42) ∧ f.1.length ≤ f.2) :
    ∀ l1 l2 l3 l4 l5 l6 : GoString,
    fs.map (fun f => TrimSpace f.1) ++ ms.map (fun _ => []) = [l1, l2, l3, l4, l5, l6] →
    FIBeneficiaryFIAdvice.Parse specConverters r
        ((TagFIBeneficiaryFIAdvice ++ code) ++ wireFields (fs.map Prod.fst))
      = some (⟨TagFIBeneficiaryFIAdvice, ⟨TrimSpace code, l1, l2, l3, l4, l5, l6⟩⟩, none) := by
  intro l1 l2 l3 l4 l5 l6 hvals
  have hv := parseVarsOk_delimited fs ms (TagFIBeneficiaryFIAdvice ++ code) hfs
  have hpre : (TagFIBeneficiaryFIAdvice ++ code).length = 9 := by
    simp [TagFIBeneficiaryFIAdvice, hcode3]
  rw [hpre, hmax, hvals] at hv
  have hrc : 9 ≤ RuneCountInString
      ((TagFIBeneficiaryFIAdvice ++ code) ++ wireFields (fs.map Prod.fst)) := by
    rw [RuneCountInString_ascii_append _ _ (IsAscii_append _ _ (by decide) hcodeA), hpre]
    omega
  have h := FIBeneficiaryFIAdvice_Parse_of_parseVarsOk specConverters r _
    TagFIBeneficiaryFIAdvice code l1 l2 l3 l4 l5 l6 _ (by omega)
    (by rw [List.append_assoc]; exact slice_append_zero _ _ 6 rfl)
    (slice_append_mid TagFIBeneficiaryFIAdvice code _ 6 9 rfl (by rw [hcode3])) hv
    (by rw [specConverters_verifyDataWithReadLength, specVerifyDataWithReadLength, if_pos rfl])
  rw [specConverters_parseStringField] at h
  exact h

theorem RuneCountInString_append_delim (x y : GoString) :
    RuneCountInString (x ++ 42 :: y) = RuneCountInString x + 1 + RuneCountInString y := by
  unfold RuneCountInString
  rw [runes_append_ascii x 42 y (by omega), runes_cons_ascii 42 y (by omega)]
  simp only [List.length_append, List.length_cons]
  omega

theorem IsAscii_of_sublist (x y : GoString) (h : x.Sublist y) (hy : IsAscii y) : IsAscii x :=
  fun b hb => hy b (h.subset hb)

/-- What a successful variable-width parse returns: a trimmed value of at
most `n` bytes without delimiter. -/
theorem specParseVariableStringField_ok_plain (input : GoString) (n : Nat) (val : GoString)
    (read : Nat) (h : specParseVariableStringField input n = .ok (val, read)) :
    PlainField val n := by
  unfold specParseVariableStringField at h
  split at h
  · simp only [Except.ok.injEq, Prod.mk.injEq] at h
    rw [← h.1]
    exact ⟨by simp, by simp, by decide⟩
  · dsimp only at h
    have htw : ∀ b ∈ List.takeWhile (fun b => b != 42) (List.take (n + 1) input), b ≠ 42 := by
      intro b hb
      have := List.mem_takeWhile_imp hb
      simpa using this
    split at h
    · rename_i hlt
      simp only [Except.ok.injEq, Prod.mk.injEq] at h
      rw [← h.1]
      apply PlainField_TrimSpace _ _ _ htw
      have : (List.take (n + 1) input).length ≤ n + 1 := by
        rw [List.length_take]; omega
      omega
    · rename_i hge
      split at h
      · simp only [Except.ok.injEq, Prod.mk.injEq] at h
        rw [← h.1]
        apply PlainField_TrimSpace
        · rw [List.length_take]; omega
        · intro b hb
          have heq : List.takeWhile (fun b => b != 42) (List.take (n + 1) input)
              = List.take (n + 1) input := by
            apply List.Sublist.eq_of_length_le (List.takeWhile_sublist _)
            omega
          apply htw
          rw [heq]
          exact (List.take_subset_take_left input (Nat.le_succ n)) hb
      · cases h

theorem sliceFrom_some (s : GoString) (lo : Nat) (v : GoString) (h : sliceFrom s lo = some v) :
    v = s.drop lo ∧ lo ≤ s.length := by
  unfold sliceFrom at h
  split at h
  · rename_i hc
    exact ⟨(Option.some.inj h).symm, hc⟩
  · cases h

theorem AmountNegotiatedDiscount_Parse_ok_inv (c : Converters) (r s : AmountNegotiatedDiscount)
    (record : GoString) (h : r.Parse c record = some (s, none)) :
    ∃ cc n1 am n2, 8 ≤ RuneCountInString record ∧ s = ⟨record.take 6, ⟨cc, am⟩⟩ ∧
      c.parseFixedStringField (record.drop 6) 3 = .ok (cc, n1) ∧
      c.parseVariableStringField (record.drop (6 + n1)) 19 = .ok (am, n2) ∧
      c.verifyDataWithReadLength record (6 + n1 + n2) = none := by
  unfold AmountNegotiatedDiscount.Parse at h
  split at h
  · simp at h
  · rename_i h8
    split at h
    · cases h
    · rename_i tag htag
      have e1 := (slice_some _ _ _ _ htag).1
      simp only [List.drop_zero] at e1
      cases hs1 : sliceFrom record 6 with
      | none => simp [hs1] at h
      | some rest1 =>
        have e2 := (sliceFrom_some _ _ _ hs1).1
        cases hp1 : c.parseFixedStringField rest1 3 with
        | error e => simp [hs1, hp1] at h
        | ok p1 =>
          obtain ⟨cc, n1⟩ := p1
          cases hs2 : sliceFrom record (6 + n1) with
          | none => simp [hs1, hp1, hs2] at h
          | some rest2 =>
            have e3 := (sliceFrom_some _ _ _ hs2).1
            cases hp2 : c.parseVariableStringField rest2 19 with
            | error e => simp [hs1, hp1, hs2, hp2] at h
            | ok p2 =>
              obtain ⟨am, n2⟩ := p2
              cases hver : c.verifyDataWithReadLength record (6 + n1 + n2) with
              | some e => simp [hs1, hp1, hs2, hp2, hver] at h
              | none =>
                simp only [hs1, hp1, hs2, hp2, hver, Option.some.injEq, Prod.mk.injEq,
                  and_true] at h
                subst e1 e2 e3
                exact ⟨cc, n1, am, n2, by omega, h.symm, hp1, hp2, hver⟩

theorem AmountNegotiatedDiscount_Parse_run (r : AmountNegotiatedDiscount) (tag pc pa : GoString)
    (htag : tag.length = 6) (htagA : IsAscii tag) (hpc : pc.length = 3)
    (hpa42 : ∀ b ∈ pa, b ≠ 42) (hpa : pa.length ≤ 19) :
    AmountNegotiatedDiscount.Parse specConverters r (tag ++ pc ++ (pa ++ Delimiter))
      = some (⟨tag, ⟨TrimSpace pc, TrimSpace pa⟩⟩, none) := by
  have hlen : (tag ++ pc ++ (pa ++ Delimiter)).length = 9 + (pa.length + 1) := by
    simp [Delimiter, htag, hpc]
    omega
  have h8 : ¬ RuneCountInString (tag ++ pc ++ (pa ++ Delimiter)) < 8 := by
    have e : tag ++ pc ++ (pa ++ Delimiter) = tag ++ ((pc ++ pa) ++ 42 :: []) := by
      simp [Delimiter]
    have hne : pc ++ pa ≠ [] := by
      intro h
      have := congrArg List.length h
      simp only [List.length_append, List.length_nil] at this
      omega
    have := RuneCountInString_pos _ hne
    rw [e, RuneCountInString_ascii_append _ _ htagA, RuneCountInString_append_delim, htag]
    omega
  have hs0 : slice (tag ++ pc ++ (pa ++ Delimiter)) 0 6 = some tag := by
    rw [List.append_assoc]; exact slice_append_zero _ _ 6 htag
  have hs1 : sliceFrom (tag ++ pc ++ (pa ++ Delimiter)) 6 = some (pc ++ (pa ++ Delimiter)) := by
    rw [List.append_assoc, ← htag]; exact sliceFrom_append _ _
  have hp1 : specConverters.parseFixedStringField (pc ++ (pa ++ Delimiter)) 3
      = .ok (TrimSpace pc, 3) := by
    rw [specConverters_parseFixedStringField, specParseFixedStringField,
      if_neg (by simp only [List.length_append]; omega)]
    simp [← hpc]
  have hs2 : sliceFrom (tag ++ pc ++ (pa ++ Delimiter)) (6 + 3) = some (pa ++ 42 :: []) := by
    have := sliceFrom_append (tag ++ pc) (pa ++ Delimiter)
    rw [List.length_append, htag, hpc] at this
    exact this
  have hp2 : specConverters.parseVariableStringField (pa ++ 42 :: []) 19
      = .ok (TrimSpace pa, pa.length + 1) :=
    specParseVariableStringField_delimited pa [] 19 hpa42 hpa
  have hver : specConverters.verifyDataWithReadLength (tag ++ pc ++ (pa ++ Delimiter))
      (6 + 3 + (pa.length + 1)) = none := by
    rw [specConverters_verifyDataWithReadLength, specVerifyDataWithReadLength, if_pos hlen]
  simp only [AmountNegotiatedDiscount.Parse, if_neg h8, hs0, hs1, hp1, hs2, hp2, hver]

theorem specParseVariableStringField_short (v : GoString) (n : Nat)
    (h42 : ∀ b ∈ v, b ≠ 42) (hne : v ≠ []) (hlt : v.length < n) :
    specParseVariableStringField v n = .error (NewTagMinLengthErr n v.length) := by
  have hw : List.take (n + 1) v = v := List.take_of_length_le (by omega)
  have ht : List.takeWhile (fun b => b != 42) v = v := by
    rw [List.takeWhile_eq_self_iff]
    intro a ha
    simp [h42 a ha]
  simp only [specParseVariableStringField, if_neg hne, hw, ht, lt_self_iff_false, if_false,
    if_neg (not_le.mpr hlt)]

/-- C7, amended: for every record of exactly 9 single-byte (ASCII) characters,
FIBeneficiaryFIAdvice.Parse returns no error, with the AdviceCode trimmed from
the three characters after the tag and all six lines empty; and
AccountDebitedDrawdown.Parse returns no error exactly when the last character
of the record is the delimiter, Name and the three address lines then being
empty. -/
theorem C7_minimum_length_boundary_ascii (record : GoString) (hlen : record.length = 9)
    (hasc : IsAscii record) :
    (∀ r : FIBeneficiaryFIAdvice, r.Parse specConverters record
      = some (⟨record.take 6, ⟨TrimSpace ((record.take 9).drop 6), [], [], [], [], [], []⟩⟩,
          none)) ∧
    (∀ r : AccountDebitedDrawdown, ∃ res, r.Parse specConverters record = some res ∧
      (res.2 = none ↔ record.getLast? = some 42) ∧
      (res.2 = none → res.1.Name = [] ∧ res.1.Address = ⟨[], [], []⟩)) := by
  have hrc := RuneCountInString_ascii record hasc
  have h9 : ¬ RuneCountInString record < 9 := by omega
  clear hrc
  constructor
  · intro r
    have hv := parseVarsOk_absent record [26, 33, 33, 33, 33, 33]
    rw [hlen] at hv
    have h := FIBeneficiaryFIAdvice_Parse_of_parseVarsOk specConverters r record
      (record.take 6) ((record.take 9).drop 6) [] [] [] [] [] [] 9 h9
      (by simp [slice, hlen]) (by simp [slice, hlen]) hv
      (by rw [specConverters_verifyDataWithReadLength, specVerifyDataWithReadLength,
            if_pos hlen])
    rw [specConverters_parseStringField] at h
    exact h
  · intro r
    obtain ⟨a, b, c, d, e, f, g, x, y, rfl⟩ :
        ∃ a b c d e f g x y, record = [a, b, c, d, e, f, g, x, y] := by
      match record, hlen with
      | [a, b, c, d, e, f, g, x, y], _ => exact ⟨a, b, c, d, e, f, g, x, y, rfl⟩
    have hx : x < 128 := hasc x (by simp)
    have hy : y < 128 := hasc y (by simp)
    have hs0 : slice [a, b, c, d, e, f, g, x, y] 0 6 = some [a, b, c, d, e, f] := by
      simp [slice]
    have hs1 : slice [a, b, c, d, e, f, g, x, y] 6 7 = some [g] := by simp [slice]
    have hver : specConverters.verifyDataWithReadLength [a, b, c, d, e, f, g, x, y] 9 = none := by
      rw [specConverters_verifyDataWithReadLength, specVerifyDataWithReadLength,
        if_pos hlen]
    by_cases hy42 : y = 42
    · subst hy42
      by_cases hx42 : x = 42
      · subst hx42
        have hv := parseVarsOk_delimited [([], 34), ([], 35)] [35, 35, 35] [a, b, c, d, e, f, g]
          (by intro f hf; simp at hf; rcases hf with rfl | rfl <;> exact ⟨by simp, by simp⟩)
        have ht : TrimSpace [] = [] := by decide
        simp only [List.map_cons, List.map_nil, wireFields, Delimiter, List.flatten_cons,
          List.flatten_nil, List.nil_append, List.cons_append, List.append_nil, List.length_cons,
          List.length_nil, ht] at hv
        refine ⟨_, AccountDebitedDrawdown_Parse_of_parseVarsOk specConverters r _ _ _ _ _ _ _ _ _
          h9 hs0 hs1 hv hver, ?_, ?_⟩
        · simp
        · intro _; exact ⟨rfl, rfl⟩
      · have hv := parseVarsOk_delimited [([x], 34)] [35, 35, 35, 35] [a, b, c, d, e, f, g]
          (by
            intro f hf
            simp only [List.mem_singleton] at hf
            subst hf
            exact ⟨by intro b hb; simp at hb; omega, by simp⟩)
        simp only [List.map_cons, List.map_nil, wireFields, Delimiter, List.flatten_cons,
          List.flatten_nil, List.nil_append, List.cons_append, List.append_nil, List.length_cons,
          List.length_nil] at hv
        refine ⟨_, AccountDebitedDrawdown_Parse_of_parseVarsOk specConverters r _ _ _ _ _ _ _ _ _
          h9 hs0 hs1 hv hver, ?_, ?_⟩
        · simp
        · intro _; exact ⟨rfl, rfl⟩
    · have hs2 : sliceFrom [a, b, c, d, e, f, g, x, y] 7 = some [x, y] := by simp [sliceFrom]
      by_cases hx42 : x = 42
      · subst hx42
        have hp1 : specConverters.parseVariableStringField [42, y] 34 = .ok ([], 1) := by
          have := specParseVariableStringField_delimited [] [y] 34 (by simp) (by simp)
          simpa using this
        have hs3 : sliceFrom [a, b, c, d, e, f, g, 42, y] (7 + 1) = some [y] := by
          simp [sliceFrom]
        have hp2 : specConverters.parseVariableStringField [y] 35
            = .error (NewTagMinLengthErr 35 1) :=
          specParseVariableStringField_short [y] 35
            (by intro b hb; simp at hb; omega) (by simp) (by simp)
        have hP : r.Parse specConverters [a, b, c, d, e, f, g, 42, y]
            = some (⟨[a, b, c, d, e, f], [g], [], r.Name, r.Address⟩,
                some (fieldError "Name" (NewTagMinLengthErr 35 1) none)) := by
          simp only [AccountDebitedDrawdown.Parse, if_neg h9, hs0, hs1, hs2, hp1, hs3, hp2]
        refine ⟨_, hP, ?_, ?_⟩
        · simp [hy42]
        · intro h; simp at h
      · have hp1 : specConverters.parseVariableStringField [x, y] 34
            = .error (NewTagMinLengthErr 34 2) :=
          specParseVariableStringField_short [x, y] 34
            (by intro b hb; simp at hb; omega) (by simp) (by simp)
        have hP : r.Parse specConverters [a, b, c, d, e, f, g, x, y]
            = some (⟨[a, b, c, d, e, f], [g], r.Identifier, r.Name, r.Address⟩,
                some (fieldError "Identifier" (NewTagMinLengthErr 34 2) none)) := by
          simp only [AccountDebitedDrawdown.Parse, if_neg h9, hs0, hs1, hs2, hp1]
        refine ⟨_, hP, ?_, ?_⟩
        · simp [hy42]
        · intro h; simp at h

set_option maxRecDepth 100000 in
/-- Counterexample to C7, under the codec of the specification.  The record of
the debited-drawdown tag and "Dab" has exactly 9 code points, and Parse returns
the field error of Identifier: two characters without a delimiter are too few
to end a field of up to 34.  The record of the advice tag and "ééé" has exactly
9 code points in 12 bytes, and Parse returns an error for the bytes that
follow `record[6:9]`. -/
theorem C7_counterexample :
    (RuneCountInString (TagAccountDebitedDrawdown ++ ascii "Dab") = 9 ∧
      AccountDebitedDrawdown.Parse specConverters NewAccountDebitedDrawdown
          (TagAccountDebitedDrawdown ++ ascii "Dab")
        = some ({ NewAccountDebitedDrawdown with IdentificationCode := ascii "D" },
            some (fieldError "Identifier" (NewTagMinLengthErr 34 2) none))) ∧
    (RuneCountInString (TagFIBeneficiaryFIAdvice ++ [195, 169, 195, 169, 195, 169]) = 9 ∧
      ∃ res, FIBeneficiaryFIAdvice.Parse specConverters NewFIBeneficiaryFIAdvice
          (TagFIBeneficiaryFIAdvice ++ [195, 169, 195, 169, 195, 169]) = some res ∧
        res.2 ≠ none) := by
  decide

/-- Witness of the amended C7: the record of the debited-drawdown tag, "D",
"1" and a delimiter, parsed as either kind. -/
theorem C7_minimum_length_boundary_ascii_witness :
    (TagAccountDebitedDrawdown ++ ascii "D1*").length = 9 ∧
    IsAscii (TagAccountDebitedDrawdown ++ ascii "D1*") ∧
    (∀ r : FIBeneficiaryFIAdvice,
      r.Parse specConverters (TagAccountDebitedDrawdown ++ ascii "D1*")
      = some (⟨(TagAccountDebitedDrawdown ++ ascii "D1*").take 6,
          ⟨TrimSpace (((TagAccountDebitedDrawdown ++ ascii "D1*").take 9).drop 6),
            [], [], [], [], [], []⟩⟩, none)) ∧
    (∀ r : AccountDebitedDrawdown, ∃ res,
      r.Parse specConverters (TagAccountDebitedDrawdown ++ ascii "D1*") = some res ∧
      (res.2 = none ↔ (TagAccountDebitedDrawdown ++ ascii "D1*").getLast? = some 42) ∧
      (res.2 = none → res.1.Name = [] ∧ res.1.Address = ⟨[], [], []⟩)) :=
  ⟨by decide, by decide,
    C7_minimum_length_boundary_ascii (TagAccountDebitedDrawdown ++ ascii "D1*") (by decide)
      (by decide)⟩

/-! ## Validate -/

/-- C11: for every AccountDebitedDrawdown that has an empty mandatory field and
a tag other than TagAccountDebitedDrawdown, Validate returns ErrFieldRequired
for the first empty field in the order IdentificationCode, Identifier, Name:
the presence check runs before the tag check, and the one error returned is
that field error, whatever the validators are. -/
theorem C11_validate_presence_before_tag (v : Validators) (s : AccountDebitedDrawdown)
    (_htag : s.tag ≠ TagAccountDebitedDrawdown) :
    (s.IdentificationCode = [] →
      s.Validate v = some (fieldError "IdentificationCode" GoError.ErrFieldRequired none)) ∧
    (s.IdentificationCode ≠ [] → s.Identifier = [] →
      s.Validate v = some (fieldError "Identifier" GoError.ErrFieldRequired none)) ∧
    (s.IdentificationCode ≠ [] → s.Identifier ≠ [] → s.Name = [] →
      s.Validate v = some (fieldError "Name" GoError.ErrFieldRequired none)) := by
  refine ⟨?_, ?_, ?_⟩
  · intro h1
    simp [AccountDebitedDrawdown.Validate, AccountDebitedDrawdown.fieldInclusion, h1]
  · intro h1 h2
    simp [AccountDebitedDrawdown.Validate, AccountDebitedDrawdown.fieldInclusion, h1, h2]
  · intro h1 h2 h3
    simp [AccountDebitedDrawdown.Validate, AccountDebitedDrawdown.fieldInclusion, h1, h2, h3]

/-- Witness of C11: under the foreign tag of the code 9999 in braces, a segment
with nothing set, one with only the code "D", and one with the code and the
identifier "1". -/
theorem C11_validate_presence_before_tag_witness :
    (AccountDebitedDrawdown.Validate sampleValidators
        { NewAccountDebitedDrawdown with tag := [123, 57, 57, 57, 57, 125] }
      = some (fieldError "IdentificationCode" GoError.ErrFieldRequired none)) ∧
    (AccountDebitedDrawdown.Validate sampleValidators
        { NewAccountDebitedDrawdown with tag := [123, 57, 57, 57, 57, 125],
                                         IdentificationCode := [68] }
      = some (fieldError "Identifier" GoError.ErrFieldRequired none)) ∧
    (AccountDebitedDrawdown.Validate sampleValidators
        { NewAccountDebitedDrawdown with tag := [123, 57, 57, 57, 57, 125],
                                         IdentificationCode := [68], Identifier := [49] }
      = some (fieldError "Name" GoError.ErrFieldRequired none)) :=
  ⟨(C11_validate_presence_before_tag sampleValidators _ (by decide)).1 rfl,
   (C11_validate_presence_before_tag sampleValidators _ (by decide)).2.1 (by decide) rfl,
   (C11_validate_presence_before_tag sampleValidators _ (by decide)).2.2 (by decide)
     (by decide) rfl⟩

/-- C12: for every FIBeneficiaryFIAdvice with the constant tag and an
AdviceCode that isAdviceCode accepts, in which isAlphanumeric rejects at least
one of LineOne..LineSix, Validate returns the field error whose field name is
the earliest rejected line in the order LineOne, ..., LineSix, whose value is
that line's content, and whose cause is ErrNonAlphanumeric, the error kind of
isAlphanumeric. -/
theorem C12_first_rejected_line (v : Validators) (hv : v.OwnErrorKinds)
    (s : FIBeneficiaryFIAdvice) (htag : s.tag = TagFIBeneficiaryFIAdvice)
    (hcode : v.isAdviceCode s.Advice.AdviceCode = none) (name : String) (line : GoString)
    (hfind : (adviceNamedLines s).find? (fun p => (v.isAlphanumeric p.2).isSome)
      = some (name, line)) :
    s.Validate v = some (fieldError name GoError.ErrNonAlphanumeric (some line)) := by
  obtain ⟨hA, _, _⟩ := hv
  cases h1 : v.isAlphanumeric s.Advice.LineOne with
  | some e =>
    have he := hA _ _ h1
    subst he
    simp only [adviceNamedLines, List.find?, h1, Option.isSome_none,
      Option.isSome_some, Option.some.injEq, Prod.mk.injEq] at hfind
    obtain ⟨rfl, rfl⟩ := hfind
    simp only [FIBeneficiaryFIAdvice.Validate, htag, ne_eq, not_true_eq_false, if_false, hcode, h1]
  | none =>
    cases h2 : v.isAlphanumeric s.Advice.LineTwo with
    | some e =>
      have he := hA _ _ h2
      subst he
      simp only [adviceNamedLines, List.find?, h1, h2, Option.isSome_none,
        Option.isSome_some, Option.some.injEq, Prod.mk.injEq] at hfind
      obtain ⟨rfl, rfl⟩ := hfind
      simp only [FIBeneficiaryFIAdvice.Validate, htag, ne_eq, not_true_eq_false, if_false, hcode, h1, h2]
    | none =>
      cases h3 : v.isAlphanumeric s.Advice.LineThree with
      | some e =>
        have he := hA _ _ h3
        subst he
        simp only [adviceNamedLines, List.find?, h1, h2, h3, Option.isSome_none,
          Option.isSome_some, Option.some.injEq, Prod.mk.injEq] at hfind
        obtain ⟨rfl, rfl⟩ := hfind
        simp only [FIBeneficiaryFIAdvice.Validate, htag, ne_eq, not_true_eq_false, if_false, hcode, h1, h2, h3]
      | none =>
        cases h4 : v.isAlphanumeric s.Advice.LineFour with
        | some e =>
          have he := hA _ _ h4
          subst he
          simp only [adviceNamedLines, List.find?, h1, h2, h3, h4, Option.isSome_none,
            Option.isSome_some, Option.some.injEq, Prod.mk.injEq] at hfind
          obtain ⟨rfl, rfl⟩ := hfind
          simp only [FIBeneficiaryFIAdvice.Validate, htag, ne_eq, not_true_eq_false, if_false, hcode, h1, h2, h3, h4]
        | none =>
          cases h5 : v.isAlphanumeric s.Advice.LineFive with
          | some e =>
            have he := hA _ _ h5
            subst he
            simp only [adviceNamedLines, List.find?, h1, h2, h3, h4, h5, Option.isSome_none,
              Option.isSome_some, Option.some.injEq, Prod.mk.injEq] at hfind
            obtain ⟨rfl, rfl⟩ := hfind
            simp only [FIBeneficiaryFIAdvice.Validate, htag, ne_eq, not_true_eq_false, if_false, hcode, h1, h2, h3, h4, h5]
          | none =>
            cases h6 : v.isAlphanumeric s.Advice.LineSix with
            | some e =>
              have he := hA _ _ h6
              subst he
              simp only [adviceNamedLines, List.find?, h1, h2, h3, h4, h5, h6, Option.isSome_none,
                Option.isSome_some, Option.some.injEq, Prod.mk.injEq] at hfind
              obtain ⟨rfl, rfl⟩ := hfind
              simp only [FIBeneficiaryFIAdvice.Validate, htag, ne_eq, not_true_eq_false, if_false, hcode, h1, h2, h3, h4, h5, h6]
            | none =>
              simp [adviceNamedLines, List.find?, h1, h2, h3, h4, h5, h6] at hfind

theorem sampleValidators_OwnErrorKinds : sampleValidators.OwnErrorKinds := by
  refine ⟨?_, ?_, ?_⟩
  · intro s e h
    simp only [sampleValidators] at h
    split at h
    · cases h
    · exact (Option.some.inj h).symm
  · intro s e h
    simp only [sampleValidators] at h
    split at h
    · cases h
    · exact (Option.some.inj h).symm
  · intro s e h
    simp only [sampleValidators] at h
    split at h
    · cases h
    · exact (Option.some.inj h).symm

/-- Witness of C12: the advice with code "LTR", a valid first line, and the
registered-trademark sign (two bytes, not ASCII) as third and as fifth line;
the error names LineThree. -/
theorem C12_first_rejected_line_witness :
    FIBeneficiaryFIAdvice.Validate sampleValidators
        ⟨TagFIBeneficiaryFIAdvice,
          ⟨ascii "LTR", ascii "Line One", [], [194, 174], [], [194, 174], []⟩⟩
      = some (fieldError "LineThree" GoError.ErrNonAlphanumeric (some [194, 174])) :=
  C12_first_rejected_line sampleValidators sampleValidators_OwnErrorKinds
    ⟨TagFIBeneficiaryFIAdvice,
      ⟨ascii "LTR", ascii "Line One", [], [194, 174], [], [194, 174], []⟩⟩
    rfl rfl "LineThree" [194, 174] (by decide)

theorem digitAmountValidators_OwnErrorKinds : digitAmountValidators.OwnErrorKinds := by
  refine ⟨?_, ?_, ?_⟩
  · intro s e h
    simp only [digitAmountValidators, sampleValidators] at h
    split at h
    · cases h
    · exact (Option.some.inj h).symm
  · intro s e h
    simp only [digitAmountValidators] at h
    split at h
    · cases h
    · exact (Option.some.inj h).symm
  · intro s e h
    simp only [digitAmountValidators, sampleValidators] at h
    split at h
    · cases h
    · exact (Option.some.inj h).symm

/-- Counterexample to the general part of C13.  First: Parse accepts the record
of the tag, "USD" and a delimiter, with the constant tag, the currency code
"USD" and an empty Amount; validators that keep to their error kinds accept
"USD" and reject the empty amount, and Validate returns the ErrFieldRequired
error of the presence check for Amount, not the ErrNonAmount field error.
Second: Parse accepts the record of the tag, three spaces, "1Z" and a
delimiter with an empty CurrencyCode; when isCurrencyCode accepts every value
and isAmount rejects "1Z", Validate returns ErrFieldRequired for
CurrencyCode. -/
theorem C13_counterexample :
    (digitAmountValidators.OwnErrorKinds ∧
      NewAmountNegotiatedDiscount.Parse specConverters (TagAmountNegotiatedDiscount ++ ascii "USD*")
        = some (⟨TagAmountNegotiatedDiscount, ⟨ascii "USD", []⟩⟩, none) ∧
      digitAmountValidators.isCurrencyCode (ascii "USD") = none ∧
      digitAmountValidators.isAmount [] ≠ none ∧
      AmountNegotiatedDiscount.Validate digitAmountValidators
          ⟨TagAmountNegotiatedDiscount, ⟨ascii "USD", []⟩⟩
        = some (fieldError "Amount" GoError.ErrFieldRequired none) ∧
      fieldError "Amount" GoError.ErrFieldRequired none
        ≠ fieldError "Amount" GoError.ErrNonAmount (some [])) ∧
    (NewAmountNegotiatedDiscount.Parse specConverters
          (TagAmountNegotiatedDiscount ++ ascii "   1Z*")
        = some (⟨TagAmountNegotiatedDiscount, ⟨[], ascii "1Z"⟩⟩, none) ∧
      digitAmountValidators.isAmount (ascii "1Z") ≠ none ∧
      AmountNegotiatedDiscount.Validate
          { digitAmountValidators with isCurrencyCode := fun _ => none }
          ⟨TagAmountNegotiatedDiscount, ⟨[], ascii "1Z"⟩⟩
        = some (fieldError "CurrencyCode" GoError.ErrFieldRequired none)) := by
  refine ⟨⟨digitAmountValidators_OwnErrorKinds, by decide, by decide, by decide, by decide,
    by decide⟩, by decide, by decide, by decide⟩

/-- C13, amended: structural parse is independent of content validity.  The
record of TagAmountNegotiatedDiscount, "USD", "1234.56Z" and eleven spaces has
28 characters; Parse returns no error on it, and when isCurrencyCode accepts
"USD" and isAmount rejects "1234.56Z", Validate on the parsed segment returns
the field error naming "Amount" with cause ErrNonAmount.  In general, whenever
Parse has succeeded and the segment has the constant tag, a non-empty
currency code that isCurrencyCode accepts and a non-empty Amount that isAmount
rejects, Validate returns that ErrNonAmount field error for Amount, with the
Amount as value. -/
theorem C13_parse_accepts_validate_rejects_amount (v : Validators) (hv : v.OwnErrorKinds) :
    (v.isCurrencyCode (ascii "USD") = none → v.isAmount (ascii "1234.56Z") ≠ none →
      ∀ r : AmountNegotiatedDiscount, ∃ s,
        r.Parse specConverters (TagAmountNegotiatedDiscount ++ ascii "USD1234.56Z           ")
          = some (s, none) ∧
        s.Validate v = some (fieldError "Amount" GoError.ErrNonAmount (some (ascii "1234.56Z")))) ∧
    (∀ (c : Converters) (r s : AmountNegotiatedDiscount) (record : GoString),
      r.Parse c record = some (s, none) → s.tag = TagAmountNegotiatedDiscount →
      s.RemittanceAmount.CurrencyCode ≠ [] →
      v.isCurrencyCode s.RemittanceAmount.CurrencyCode = none →
      s.RemittanceAmount.Amount ≠ [] → v.isAmount s.RemittanceAmount.Amount ≠ none →
      s.Validate v
        = some (fieldError "Amount" GoError.ErrNonAmount (some s.RemittanceAmount.Amount))) := by
  obtain ⟨_, hAm, _⟩ := hv
  have gen : ∀ s : AmountNegotiatedDiscount, s.tag = TagAmountNegotiatedDiscount →
      s.RemittanceAmount.CurrencyCode ≠ [] →
      v.isCurrencyCode s.RemittanceAmount.CurrencyCode = none →
      s.RemittanceAmount.Amount ≠ [] → v.isAmount s.RemittanceAmount.Amount ≠ none →
      s.Validate v
        = some (fieldError "Amount" GoError.ErrNonAmount (some s.RemittanceAmount.Amount)) := by
    intro s htag hcc hccv ham hamv
    cases h : v.isAmount s.RemittanceAmount.Amount with
    | none => exact absurd h hamv
    | some e =>
      have he := hAm _ _ h
      subst he
      simp [AmountNegotiatedDiscount.Validate, AmountNegotiatedDiscount.fieldInclusion, htag, hcc,
        ham, hccv, h]
  constructor
  · intro hccv hamv r
    have h8 : ¬ RuneCountInString
        (TagAmountNegotiatedDiscount ++ ascii "USD1234.56Z           ") < 8 := by decide
    have hs0 : slice (TagAmountNegotiatedDiscount ++ ascii "USD1234.56Z           ") 0 6
        = some TagAmountNegotiatedDiscount := by decide
    have hs1 : sliceFrom (TagAmountNegotiatedDiscount ++ ascii "USD1234.56Z           ") 6
        = some (ascii "USD1234.56Z           ") := by decide
    have hp1 : specConverters.parseFixedStringField (ascii "USD1234.56Z           ") 3
        = .ok (ascii "USD", 3) := by rfl
    have hs2 : sliceFrom (TagAmountNegotiatedDiscount ++ ascii "USD1234.56Z           ") (6 + 3)
        = some (ascii "1234.56Z           ") := by decide
    have hp2 : specConverters.parseVariableStringField (ascii "1234.56Z           ") 19
        = .ok (ascii "1234.56Z", 19) := by rfl
    have hver : specConverters.verifyDataWithReadLength
        (TagAmountNegotiatedDiscount ++ ascii "USD1234.56Z           ") (6 + 3 + 19) = none := by
      rfl
    refine ⟨⟨TagAmountNegotiatedDiscount, ⟨ascii "USD", ascii "1234.56Z"⟩⟩, ?_, ?_⟩
    · simp only [AmountNegotiatedDiscount.Parse, if_neg h8, hs0, hs1, hp1, hs2, hp2, hver]
    · exact gen _ rfl (by decide) hccv (by decide) hamv
  · intro c r s record _ htag hcc hccv ham hamv
    exact gen s htag hcc hccv ham hamv

/-- Witness of the amended C13: the sample validators, and for the general
part the 28-character record itself. -/
theorem C13_parse_accepts_validate_rejects_amount_witness :
    (∃ s, NewAmountNegotiatedDiscount.Parse specConverters
          (TagAmountNegotiatedDiscount ++ ascii "USD1234.56Z           ") = some (s, none) ∧
        s.Validate sampleValidators
          = some (fieldError "Amount" GoError.ErrNonAmount (some (ascii "1234.56Z")))) ∧
    AmountNegotiatedDiscount.Validate sampleValidators
        ⟨TagAmountNegotiatedDiscount, ⟨ascii "USD", ascii "1234.56Z"⟩⟩
      = some (fieldError "Amount" GoError.ErrNonAmount (some (ascii "1234.56Z"))) :=
  ⟨(C13_parse_accepts_validate_rejects_amount sampleValidators sampleValidators_OwnErrorKinds).1
      (by decide) (by decide) NewAmountNegotiatedDiscount,
   (C13_parse_accepts_validate_rejects_amount sampleValidators sampleValidators_OwnErrorKinds).2
      specConverters NewAmountNegotiatedDiscount
      ⟨TagAmountNegotiatedDiscount, ⟨ascii "USD", ascii "1234.56Z"⟩⟩
      (TagAmountNegotiatedDiscount ++ ascii "USD1234.56Z           ") (by decide) rfl (by decide)
      (by decide) (by decide) (by decide)⟩

/-- C14: Validate of an AmountNegotiatedDiscount returns nil if and only if
Amount is non-empty, CurrencyCode is non-empty, the tag equals
TagAmountNegotiatedDiscount, isCurrencyCode accepts CurrencyCode and isAmount
accepts Amount; in particular the segment made by NewAmountNegotiatedDiscount
with CurrencyCode "USD" and Amount "1234.56" validates, under validators that
accept these two values. -/
theorem C14_validate_nil_iff (v : Validators) :
    (∀ s : AmountNegotiatedDiscount, s.Validate v = none ↔
      (s.RemittanceAmount.Amount ≠ [] ∧ s.RemittanceAmount.CurrencyCode ≠ [] ∧
        s.tag = TagAmountNegotiatedDiscount ∧
        v.isCurrencyCode s.RemittanceAmount.CurrencyCode = none ∧
        v.isAmount s.RemittanceAmount.Amount = none)) ∧
    (v.isCurrencyCode (ascii "USD") = none → v.isAmount (ascii "1234.56") = none →
      AmountNegotiatedDiscount.Validate v
        { NewAmountNegotiatedDiscount with
          RemittanceAmount := { CurrencyCode := ascii "USD", Amount := ascii "1234.56" } }
        = none) := by
  have key : ∀ s : AmountNegotiatedDiscount, s.Validate v = none ↔
      (s.RemittanceAmount.Amount ≠ [] ∧ s.RemittanceAmount.CurrencyCode ≠ [] ∧
        s.tag = TagAmountNegotiatedDiscount ∧
        v.isCurrencyCode s.RemittanceAmount.CurrencyCode = none ∧
        v.isAmount s.RemittanceAmount.Amount = none) := by
    intro s
    unfold AmountNegotiatedDiscount.Validate AmountNegotiatedDiscount.fieldInclusion
    by_cases h1 : s.RemittanceAmount.Amount = []
    · simp [h1]
    · by_cases h2 : s.RemittanceAmount.CurrencyCode = []
      · simp [h1, h2]
      · by_cases h3 : s.tag = TagAmountNegotiatedDiscount
        · cases h4 : v.isCurrencyCode s.RemittanceAmount.CurrencyCode with
          | some e => simp [h1, h2, h3, h4]
          | none =>
            cases h5 : v.isAmount s.RemittanceAmount.Amount with
            | some e => simp [h1, h2, h3, h4, h5]
            | none => simp [h1, h2, h3, h4, h5]
        · simp [h1, h2, h3]
  refine ⟨key, ?_⟩
  intro hcc ham
  exact (key _).mpr ⟨by decide, by decide, rfl, hcc, ham⟩

/-- Witness of C14: the sample validators accept "USD" and "1234.56". -/
theorem C14_validate_nil_iff_witness :
    AmountNegotiatedDiscount.Validate sampleValidators
        { NewAmountNegotiatedDiscount with
          RemittanceAmount := { CurrencyCode := ascii "USD", Amount := ascii "1234.56" } }
      = none :=
  (C14_validate_nil_iff sampleValidators).2 (by decide) (by decide)

/-! ## Fixed-mode output -/

/-- C15: for each segment kind, any two segments with the constant tag of the
kind have String() outputs of the same byte length, whatever the field
contents are, empty fields and fields of multi-byte characters included: 15
bytes for AccountCreditedDrawdown, 186 for AccountDebitedDrawdown, 29 for
AmountNegotiatedDiscount, 31 for CurrencyInstructedAmount and 206 for
FIBeneficiaryFIAdvice (under the field codec of the specification, in which
every field occupies exactly its width in bytes). -/
theorem C15_fixed_length_constant :
    (∀ s1 s2 : AccountCreditedDrawdown, s1.tag = TagAccountCreditedDrawdown → s2.tag = TagAccountCreditedDrawdown →
      (s1.String specConverters).length = 15 ∧
      (s1.String specConverters).length = (s2.String specConverters).length) ∧
    (∀ s1 s2 : AccountDebitedDrawdown, s1.tag = TagAccountDebitedDrawdown → s2.tag = TagAccountDebitedDrawdown →
      (s1.String specConverters).length = 186 ∧
      (s1.String specConverters).length = (s2.String specConverters).length) ∧
    (∀ s1 s2 : AmountNegotiatedDiscount, s1.tag = TagAmountNegotiatedDiscount → s2.tag = TagAmountNegotiatedDiscount →
      (s1.String specConverters).length = 29 ∧
      (s1.String specConverters).length = (s2.String specConverters).length) ∧
    (∀ s1 s2 : CurrencyInstructedAmount, s1.tag = TagCurrencyInstructedAmount → s2.tag = TagCurrencyInstructedAmount →
      (s1.String specConverters).length = 31 ∧
      (s1.String specConverters).length = (s2.String specConverters).length) ∧
    (∀ s1 s2 : FIBeneficiaryFIAdvice, s1.tag = TagFIBeneficiaryFIAdvice → s2.tag = TagFIBeneficiaryFIAdvice →
      (s1.String specConverters).length = 206 ∧
      (s1.String specConverters).length = (s2.String specConverters).length) := by
  refine ⟨?_, ?_, ?_, ?_, ?_⟩
  · have key : ∀ s : AccountCreditedDrawdown, s.tag = TagAccountCreditedDrawdown →
        (s.String specConverters).length = 15 := by
      intro s ht
      simp only [AccountCreditedDrawdown.String, AccountCreditedDrawdown.Format,
      AccountCreditedDrawdown.DrawdownCreditAccountNumberField,
        specConverters_alphaField, specConverters_formatAlphaField, specFormatAlphaField_fixed,
        List.length_append, specAlphaField_length, ht]
      rfl
    intro s1 s2 h1 h2
    exact ⟨key s1 h1, by rw [key s1 h1, key s2 h2]⟩
  · have key : ∀ s : AccountDebitedDrawdown, s.tag = TagAccountDebitedDrawdown →
        (s.String specConverters).length = 186 := by
      intro s ht
      simp only [AccountDebitedDrawdown.String, AccountDebitedDrawdown.Format, Bool.false_eq_true,
      ↓reduceIte, AccountDebitedDrawdown.IdentificationCodeField,
      AccountDebitedDrawdown.FormatIdentifier, AccountDebitedDrawdown.FormatName,
      AccountDebitedDrawdown.FormatAddressLineOne, AccountDebitedDrawdown.FormatAddressLineTwo,
      AccountDebitedDrawdown.FormatAddressLineThree,
        specConverters_alphaField, specConverters_formatAlphaField, specFormatAlphaField_fixed,
        List.length_append, specAlphaField_length, ht]
      rfl
    intro s1 s2 h1 h2
    exact ⟨key s1 h1, by rw [key s1 h1, key s2 h2]⟩
  · have key : ∀ s : AmountNegotiatedDiscount, s.tag = TagAmountNegotiatedDiscount →
        (s.String specConverters).length = 29 := by
      intro s ht
      simp only [AmountNegotiatedDiscount.String, AmountNegotiatedDiscount.Format,
      AmountNegotiatedDiscount.CurrencyCodeField, AmountNegotiatedDiscount.FormatAmount,
        specConverters_alphaField, specConverters_formatAlphaField, specFormatAlphaField_fixed,
        List.length_append, specAlphaField_length, ht]
      rfl
    intro s1 s2 h1 h2
    exact ⟨key s1 h1, by rw [key s1 h1, key s2 h2]⟩
  · have key : ∀ s : CurrencyInstructedAmount, s.tag = TagCurrencyInstructedAmount →
        (s.String specConverters).length = 31 := by
      intro s ht
      simp only [CurrencyInstructedAmount.String, CurrencyInstructedAmount.Format,
      CurrencyInstructedAmount.FormatSwiftFieldTag, CurrencyInstructedAmount.FormatAmount,
        specConverters_alphaField, specConverters_formatAlphaField, specFormatAlphaField_fixed,
        List.length_append, specAlphaField_length, ht]
      rfl
    intro s1 s2 h1 h2
    exact ⟨key s1 h1, by rw [key s1 h1, key s2 h2]⟩
  · have key : ∀ s : FIBeneficiaryFIAdvice, s.tag = TagFIBeneficiaryFIAdvice →
        (s.String specConverters).length = 206 := by
      intro s ht
      simp only [FIBeneficiaryFIAdvice.String, FIBeneficiaryFIAdvice.Format, Bool.false_eq_true,
      ↓reduceIte, FIBeneficiaryFIAdvice.AdviceCodeField, FIBeneficiaryFIAdvice.FormatLineOne,
      FIBeneficiaryFIAdvice.FormatLineTwo, FIBeneficiaryFIAdvice.FormatLineThree,
      FIBeneficiaryFIAdvice.FormatLineFour, FIBeneficiaryFIAdvice.FormatLineFive,
      FIBeneficiaryFIAdvice.FormatLineSix,
        specConverters_alphaField, specConverters_formatAlphaField, specFormatAlphaField_fixed,
        List.length_append, specAlphaField_length, ht]
      rfl
    intro s1 s2 h1 h2
    exact ⟨key s1 h1, by rw [key s1 h1, key s2 h2]⟩

/-- Witness of C15: the credited account with the account numbers "" and "é"
(one character of two bytes), and the debited account with an empty and a
non-empty identifier. -/
theorem C15_fixed_length_constant_witness :
    ((AccountCreditedDrawdown.String specConverters ⟨TagAccountCreditedDrawdown, []⟩).length = 15 ∧
      (AccountCreditedDrawdown.String specConverters ⟨TagAccountCreditedDrawdown, []⟩).length
        = (AccountCreditedDrawdown.String specConverters
            ⟨TagAccountCreditedDrawdown, [195, 169]⟩).length) ∧
    ((AccountDebitedDrawdown.String specConverters
        ⟨TagAccountDebitedDrawdown, ascii "D", [], ascii "Name", ⟨[], [], []⟩⟩).length = 186 ∧
      (AccountDebitedDrawdown.String specConverters
        ⟨TagAccountDebitedDrawdown, ascii "D", [], ascii "Name", ⟨[], [], []⟩⟩).length
        = (AccountDebitedDrawdown.String specConverters
            ⟨TagAccountDebitedDrawdown, ascii "D", ascii "123456789", ascii "Name",
              ⟨[], [], []⟩⟩).length) :=
  ⟨C15_fixed_length_constant.1 ⟨TagAccountCreditedDrawdown, []⟩
      ⟨TagAccountCreditedDrawdown, [195, 169]⟩ rfl rfl,
   C15_fixed_length_constant.2.1
      ⟨TagAccountDebitedDrawdown, ascii "D", [], ascii "Name", ⟨[], [], []⟩⟩
      ⟨TagAccountDebitedDrawdown, ascii "D", ascii "123456789", ascii "Name", ⟨[], [], []⟩⟩
      rfl rfl⟩

theorem count_specAlphaField (v : GoString) (n : Nat) (h : 42 ∉ v) :
    (specAlphaField v n).count 42 = 0 := by
  apply List.count_eq_zero.mpr
  intro hm
  have hm2 := List.mem_of_mem_take hm
  rcases List.mem_append.mp hm2 with h1 | h1
  · exact h h1
  · have := List.eq_of_mem_replicate h1
    omega

/-- Counterexample to C16: the freshly constructed segment of each of the four
kinds has no delimiter in its tag or in its (empty) fields, and whatever the
field codec is, the output of Format with VariableLengthFields=false contains
the delimiter, which Format writes after every variable-width field in both
modes. -/
theorem C16_counterexample :
    42 ∉ TagAccountDebitedDrawdown ∧ 42 ∉ TagAmountNegotiatedDiscount ∧
    42 ∉ TagCurrencyInstructedAmount ∧ 42 ∉ TagFIBeneficiaryFIAdvice ∧
    ∀ c : Converters,
      42 ∈ NewAccountDebitedDrawdown.Format c { VariableLengthFields := false } ∧
      42 ∈ NewAmountNegotiatedDiscount.Format c { VariableLengthFields := false } ∧
      42 ∈ NewCurrencyInstructedAmount.Format c { VariableLengthFields := false } ∧
      42 ∈ NewFIBeneficiaryFIAdvice.Format c { VariableLengthFields := false } := by
  refine ⟨by decide, by decide, by decide, by decide, ?_⟩
  intro c
  refine ⟨?_, ?_, ?_, ?_⟩
  · simp [AccountDebitedDrawdown.Format, Delimiter]
  · simp [AmountNegotiatedDiscount.Format, Delimiter]
  · simp [CurrencyInstructedAmount.Format, Delimiter]
  · simp [FIBeneficiaryFIAdvice.Format, Delimiter]

/-- C16, amended: in the fixed mode Format writes the delimiter after every
variable-width field and nowhere else.  For every segment of the four kinds
whose tag and field values contain no delimiter character, the output of
Format with VariableLengthFields=false contains exactly one delimiter per
variable-width field: 5 for AccountDebitedDrawdown, 1 for
AmountNegotiatedDiscount, 2 for CurrencyInstructedAmount and 6 for
FIBeneficiaryFIAdvice. -/
theorem C16_fixed_mode_delimiter_count :
    (∀ s : AccountDebitedDrawdown, 42 ∉ s.tag → 42 ∉ s.IdentificationCode →
      42 ∉ s.Identifier → 42 ∉ s.Name → 42 ∉ s.Address.AddressLineOne →
      42 ∉ s.Address.AddressLineTwo → 42 ∉ s.Address.AddressLineThree →
      (s.Format specConverters { VariableLengthFields := false }).count 42 = 5) ∧
    (∀ s : AmountNegotiatedDiscount, 42 ∉ s.tag → 42 ∉ s.RemittanceAmount.CurrencyCode →
      42 ∉ s.RemittanceAmount.Amount →
      (s.Format specConverters { VariableLengthFields := false }).count 42 = 1) ∧
    (∀ s : CurrencyInstructedAmount, 42 ∉ s.tag → 42 ∉ s.SwiftFieldTag → 42 ∉ s.Amount →
      (s.Format specConverters { VariableLengthFields := false }).count 42 = 2) ∧
    (∀ s : FIBeneficiaryFIAdvice, 42 ∉ s.tag → 42 ∉ s.Advice.AdviceCode →
      42 ∉ s.Advice.LineOne → 42 ∉ s.Advice.LineTwo → 42 ∉ s.Advice.LineThree →
      42 ∉ s.Advice.LineFour → 42 ∉ s.Advice.LineFive → 42 ∉ s.Advice.LineSix →
      (s.Format specConverters { VariableLengthFields := false }).count 42 = 6) := by
  have hd : List.count 42 Delimiter = 1 := by decide
  refine ⟨?_, ?_, ?_, ?_⟩
  · intro s ht h0 h1 h2 h3 h4 h5
    simp only [AccountDebitedDrawdown.Format, Bool.false_eq_true, ↓reduceIte,
      AccountDebitedDrawdown.IdentificationCodeField, AccountDebitedDrawdown.FormatIdentifier,
      AccountDebitedDrawdown.FormatName, AccountDebitedDrawdown.FormatAddressLineOne,
      AccountDebitedDrawdown.FormatAddressLineTwo, AccountDebitedDrawdown.FormatAddressLineThree,
      specConverters_alphaField, specConverters_formatAlphaField, specFormatAlphaField_fixed,
      List.count_append, count_specAlphaField _ _ h0, count_specAlphaField _ _ h1,
      count_specAlphaField _ _ h2, count_specAlphaField _ _ h3, count_specAlphaField _ _ h4,
      count_specAlphaField _ _ h5, List.count_eq_zero.mpr ht, hd]
  · intro s ht h1 h2
    simp only [AmountNegotiatedDiscount.Format,
      AmountNegotiatedDiscount.CurrencyCodeField, AmountNegotiatedDiscount.FormatAmount,
      specConverters_alphaField, specConverters_formatAlphaField, specFormatAlphaField_fixed,
      List.count_append, count_specAlphaField _ _ h1, count_specAlphaField _ _ h2,
      List.count_eq_zero.mpr ht, hd]
  · intro s ht h1 h2
    simp only [CurrencyInstructedAmount.Format,
      CurrencyInstructedAmount.FormatSwiftFieldTag, CurrencyInstructedAmount.FormatAmount,
      specConverters_formatAlphaField, specFormatAlphaField_fixed,
      List.count_append, count_specAlphaField _ _ h1, count_specAlphaField _ _ h2,
      List.count_eq_zero.mpr ht, hd]
  · intro s ht h0 h1 h2 h3 h4 h5 h6
    simp only [FIBeneficiaryFIAdvice.Format, Bool.false_eq_true, ↓reduceIte,
      FIBeneficiaryFIAdvice.AdviceCodeField, FIBeneficiaryFIAdvice.FormatLineOne,
      FIBeneficiaryFIAdvice.FormatLineTwo, FIBeneficiaryFIAdvice.FormatLineThree,
      FIBeneficiaryFIAdvice.FormatLineFour, FIBeneficiaryFIAdvice.FormatLineFive,
      FIBeneficiaryFIAdvice.FormatLineSix,
      specConverters_alphaField, specConverters_formatAlphaField, specFormatAlphaField_fixed,
      List.count_append, count_specAlphaField _ _ h0, count_specAlphaField _ _ h1,
      count_specAlphaField _ _ h2, count_specAlphaField _ _ h3, count_specAlphaField _ _ h4,
      count_specAlphaField _ _ h5, count_specAlphaField _ _ h6, List.count_eq_zero.mpr ht, hd]

/-- Witness of the amended C16: one segment of each of the four kinds. -/
theorem C16_fixed_mode_delimiter_count_witness :
    (AccountDebitedDrawdown.Format specConverters
      ⟨TagAccountDebitedDrawdown, ascii "D", ascii "123456789", ascii "Name", ⟨[], [], []⟩⟩
      { VariableLengthFields := false }).count 42 = 5 ∧
    (AmountNegotiatedDiscount.Format specConverters
      ⟨TagAmountNegotiatedDiscount, ⟨ascii "USD", ascii "1234.56"⟩⟩
      { VariableLengthFields := false }).count 42 = 1 ∧
    (CurrencyInstructedAmount.Format specConverters
      ⟨TagCurrencyInstructedAmount, [], ascii "1234,56"⟩
      { VariableLengthFields := false }).count 42 = 2 ∧
    (FIBeneficiaryFIAdvice.Format specConverters
      ⟨TagFIBeneficiaryFIAdvice, ⟨ascii "LTR", ascii "Line One", [], [], [], [], []⟩⟩
      { VariableLengthFields := false }).count 42 = 6 :=
  ⟨C16_fixed_mode_delimiter_count.1 _ (by decide) (by decide) (by decide) (by decide)
     (by decide) (by decide) (by decide),
   C16_fixed_mode_delimiter_count.2.1 _ (by decide) (by decide) (by decide),
   C16_fixed_mode_delimiter_count.2.2.1 _ (by decide) (by decide) (by decide),
   C16_fixed_mode_delimiter_count.2.2.2 _ (by decide) (by decide) (by decide) (by decide)
     (by decide) (by decide) (by decide) (by decide)⟩

/-! ## Variable-mode output -/

theorem rdropWhile_delim_not_end (buf t : GoString)
    (h : buf.rdropWhile (fun b => b == 42) = t ++ [42]) : False := by
  have hne : buf.rdropWhile (fun b => b == 42) ≠ [] := by rw [h]; simp
  have hlast := List.rdropWhile_last_not (fun b => b == 42) buf hne
  have : (buf.rdropWhile (fun b => b == 42)).getLast hne = 42 := by
    simp only [h, List.getLast_append_singleton]
  rw [this] at hlast
  exact hlast rfl

theorem specStripDelimiters_no_run (buf : GoString) :
    ¬ [42, 42] <:+ specStripDelimiters buf := by
  intro hsuf
  obtain ⟨t, ht⟩ := hsuf
  unfold specStripDelimiters at ht
  split at ht
  · have h1 : (t ++ [42]) ++ [42] = buf.rdropWhile (fun b => b == 42) ++ [42] := by
      have : buf.rdropWhile (fun b => b == 42) ++ [42] = t ++ [42, 42] := ht.symm
      rw [this]; simp
    have h2 := List.append_cancel_right h1
    exact rdropWhile_delim_not_end buf t h2.symm
  · rename_i hlen
    have hpre : buf.rdropWhile (fun b => b == 42) <+: buf := List.rdropWhile_prefix _ _
    have heq : buf.rdropWhile (fun b => b == 42) = buf :=
      hpre.eq_of_length (le_antisymm hpre.length_le (not_lt.mp hlen))
    apply rdropWhile_delim_not_end buf (t ++ [42])
    rw [heq, ← ht]
    simp

/-- Counterexample to C17: the CurrencyInstructedAmount with SwiftFieldTag
"SWIFT" and an empty Amount.  Format with VariableLengthFields=true does not
depend on what stripDelimiters does, and under the codec of the specification
its output is the buffer as built, which ends in two delimiters and differs
from stripDelimiters applied to it. -/
theorem C17_counterexample :
    (∀ f : GoString → GoString,
      CurrencyInstructedAmount.Format { specConverters with stripDelimiters := f }
          ⟨TagCurrencyInstructedAmount, ascii "SWIFT", []⟩ { VariableLengthFields := true }
        = CurrencyInstructedAmount.Format specConverters
          ⟨TagCurrencyInstructedAmount, ascii "SWIFT", []⟩ { VariableLengthFields := true }) ∧
    CurrencyInstructedAmount.Format specConverters
        ⟨TagCurrencyInstructedAmount, ascii "SWIFT", []⟩ { VariableLengthFields := true }
      = TagCurrencyInstructedAmount ++ ascii "SWIFT" ++ [42, 42] ∧
    specStripDelimiters (TagCurrencyInstructedAmount ++ ascii "SWIFT" ++ [42, 42])
      = TagCurrencyInstructedAmount ++ ascii "SWIFT" ++ [42] := by
  refine ⟨fun _ => rfl, by decide, by decide⟩

/-- C17, amended: for AccountDebitedDrawdown and FIBeneficiaryFIAdvice, Format
with VariableLengthFields=true returns stripDelimiters applied to the fully
built buffer (tag, the fixed code field, then each variable-width field
followed by the delimiter), for every field codec; with the stripDelimiters of
the specification the output therefore never ends in a run of two
delimiters.  AmountNegotiatedDiscount.Format, CurrencyInstructedAmount.Format
and AccountCreditedDrawdown.Format return the buffer as built, in both modes
and for every segment: their output is the same whatever stripDelimiters
does. -/
theorem C17_variable_mode_strips :
    (∀ (c : Converters) (s : AccountDebitedDrawdown),
      s.Format c { VariableLengthFields := true }
        = c.stripDelimiters (s.tag ++ c.alphaField s.IdentificationCode 1
            ++ (c.formatAlphaField s.Identifier 34 { VariableLengthFields := true } ++ Delimiter)
            ++ (c.formatAlphaField s.Name 35 { VariableLengthFields := true } ++ Delimiter)
            ++ (c.formatAlphaField s.Address.AddressLineOne 35 { VariableLengthFields := true }
                ++ Delimiter)
            ++ (c.formatAlphaField s.Address.AddressLineTwo 35 { VariableLengthFields := true }
                ++ Delimiter)
            ++ (c.formatAlphaField s.Address.AddressLineThree 35 { VariableLengthFields := true }
                ++ Delimiter))) ∧
    (∀ (c : Converters) (s : FIBeneficiaryFIAdvice),
      s.Format c { VariableLengthFields := true }
        = c.stripDelimiters (s.tag ++ c.alphaField s.Advice.AdviceCode 3
            ++ (c.formatAlphaField s.Advice.LineOne 26 { VariableLengthFields := true } ++ Delimiter)
            ++ (c.formatAlphaField s.Advice.LineTwo 33 { VariableLengthFields := true } ++ Delimiter)
            ++ (c.formatAlphaField s.Advice.LineThree 33 { VariableLengthFields := true }
                ++ Delimiter)
            ++ (c.formatAlphaField s.Advice.LineFour 33 { VariableLengthFields := true }
                ++ Delimiter)
            ++ (c.formatAlphaField s.Advice.LineFive 33 { VariableLengthFields := true }
                ++ Delimiter)
            ++ (c.formatAlphaField s.Advice.LineSix 33 { VariableLengthFields := true }
                ++ Delimiter))) ∧
    (∀ s : AccountDebitedDrawdown,
      ¬ [42, 42] <:+ s.Format specConverters { VariableLengthFields := true }) ∧
    (∀ s : FIBeneficiaryFIAdvice,
      ¬ [42, 42] <:+ s.Format specConverters { VariableLengthFields := true }) ∧
    (∀ (c : Converters) (f : GoString → GoString) (s : AmountNegotiatedDiscount)
        (o : FormatOptions),
      s.Format c o = s.tag ++ c.alphaField s.RemittanceAmount.CurrencyCode 3
          ++ (c.formatAlphaField s.RemittanceAmount.Amount 19 o ++ Delimiter) ∧
      s.Format { c with stripDelimiters := f } o = s.Format c o) ∧
    (∀ (c : Converters) (f : GoString → GoString) (s : CurrencyInstructedAmount)
        (o : FormatOptions),
      s.Format c o = s.tag ++ (c.formatAlphaField s.SwiftFieldTag 5 o ++ Delimiter)
          ++ (c.formatAlphaField s.Amount 18 o ++ Delimiter) ∧
      s.Format { c with stripDelimiters := f } o = s.Format c o) ∧
    (∀ (c : Converters) (f : GoString → GoString) (s : AccountCreditedDrawdown)
        (o : FormatOptions),
      s.Format c o = s.tag ++ c.alphaField s.DrawdownCreditAccountNumber 9 ∧
      s.Format { c with stripDelimiters := f } o = s.Format c o) := by
  refine ⟨fun _ _ => rfl, fun _ _ => rfl, ?_, ?_, fun _ _ _ _ => ⟨rfl, rfl⟩,
    fun _ _ _ _ => ⟨rfl, rfl⟩, fun _ _ _ _ => ⟨rfl, rfl⟩⟩
  · intro s
    exact specStripDelimiters_no_run _
  · intro s
    exact specStripDelimiters_no_run _


/-! ## Field failures and record lengths -/

theorem sliceFrom_of_le (s : GoString) (lo : Nat) (h : lo ≤ s.length) :
    sliceFrom s lo = some (s.drop lo) := by
  simp only [sliceFrom, if_pos h]

theorem slice_of_le (s : GoString) (lo hi : Nat) (h1 : lo ≤ hi) (h2 : hi ≤ s.length) :
    slice s lo hi = some ((s.take hi).drop lo) := by
  simp only [slice, if_pos (And.intro h1 h2)]

/-- C18: in AccountDebitedDrawdown.Parse, on a record that passes the length
precheck, if the field codec fails on Identifier, Name, AddressLineOne,
AddressLineTwo or AddressLineThree (the earlier fields having been read within
the record), Parse returns the field error that names exactly that field and
wraps the codec's error; the fields read before are assigned, and the failing
field and every later field keep the receiver's values, whatever the codec
would do on them. -/
theorem C18_field_failure_is_attributed (c : Converters) (s : AccountDebitedDrawdown)
    (record : GoString) (h9 : 9 ≤ RuneCountInString record) :
    (∀ (e : GoError),
        c.parseVariableStringField (record.drop (7)) 34 = .error e →
        s.Parse c record = some (⟨record.take 6, (record.take 7).drop 6, s.Identifier, s.Name, s.Address⟩,
          some (fieldError "Identifier" e none))) ∧
    (∀ (v1 : GoString) (n1 : Nat) (e : GoError),
        c.parseVariableStringField (record.drop (7)) 34 = .ok (v1, n1) →
        7 + n1 ≤ record.length →
        c.parseVariableStringField (record.drop (7 + n1)) 35 = .error e →
        s.Parse c record = some (⟨record.take 6, (record.take 7).drop 6, v1, s.Name, s.Address⟩,
          some (fieldError "Name" e none))) ∧
    (∀ (v1 : GoString) (v2 : GoString) (n1 : Nat) (n2 : Nat) (e : GoError),
        c.parseVariableStringField (record.drop (7)) 34 = .ok (v1, n1) →
        7 + n1 ≤ record.length →
        c.parseVariableStringField (record.drop (7 + n1)) 35 = .ok (v2, n2) →
        7 + n1 + n2 ≤ record.length →
        c.parseVariableStringField (record.drop (7 + n1 + n2)) 35 = .error e →
        s.Parse c record = some (⟨record.take 6, (record.take 7).drop 6, v1, v2, s.Address⟩,
          some (fieldError "AddressLineOne" e none))) ∧
    (∀ (v1 : GoString) (v2 : GoString) (v3 : GoString) (n1 : Nat) (n2 : Nat) (n3 : Nat) (e : GoError),
        c.parseVariableStringField (record.drop (7)) 34 = .ok (v1, n1) →
        7 + n1 ≤ record.length →
        c.parseVariableStringField (record.drop (7 + n1)) 35 = .ok (v2, n2) →
        7 + n1 + n2 ≤ record.length →
        c.parseVariableStringField (record.drop (7 + n1 + n2)) 35 = .ok (v3, n3) →
        7 + n1 + n2 + n3 ≤ record.length →
        c.parseVariableStringField (record.drop (7 + n1 + n2 + n3)) 35 = .error e →
        s.Parse c record = some (⟨record.take 6, (record.take 7).drop 6, v1, v2, ⟨v3, s.Address.AddressLineTwo, s.Address.AddressLineThree⟩⟩,
          some (fieldError "AddressLineTwo" e none))) ∧
    (∀ (v1 : GoString) (v2 : GoString) (v3 : GoString) (v4 : GoString) (n1 : Nat) (n2 : Nat) (n3 : Nat) (n4 : Nat) (e : GoError),
        c.parseVariableStringField (record.drop (7)) 34 = .ok (v1, n1) →
        7 + n1 ≤ record.length →
        c.parseVariableStringField (record.drop (7 + n1)) 35 = .ok (v2, n2) →
        7 + n1 + n2 ≤ record.length →
        c.parseVariableStringField (record.drop (7 + n1 + n2)) 35 = .ok (v3, n3) →
        7 + n1 + n2 + n3 ≤ record.length →
        c.parseVariableStringField (record.drop (7 + n1 + n2 + n3)) 35 = .ok (v4, n4) →
        7 + n1 + n2 + n3 + n4 ≤ record.length →
        c.parseVariableStringField (record.drop (7 + n1 + n2 + n3 + n4)) 35 = .error e →
        s.Parse c record = some (⟨record.take 6, (record.take 7).drop 6, v1, v2, ⟨v3, v4, s.Address.AddressLineThree⟩⟩,
          some (fieldError "AddressLineThree" e none))) := by
  have hlen := RuneCountInString_le_length record
  have h9' : ¬ RuneCountInString record < 9 := by omega
  have hs0 : slice record 0 6 = some (record.take 6) := by
    rw [slice_of_le record 0 6 (by omega) (by omega)]; rfl
  have hs6 : slice record 6 7 = some ((record.take 7).drop 6) :=
    slice_of_le record 6 7 (by omega) (by omega)
  have hs7 : sliceFrom record 7 = some (record.drop 7) := sliceFrom_of_le record 7 (by omega)
  refine ⟨?_, ?_, ?_, ?_, ?_⟩
  · intro e he
    simp only [AccountDebitedDrawdown.Parse, if_neg h9', hs0, hs6, hs7, he]
  · intro v1 n1 e hp1 hl1 he
    have hs1 : sliceFrom record (7 + n1) = some (record.drop (7 + n1)) :=
      sliceFrom_of_le record _ hl1
    simp only [AccountDebitedDrawdown.Parse, if_neg h9', hs0, hs6, hs7, hp1, hs1, he]
  · intro v1 v2 n1 n2 e hp1 hl1 hp2 hl2 he
    have hs1 : sliceFrom record (7 + n1) = some (record.drop (7 + n1)) :=
      sliceFrom_of_le record _ hl1
    have hs2 : sliceFrom record (7 + n1 + n2) = some (record.drop (7 + n1 + n2)) :=
      sliceFrom_of_le record _ hl2
    simp only [AccountDebitedDrawdown.Parse, if_neg h9', hs0, hs6, hs7, hp1, hp2, hs1, hs2, he]
  · intro v1 v2 v3 n1 n2 n3 e hp1 hl1 hp2 hl2 hp3 hl3 he
    have hs1 : sliceFrom record (7 + n1) = some (record.drop (7 + n1)) :=
      sliceFrom_of_le record _ hl1
    have hs2 : sliceFrom record (7 + n1 + n2) = some (record.drop (7 + n1 + n2)) :=
      sliceFrom_of_le record _ hl2
    have hs3 : sliceFrom record (7 + n1 + n2 + n3) = some (record.drop (7 + n1 + n2 + n3)) :=
      sliceFrom_of_le record _ hl3
    simp only [AccountDebitedDrawdown.Parse, if_neg h9', hs0, hs6, hs7, hp1, hp2, hp3, hs1, hs2, hs3, he]
  · intro v1 v2 v3 v4 n1 n2 n3 n4 e hp1 hl1 hp2 hl2 hp3 hl3 hp4 hl4 he
    have hs1 : sliceFrom record (7 + n1) = some (record.drop (7 + n1)) :=
      sliceFrom_of_le record _ hl1
    have hs2 : sliceFrom record (7 + n1 + n2) = some (record.drop (7 + n1 + n2)) :=
      sliceFrom_of_le record _ hl2
    have hs3 : sliceFrom record (7 + n1 + n2 + n3) = some (record.drop (7 + n1 + n2 + n3)) :=
      sliceFrom_of_le record _ hl3
    have hs4 : sliceFrom record (7 + n1 + n2 + n3 + n4) = some (record.drop (7 + n1 + n2 + n3 + n4)) :=
      sliceFrom_of_le record _ hl4
    simp only [AccountDebitedDrawdown.Parse, if_neg h9', hs0, hs6, hs7, hp1, hp2, hp3, hp4, hs1, hs2, hs3, hs4, he]

/-- Witness of C18, under the codec of the specification: the record of the tag,
the code "D" and an undelimited "ab" fails on Identifier; the record of the
tag, the code "D", "id*", "nm*", "a1*", "a2*" and an undelimited "zz" fails on
AddressLineThree, after the four fields before it were assigned. -/
theorem C18_field_failure_is_attributed_witness :
    (9 ≤ RuneCountInString (TagAccountDebitedDrawdown ++ ascii "Dab") ∧
      specConverters.parseVariableStringField ((TagAccountDebitedDrawdown ++ ascii "Dab").drop 7) 34
        = .error (NewTagMinLengthErr 34 2) ∧
      NewAccountDebitedDrawdown.Parse specConverters (TagAccountDebitedDrawdown ++ ascii "Dab")
        = some (⟨TagAccountDebitedDrawdown, ascii "D", [], [], ⟨[], [], []⟩⟩,
            some (fieldError "Identifier" (NewTagMinLengthErr 34 2) none))) ∧
    (9 ≤ RuneCountInString (TagAccountDebitedDrawdown ++ ascii "Did*nm*a1*a2*zz") ∧
      NewAccountDebitedDrawdown.Parse specConverters
          (TagAccountDebitedDrawdown ++ ascii "Did*nm*a1*a2*zz")
        = some (⟨TagAccountDebitedDrawdown, ascii "D", ascii "id", ascii "nm",
              ⟨ascii "a1", ascii "a2", []⟩⟩,
            some (fieldError "AddressLineThree" (NewTagMinLengthErr 35 2) none))) :=
  ⟨⟨by decide, by rfl,
    (C18_field_failure_is_attributed specConverters NewAccountDebitedDrawdown
      (TagAccountDebitedDrawdown ++ ascii "Dab") (by decide)).1 _ (by rfl)⟩,
   ⟨by decide,
    (C18_field_failure_is_attributed specConverters NewAccountDebitedDrawdown
      (TagAccountDebitedDrawdown ++ ascii "Did*nm*a1*a2*zz") (by decide)).2.2.2.2
      (ascii "id") (ascii "nm") (ascii "a1") (ascii "a2") 3 3 3 3 (NewTagMinLengthErr 35 2)
      (by rfl) (by decide) (by rfl) (by decide) (by rfl) (by decide) (by rfl) (by decide)
      (by rfl)⟩⟩
/-- C20: under the field codec of the specification, for every 6-character
tag and 9-character account number of single-byte characters followed by at
least one further byte (in particular a non-blank, non-delimiter character),
AccountCreditedDrawdown.Parse assigns the tag and the account number and
returns the max-length error built by NewTagMaxLengthErr; for every codec,
Parse returns nil only when verifyDataWithReadLength accepts the record
against the 6 characters of the tag plus the count the field codec consumed;
under the codec of the specification, which counts what it consumes in bytes
as Parse does, that is only when the record has exactly 15 bytes, which are 15
characters when the record is of single-byte characters. -/
theorem C20_over_length_rejected :
    (∀ (r : AccountCreditedDrawdown) (tag acct extra : GoString),
      tag.length = 6 → IsAscii tag → acct.length = 9 → IsAscii acct → extra ≠ [] →
      ∃ e, r.Parse specConverters (tag ++ acct ++ extra)
        = some (⟨tag, TrimSpace acct⟩, some (NewTagMaxLengthErr e))) ∧
    (∀ (c : Converters) (r s : AccountCreditedDrawdown) (record : GoString),
      r.Parse c record = some (s, none) →
      ∃ value read, c.parseFixedStringField (record.drop 6) 9 = .ok (value, read) ∧
        c.verifyDataWithReadLength record (6 + read) = none) ∧
    (∀ (r s : AccountCreditedDrawdown) (record : GoString),
      r.Parse specConverters record = some (s, none) →
        record.length = 15 ∧ (IsAscii record → RuneCountInString record = 15)) := by
  have hinv : ∀ (c : Converters) (r s : AccountCreditedDrawdown) (record : GoString),
      r.Parse c record = some (s, none) →
      ∃ value read, c.parseFixedStringField (record.drop 6) 9 = .ok (value, read) ∧
        c.verifyDataWithReadLength record (6 + read) = none := by
    intro c r s record h
    unfold AccountCreditedDrawdown.Parse at h
    split at h
    · simp at h
    · cases hs0 : slice record 0 6 with
      | none => rw [hs0] at h; simp at h
      | some tag =>
        cases hs1 : sliceFrom record 6 with
        | none => rw [hs0] at h; simp only [hs1] at h; simp at h
        | some rest =>
          have hrest : rest = record.drop 6 := by
            unfold sliceFrom at hs1
            split at hs1
            · exact (Option.some.inj hs1).symm
            · simp at hs1
          cases hp : c.parseFixedStringField rest 9 with
          | error e => rw [hs0] at h; simp only [hs1, hp] at h; simp at h
          | ok vr =>
            obtain ⟨value, read⟩ := vr
            cases hv : c.verifyDataWithReadLength record (6 + read) with
            | some e => rw [hs0] at h; simp only [hs1, hp, hv] at h; simp at h
            | none => exact ⟨value, read, hrest ▸ hp, hv⟩
  refine ⟨?_, hinv, ?_⟩
  · intro r tag acct extra htag htagA hacct hacctA hextra
    have hrec : tag ++ acct ++ extra = tag ++ (acct ++ extra) := List.append_assoc _ _ _
    have hrc : RuneCountInString (tag ++ acct ++ extra) = 15 + RuneCountInString extra := by
      rw [RuneCountInString_ascii_append _ _ (IsAscii_append _ _ htagA hacctA),
        List.length_append, htag, hacct]
    have hpos := RuneCountInString_pos extra hextra
    have h7 : ¬ RuneCountInString (tag ++ acct ++ extra) < 7 := by rw [hrc]; omega
    have hs0 : slice (tag ++ acct ++ extra) 0 6 = some tag := by
      rw [hrec, ← htag]; exact slice_zero_append _ _
    have hs1 : sliceFrom (tag ++ acct ++ extra) 6 = some (acct ++ extra) := by
      rw [hrec, ← htag]; exact sliceFrom_append _ _
    have hp1 : specConverters.parseFixedStringField (acct ++ extra) 9
        = .ok (TrimSpace acct, 9) := by
      rw [specConverters_parseFixedStringField, specParseFixedStringField,
        if_neg (by rw [List.length_append]; omega)]
      have : (acct ++ extra).take 9 = acct := by
        rw [← hacct]; exact List.take_left _ _
      rw [this]
    have hver : specConverters.verifyDataWithReadLength (tag ++ acct ++ extra) (6 + 9)
        = some (GoError.errorString "record length differs from the length read") := by
      rw [specConverters_verifyDataWithReadLength, specVerifyDataWithReadLength,
        if_neg (by
          have := List.length_pos.mpr hextra
          simp only [List.length_append, htag, hacct]; omega)]
    exact ⟨GoError.errorString "record length differs from the length read",
      by simp only [AccountCreditedDrawdown.Parse, if_neg h7, hs0, hs1, hp1, hver]⟩
  · intro r s record h
    obtain ⟨value, read, hp, hv⟩ := hinv specConverters r s record h
    rw [specConverters_parseFixedStringField, specParseFixedStringField] at hp
    rw [specConverters_verifyDataWithReadLength, specVerifyDataWithReadLength] at hv
    split at hp
    · simp at hp
    · have hread : read = 9 := by
        injection hp with hp
        exact (congrArg Prod.snd hp).symm
      split at hv
      · have hlen : record.length = 15 := by omega
        exact ⟨hlen, fun hA => by rw [RuneCountInString_ascii _ hA, hlen]⟩
      · simp at hv

/-- Witness of C20: the record of the tag, nine digits and a trailing "X" is
rejected with the max-length error; the record of the tag and nine digits is
accepted, and it has 15 characters. -/
theorem C20_over_length_rejected_witness :
    (∃ e, NewAccountCreditedDrawdown.Parse specConverters
        (TagAccountCreditedDrawdown ++ ascii "123456789" ++ ascii "X")
      = some (⟨TagAccountCreditedDrawdown, TrimSpace (ascii "123456789")⟩,
          some (NewTagMaxLengthErr e))) ∧
    (NewAccountCreditedDrawdown.Parse specConverters
        (TagAccountCreditedDrawdown ++ ascii "123456789")
      = some (⟨TagAccountCreditedDrawdown, ascii "123456789"⟩, none) ∧
      RuneCountInString (TagAccountCreditedDrawdown ++ ascii "123456789") = 15) :=
  ⟨C20_over_length_rejected.1 NewAccountCreditedDrawdown TagAccountCreditedDrawdown
    (ascii "123456789") (ascii "X") (by decide) (by decide) (by decide) (by decide) (by decide),
   by decide,
   (C20_over_length_rejected.2.2 NewAccountCreditedDrawdown
    ⟨TagAccountCreditedDrawdown, ascii "123456789"⟩
    (TagAccountCreditedDrawdown ++ ascii "123456789") (by decide)).2 (by decide)⟩

/-! ## JSON decoding and the tag -/

/-- C21: for each of the five segment kinds, whatever the JSON decoder does to
the receiver, whatever the receiver was before (a corrupted tag included) and
whatever the input is, if UnmarshalJSON returns nil then the tag of the
receiver afterwards is the constant tag of the kind. -/
theorem C21_unmarshal_stamps_tag (data : GoString) :
    (∀ (j : JSONUnmarshal AccountCreditedDrawdown) (r s : AccountCreditedDrawdown),
      r.UnmarshalJSON j data = (s, none) → s.tag = TagAccountCreditedDrawdown) ∧
    (∀ (j : JSONUnmarshal AccountDebitedDrawdown) (r s : AccountDebitedDrawdown),
      r.UnmarshalJSON j data = (s, none) → s.tag = TagAccountDebitedDrawdown) ∧
    (∀ (j : JSONUnmarshal AmountNegotiatedDiscount) (r s : AmountNegotiatedDiscount),
      r.UnmarshalJSON j data = (s, none) → s.tag = TagAmountNegotiatedDiscount) ∧
    (∀ (j : JSONUnmarshal CurrencyInstructedAmount) (r s : CurrencyInstructedAmount),
      r.UnmarshalJSON j data = (s, none) → s.tag = TagCurrencyInstructedAmount) ∧
    (∀ (j : JSONUnmarshal FIBeneficiaryFIAdvice) (r s : FIBeneficiaryFIAdvice),
      r.UnmarshalJSON j data = (s, none) → s.tag = TagFIBeneficiaryFIAdvice) := by
  refine ⟨?_, ?_, ?_, ?_, ?_⟩
  · intro j r s h
    unfold AccountCreditedDrawdown.UnmarshalJSON at h
    split at h
    · simp at h
    · simp only [Prod.mk.injEq, and_true] at h
      rw [← h]
  · intro j r s h
    unfold AccountDebitedDrawdown.UnmarshalJSON at h
    split at h
    · simp at h
    · simp only [Prod.mk.injEq, and_true] at h
      rw [← h]
  · intro j r s h
    unfold AmountNegotiatedDiscount.UnmarshalJSON at h
    split at h
    · simp at h
    · simp only [Prod.mk.injEq, and_true] at h
      rw [← h]
  · intro j r s h
    unfold CurrencyInstructedAmount.UnmarshalJSON at h
    split at h
    · simp at h
    · simp only [Prod.mk.injEq, and_true] at h
      rw [← h]
  · intro j r s h
    unfold FIBeneficiaryFIAdvice.UnmarshalJSON at h
    split at h
    · simp at h
    · simp only [Prod.mk.injEq, and_true] at h
      rw [← h]

/-- Witness of C21: a receiver with the corrupted tag "XXXXXX" and a decoder
that overwrites the tag and the account number with the input "123456789";
UnmarshalJSON returns nil and the tag is the constant tag again. -/
theorem C21_unmarshal_stamps_tag_witness :
    AccountCreditedDrawdown.UnmarshalJSON overwritingUnmarshal
        ⟨ascii "XXXXXX", []⟩ (ascii "123456789")
      = (⟨TagAccountCreditedDrawdown, ascii "123456789"⟩, none) ∧
    (⟨TagAccountCreditedDrawdown, ascii "123456789"⟩ : AccountCreditedDrawdown).tag
      = TagAccountCreditedDrawdown :=
  ⟨by decide,
   (C21_unmarshal_stamps_tag (ascii "123456789")).1 overwritingUnmarshal
     ⟨ascii "XXXXXX", []⟩ ⟨TagAccountCreditedDrawdown, ascii "123456789"⟩ (by decide)⟩

/-! ## The fixed code position -/

/-- C22, the code at the failing input: the record of the tag, a space in the
identification-code position, and "id*nm*".  Under the field codec of the
specification Parse accepts it and the parsed IdentificationCode is the space
itself, not the empty string; fieldInclusion accepts the parsed segment, and
for all validators Validate returns a field error for IdentificationCode that
carries the space (so never the ErrFieldRequired error of fieldInclusion,
which carries no value).  The sibling FIBeneficiaryFIAdvice.Parse passes its
fixed code position through parseStringField: three spaces parse to the empty
AdviceCode. -/
theorem C22_blank_code_is_kept :
    NewAccountDebitedDrawdown.Parse specConverters (TagAccountDebitedDrawdown ++ ascii " id*nm*")
      = some (⟨TagAccountDebitedDrawdown, [32], ascii "id", ascii "nm", ⟨[], [], []⟩⟩, none) ∧
    AccountDebitedDrawdown.fieldInclusion
      ⟨TagAccountDebitedDrawdown, [32], ascii "id", ascii "nm", ⟨[], [], []⟩⟩ = none ∧
    (∀ v : Validators, ∃ e,
      AccountDebitedDrawdown.Validate v
          ⟨TagAccountDebitedDrawdown, [32], ascii "id", ascii "nm", ⟨[], [], []⟩⟩
        = some (fieldError "IdentificationCode" e (some [32]))) ∧
    (∀ v : Validators,
      AccountDebitedDrawdown.Validate v
          ⟨TagAccountDebitedDrawdown, [32], ascii "id", ascii "nm", ⟨[], [], []⟩⟩
        ≠ some (fieldError "IdentificationCode" GoError.ErrFieldRequired none)) ∧
    NewFIBeneficiaryFIAdvice.Parse specConverters (TagFIBeneficiaryFIAdvice ++ ascii "   l1*")
      = some (⟨TagFIBeneficiaryFIAdvice, ⟨[], ascii "l1", [], [], [], [], []⟩⟩, none) := by
  have hv : ∀ v : Validators, ∃ e,
      AccountDebitedDrawdown.Validate v
          ⟨TagAccountDebitedDrawdown, [32], ascii "id", ascii "nm", ⟨[], [], []⟩⟩
        = some (fieldError "IdentificationCode" e (some [32])) := by
    intro v
    cases hi : v.isIdentificationCode [32] with
    | some e =>
      exact ⟨e, by simp [AccountDebitedDrawdown.Validate, AccountDebitedDrawdown.fieldInclusion,
        ascii, hi]⟩
    | none =>
      exact ⟨GoError.ErrIdentificationCode,
        by simp [AccountDebitedDrawdown.Validate, AccountDebitedDrawdown.fieldInclusion,
          ascii, hi, DemandDepositAccountNumber]⟩
  refine ⟨by decide, by decide, hv, ?_, by decide⟩
  intro v h
  obtain ⟨e, he⟩ := hv v
  rw [he] at h
  simp [fieldError] at h

/-! ## Slices stay in range -/

theorem specParseFixedStringField_read_le (input : GoString) (n : Nat) (v : GoString) (k : Nat)
    (h : specParseFixedStringField input n = .ok (v, k)) : k ≤ input.length := by
  unfold specParseFixedStringField at h
  split at h
  · cases h
  · injection h with h
    have hk : n = k := congrArg Prod.snd h
    omega

theorem specParseVariableStringField_read_le (input : GoString) (maxN : Nat) (v : GoString)
    (k : Nat) (h : specParseVariableStringField input maxN = .ok (v, k)) : k ≤ input.length := by
  unfold specParseVariableStringField at h
  split at h
  · injection h with h
    have hk : 0 = k := congrArg Prod.snd h
    omega
  · dsimp only at h
    split at h
    · rename_i hlt
      injection h with h
      have hk : (List.takeWhile (fun b => b != 42) (List.take (maxN + 1) input)).length
          + 1 = k := congrArg Prod.snd h
      have hw : (List.take (maxN + 1) input).length ≤ input.length :=
        by rw [List.length_take]; omega
      omega
    · split at h
      · injection h with h
        have hk : maxN = k := congrArg Prod.snd h
        omega
      · cases h

theorem read_step (record : GoString) (len n : Nat) (hlen : len ≤ record.length)
    (hn : n ≤ (record.drop len).length) : len + n ≤ record.length := by
  rw [List.length_drop] at hn
  omega

theorem AccountCreditedDrawdown_Parse_isSome (c : Converters)
    (hfix : ∀ input n v k, c.parseFixedStringField input n = .ok (v, k) → k ≤ input.length)
    (r : AccountCreditedDrawdown) (record : GoString) : (r.Parse c record).isSome = true := by
  by_cases hpre : RuneCountInString record < 7
  · simp only [AccountCreditedDrawdown.Parse, if_pos hpre, Option.isSome_some]
  · have hlen := RuneCountInString_le_length record
    have hs0 : slice record 0 6 = some ((record.take 6).drop 0) :=
      slice_of_le record 0 6 (by omega) (by omega)
    have hl0 : 6 ≤ record.length := by omega
    have hr0 : sliceFrom record 6 = some (record.drop 6) := sliceFrom_of_le record 6 hl0
    cases hp1 : c.parseFixedStringField (record.drop (6)) 9 with
    | error e =>
      simp only [AccountCreditedDrawdown.Parse, if_neg hpre, hs0, hr0, hp1, Option.isSome_some]
    | ok p1 =>
      obtain ⟨v1, n1⟩ := p1
      have hl1 : 6 + n1 ≤ record.length :=
        read_step record (6) n1 hl0 (hfix _ _ _ _ hp1)
      have hr1 : sliceFrom record (6 + n1) = some (record.drop (6 + n1)) :=
        sliceFrom_of_le record _ hl1
      cases hver : c.verifyDataWithReadLength record (6 + n1) with
      | some e =>
        simp only [AccountCreditedDrawdown.Parse, if_neg hpre, hs0, hr0, hp1, hr1, hver, Option.isSome_some]
      | none =>
        simp only [AccountCreditedDrawdown.Parse, if_neg hpre, hs0, hr0, hp1, hr1, hver, Option.isSome_some]

theorem AccountDebitedDrawdown_Parse_isSome (c : Converters)
    (hvar : ∀ input n v k, c.parseVariableStringField input n = .ok (v, k) → k ≤ input.length)
    (r : AccountDebitedDrawdown) (record : GoString) : (r.Parse c record).isSome = true := by
  by_cases hpre : RuneCountInString record < 9
  · simp only [AccountDebitedDrawdown.Parse, if_pos hpre, Option.isSome_some]
  · have hlen := RuneCountInString_le_length record
    have hs0 : slice record 0 6 = some ((record.take 6).drop 0) :=
      slice_of_le record 0 6 (by omega) (by omega)
    have hsc : slice record 6 7 = some ((record.take 7).drop 6) :=
      slice_of_le record 6 7 (by omega) (by omega)
    have hl0 : 7 ≤ record.length := by omega
    have hr0 : sliceFrom record 7 = some (record.drop 7) := sliceFrom_of_le record 7 hl0
    cases hp1 : c.parseVariableStringField (record.drop (7)) 34 with
    | error e =>
      simp only [AccountDebitedDrawdown.Parse, if_neg hpre, hs0, hsc, hr0, hp1, Option.isSome_some]
    | ok p1 =>
      obtain ⟨v1, n1⟩ := p1
      have hl1 : 7 + n1 ≤ record.length :=
        read_step record (7) n1 hl0 (hvar _ _ _ _ hp1)
      have hr1 : sliceFrom record (7 + n1) = some (record.drop (7 + n1)) :=
        sliceFrom_of_le record _ hl1
      cases hp2 : c.parseVariableStringField (record.drop (7 + n1)) 35 with
      | error e =>
        simp only [AccountDebitedDrawdown.Parse, if_neg hpre, hs0, hsc, hr0, hp1, hr1, hp2, Option.isSome_some]
      | ok p2 =>
        obtain ⟨v2, n2⟩ := p2
        have hl2 : 7 + n1 + n2 ≤ record.length :=
          read_step record (7 + n1) n2 hl1 (hvar _ _ _ _ hp2)
        have hr2 : sliceFrom record (7 + n1 + n2) = some (record.drop (7 + n1 + n2)) :=
          sliceFrom_of_le record _ hl2
        cases hp3 : c.parseVariableStringField (record.drop (7 + n1 + n2)) 35 with
        | error e =>
          simp only [AccountDebitedDrawdown.Parse, if_neg hpre, hs0, hsc, hr0, hp1, hr1, hp2, hr2, hp3, Option.isSome_some]
        | ok p3 =>
          obtain ⟨v3, n3⟩ := p3
          have hl3 : 7 + n1 + n2 + n3 ≤ record.length :=
            read_step record (7 + n1 + n2) n3 hl2 (hvar _ _ _ _ hp3)
          have hr3 : sliceFrom record (7 + n1 + n2 + n3) = some (record.drop (7 + n1 + n2 + n3)) :=
            sliceFrom_of_le record _ hl3
          cases hp4 : c.parseVariableStringField (record.drop (7 + n1 + n2 + n3)) 35 with
          | error e =>
            simp only [AccountDebitedDrawdown.Parse, if_neg hpre, hs0, hsc, hr0, hp1, hr1, hp2, hr2, hp3, hr3, hp4, Option.isSome_some]
          | ok p4 =>
            obtain ⟨v4, n4⟩ := p4
            have hl4 : 7 + n1 + n2 + n3 + n4 ≤ record.length :=
              read_step record (7 + n1 + n2 + n3) n4 hl3 (hvar _ _ _ _ hp4)
            have hr4 : sliceFrom record (7 + n1 + n2 + n3 + n4) = some (record.drop (7 + n1 + n2 + n3 + n4)) :=
              sliceFrom_of_le record _ hl4
            cases hp5 : c.parseVariableStringField (record.drop (7 + n1 + n2 + n3 + n4)) 35 with
            | error e =>
              simp only [AccountDebitedDrawdown.Parse, if_neg hpre, hs0, hsc, hr0, hp1, hr1, hp2, hr2, hp3, hr3, hp4, hr4, hp5, Option.isSome_some]
            | ok p5 =>
              obtain ⟨v5, n5⟩ := p5
              have hl5 : 7 + n1 + n2 + n3 + n4 + n5 ≤ record.length :=
                read_step record (7 + n1 + n2 + n3 + n4) n5 hl4 (hvar _ _ _ _ hp5)
              have hr5 : sliceFrom record (7 + n1 + n2 + n3 + n4 + n5) = some (record.drop (7 + n1 + n2 + n3 + n4 + n5)) :=
                sliceFrom_of_le record _ hl5
              cases hver : c.verifyDataWithReadLength record (7 + n1 + n2 + n3 + n4 + n5) with
              | some e =>
                simp only [AccountDebitedDrawdown.Parse, if_neg hpre, hs0, hsc, hr0, hp1, hr1, hp2, hr2, hp3, hr3, hp4, hr4, hp5, hr5, hver, Option.isSome_some]
              | none =>
                simp only [AccountDebitedDrawdown.Parse, if_neg hpre, hs0, hsc, hr0, hp1, hr1, hp2, hr2, hp3, hr3, hp4, hr4, hp5, hr5, hver, Option.isSome_some]

theorem AmountNegotiatedDiscount_Parse_isSome (c : Converters)
    (hfix : ∀ input n v k, c.parseFixedStringField input n = .ok (v, k) → k ≤ input.length)
    (hvar : ∀ input n v k, c.parseVariableStringField input n = .ok (v, k) → k ≤ input.length)
    (r : AmountNegotiatedDiscount) (record : GoString) : (r.Parse c record).isSome = true := by
  by_cases hpre : RuneCountInString record < 8
  · simp only [AmountNegotiatedDiscount.Parse, if_pos hpre, Option.isSome_some]
  · have hlen := RuneCountInString_le_length record
    have hs0 : slice record 0 6 = some ((record.take 6).drop 0) :=
      slice_of_le record 0 6 (by omega) (by omega)
    have hl0 : 6 ≤ record.length := by omega
    have hr0 : sliceFrom record 6 = some (record.drop 6) := sliceFrom_of_le record 6 hl0
    cases hp1 : c.parseFixedStringField (record.drop (6)) 3 with
    | error e =>
      simp only [AmountNegotiatedDiscount.Parse, if_neg hpre, hs0, hr0, hp1, Option.isSome_some]
    | ok p1 =>
      obtain ⟨v1, n1⟩ := p1
      have hl1 : 6 + n1 ≤ record.length :=
        read_step record (6) n1 hl0 (hfix _ _ _ _ hp1)
      have hr1 : sliceFrom record (6 + n1) = some (record.drop (6 + n1)) :=
        sliceFrom_of_le record _ hl1
      cases hp2 : c.parseVariableStringField (record.drop (6 + n1)) 19 with
      | error e =>
        simp only [AmountNegotiatedDiscount.Parse, if_neg hpre, hs0, hr0, hp1, hr1, hp2, Option.isSome_some]
      | ok p2 =>
        obtain ⟨v2, n2⟩ := p2
        have hl2 : 6 + n1 + n2 ≤ record.length :=
          read_step record (6 + n1) n2 hl1 (hvar _ _ _ _ hp2)
        have hr2 : sliceFrom record (6 + n1 + n2) = some (record.drop (6 + n1 + n2)) :=
          sliceFrom_of_le record _ hl2
        cases hver : c.verifyDataWithReadLength record (6 + n1 + n2) with
        | some e =>
          simp only [AmountNegotiatedDiscount.Parse, if_neg hpre, hs0, hr0, hp1, hr1, hp2, hr2, hver, Option.isSome_some]
        | none =>
          simp only [AmountNegotiatedDiscount.Parse, if_neg hpre, hs0, hr0, hp1, hr1, hp2, hr2, hver, Option.isSome_some]

theorem CurrencyInstructedAmount_Parse_isSome (c : Converters)
    (hvar : ∀ input n v k, c.parseVariableStringField input n = .ok (v, k) → k ≤ input.length)
    (r : CurrencyInstructedAmount) (record : GoString) : (r.Parse c record).isSome = true := by
  by_cases hpre : RuneCountInString record < 25
  · simp only [CurrencyInstructedAmount.Parse, if_pos hpre, Option.isSome_some]
  · have hlen := RuneCountInString_le_length record
    have hs0 : slice record 0 6 = some ((record.take 6).drop 0) :=
      slice_of_le record 0 6 (by omega) (by omega)
    have hl0 : 6 ≤ record.length := by omega
    have hr0 : sliceFrom record 6 = some (record.drop 6) := sliceFrom_of_le record 6 hl0
    cases hp1 : c.parseVariableStringField (record.drop (6)) 5 with
    | error e =>
      simp only [CurrencyInstructedAmount.Parse, if_neg hpre, hs0, hr0, hp1, Option.isSome_some]
    | ok p1 =>
      obtain ⟨v1, n1⟩ := p1
      have hl1 : 6 + n1 ≤ record.length :=
        read_step record (6) n1 hl0 (hvar _ _ _ _ hp1)
      have hr1 : sliceFrom record (6 + n1) = some (record.drop (6 + n1)) :=
        sliceFrom_of_le record _ hl1
      cases hp2 : c.parseVariableStringField (record.drop (6 + n1)) 18 with
      | error e =>
        simp only [CurrencyInstructedAmount.Parse, if_neg hpre, hs0, hr0, hp1, hr1, hp2, Option.isSome_some]
      | ok p2 =>
        obtain ⟨v2, n2⟩ := p2
        have hl2 : 6 + n1 + n2 ≤ record.length :=
          read_step record (6 + n1) n2 hl1 (hvar _ _ _ _ hp2)
        have hr2 : sliceFrom record (6 + n1 + n2) = some (record.drop (6 + n1 + n2)) :=
          sliceFrom_of_le record _ hl2
        cases hver : c.verifyDataWithReadLength record (6 + n1 + n2) with
        | some e =>
          simp only [CurrencyInstructedAmount.Parse, if_neg hpre, hs0, hr0, hp1, hr1, hp2, hr2, hver, Option.isSome_some]
        | none =>
          simp only [CurrencyInstructedAmount.Parse, if_neg hpre, hs0, hr0, hp1, hr1, hp2, hr2, hver, Option.isSome_some]

theorem FIBeneficiaryFIAdvice_Parse_isSome (c : Converters)
    (hvar : ∀ input n v k, c.parseVariableStringField input n = .ok (v, k) → k ≤ input.length)
    (r : FIBeneficiaryFIAdvice) (record : GoString) : (r.Parse c record).isSome = true := by
  by_cases hpre : RuneCountInString record < 9
  · simp only [FIBeneficiaryFIAdvice.Parse, if_pos hpre, Option.isSome_some]
  · have hlen := RuneCountInString_le_length record
    have hs0 : slice record 0 6 = some ((record.take 6).drop 0) :=
      slice_of_le record 0 6 (by omega) (by omega)
    have hsc : slice record 6 9 = some ((record.take 9).drop 6) :=
      slice_of_le record 6 9 (by omega) (by omega)
    have hl0 : 9 ≤ record.length := by omega
    have hr0 : sliceFrom record 9 = some (record.drop 9) := sliceFrom_of_le record 9 hl0
    cases hp1 : c.parseVariableStringField (record.drop (9)) 26 with
    | error e =>
      simp only [FIBeneficiaryFIAdvice.Parse, if_neg hpre, hs0, hsc, hr0, hp1, Option.isSome_some]
    | ok p1 =>
      obtain ⟨v1, n1⟩ := p1
      have hl1 : 9 + n1 ≤ record.length :=
        read_step record (9) n1 hl0 (hvar _ _ _ _ hp1)
      have hr1 : sliceFrom record (9 + n1) = some (record.drop (9 + n1)) :=
        sliceFrom_of_le record _ hl1
      cases hp2 : c.parseVariableStringField (record.drop (9 + n1)) 33 with
      | error e =>
        simp only [FIBeneficiaryFIAdvice.Parse, if_neg hpre, hs0, hsc, hr0, hp1, hr1, hp2, Option.isSome_some]
      | ok p2 =>
        obtain ⟨v2, n2⟩ := p2
        have hl2 : 9 + n1 + n2 ≤ record.length :=
          read_step record (9 + n1) n2 hl1 (hvar _ _ _ _ hp2)
        have hr2 : sliceFrom record (9 + n1 + n2) = some (record.drop (9 + n1 + n2)) :=
          sliceFrom_of_le record _ hl2
        cases hp3 : c.parseVariableStringField (record.drop (9 + n1 + n2)) 33 with
        | error e =>
          simp only [FIBeneficiaryFIAdvice.Parse, if_neg hpre, hs0, hsc, hr0, hp1, hr1, hp2, hr2, hp3, Option.isSome_some]
        | ok p3 =>
          obtain ⟨v3, n3⟩ := p3
          have hl3 : 9 + n1 + n2 + n3 ≤ record.length :=
            read_step record (9 + n1 + n2) n3 hl2 (hvar _ _ _ _ hp3)
          have hr3 : sliceFrom record (9 + n1 + n2 + n3) = some (record.drop (9 + n1 + n2 + n3)) :=
            sliceFrom_of_le record _ hl3
          cases hp4 : c.parseVariableStringField (record.drop (9 + n1 + n2 + n3)) 33 with
          | error e =>
            simp only [FIBeneficiaryFIAdvice.Parse, if_neg hpre, hs0, hsc, hr0, hp1, hr1, hp2, hr2, hp3, hr3, hp4, Option.isSome_some]
          | ok p4 =>
            obtain ⟨v4, n4⟩ := p4
            have hl4 : 9 + n1 + n2 + n3 + n4 ≤ record.length :=
              read_step record (9 + n1 + n2 + n3) n4 hl3 (hvar _ _ _ _ hp4)
            have hr4 : sliceFrom record (9 + n1 + n2 + n3 + n4) = some (record.drop (9 + n1 + n2 + n3 + n4)) :=
              sliceFrom_of_le record _ hl4
            cases hp5 : c.parseVariableStringField (record.drop (9 + n1 + n2 + n3 + n4)) 33 with
            | error e =>
              simp only [FIBeneficiaryFIAdvice.Parse, if_neg hpre, hs0, hsc, hr0, hp1, hr1, hp2, hr2, hp3, hr3, hp4, hr4, hp5, Option.isSome_some]
            | ok p5 =>
              obtain ⟨v5, n5⟩ := p5
              have hl5 : 9 + n1 + n2 + n3 + n4 + n5 ≤ record.length :=
                read_step record (9 + n1 + n2 + n3 + n4) n5 hl4 (hvar _ _ _ _ hp5)
              have hr5 : sliceFrom record (9 + n1 + n2 + n3 + n4 + n5) = some (record.drop (9 + n1 + n2 + n3 + n4 + n5)) :=
                sliceFrom_of_le record _ hl5
              cases hp6 : c.parseVariableStringField (record.drop (9 + n1 + n2 + n3 + n4 + n5)) 33 with
              | error e =>
                simp only [FIBeneficiaryFIAdvice.Parse, if_neg hpre, hs0, hsc, hr0, hp1, hr1, hp2, hr2, hp3, hr3, hp4, hr4, hp5, hr5, hp6, Option.isSome_some]
              | ok p6 =>
                obtain ⟨v6, n6⟩ := p6
                have hl6 : 9 + n1 + n2 + n3 + n4 + n5 + n6 ≤ record.length :=
                  read_step record (9 + n1 + n2 + n3 + n4 + n5) n6 hl5 (hvar _ _ _ _ hp6)
                have hr6 : sliceFrom record (9 + n1 + n2 + n3 + n4 + n5 + n6) = some (record.drop (9 + n1 + n2 + n3 + n4 + n5 + n6)) :=
                  sliceFrom_of_le record _ hl6
                cases hver : c.verifyDataWithReadLength record (9 + n1 + n2 + n3 + n4 + n5 + n6) with
                | some e =>
                  simp only [FIBeneficiaryFIAdvice.Parse, if_neg hpre, hs0, hsc, hr0, hp1, hr1, hp2, hr2, hp3, hr3, hp4, hr4, hp5, hr5, hp6, hr6, hver, Option.isSome_some]
                | none =>
                  simp only [FIBeneficiaryFIAdvice.Parse, if_neg hpre, hs0, hsc, hr0, hp1, hr1, hp2, hr2, hp3, hr3, hp4, hr4, hp5, hr5, hp6, hr6, hver, Option.isSome_some]

/-- C23: under the field codec of the specification, for every receiver and
every input string whatsoever (any bytes: multi-byte characters, invalid
UTF-8, strings shorter than the tag), Parse of each of the five segment kinds
returns a segment together with nil or an error.  A slice expression evaluated
out of range is the result `none` of the embedding, so none of record[:6],
record[6:7], record[6:9] and record[length:] is ever out of range. -/
theorem C23_parse_returns :
    (∀ (r : AccountCreditedDrawdown) (record : GoString),
      ∃ s e, r.Parse specConverters record = some (s, e)) ∧
    (∀ (r : AccountDebitedDrawdown) (record : GoString),
      ∃ s e, r.Parse specConverters record = some (s, e)) ∧
    (∀ (r : AmountNegotiatedDiscount) (record : GoString),
      ∃ s e, r.Parse specConverters record = some (s, e)) ∧
    (∀ (r : CurrencyInstructedAmount) (record : GoString),
      ∃ s e, r.Parse specConverters record = some (s, e)) ∧
    (∀ (r : FIBeneficiaryFIAdvice) (record : GoString),
      ∃ s e, r.Parse specConverters record = some (s, e)) := by
  refine ⟨?_, ?_, ?_, ?_, ?_⟩
  · intro r record
    obtain ⟨⟨s, e⟩, hs⟩ := Option.isSome_iff_exists.mp
      (AccountCreditedDrawdown_Parse_isSome specConverters specParseFixedStringField_read_le r record)
    exact ⟨s, e, hs⟩
  · intro r record
    obtain ⟨⟨s, e⟩, hs⟩ := Option.isSome_iff_exists.mp
      (AccountDebitedDrawdown_Parse_isSome specConverters specParseVariableStringField_read_le r record)
    exact ⟨s, e, hs⟩
  · intro r record
    obtain ⟨⟨s, e⟩, hs⟩ := Option.isSome_iff_exists.mp
      (AmountNegotiatedDiscount_Parse_isSome specConverters specParseFixedStringField_read_le specParseVariableStringField_read_le r record)
    exact ⟨s, e, hs⟩
  · intro r record
    obtain ⟨⟨s, e⟩, hs⟩ := Option.isSome_iff_exists.mp
      (CurrencyInstructedAmount_Parse_isSome specConverters specParseVariableStringField_read_le r record)
    exact ⟨s, e, hs⟩
  · intro r record
    obtain ⟨⟨s, e⟩, hs⟩ := Option.isSome_iff_exists.mp
      (FIBeneficiaryFIAdvice_Parse_isSome specConverters specParseVariableStringField_read_le r record)
    exact ⟨s, e, hs⟩

/-! ## The precheck -/

/-- Counterexample to C24: the record "é" is one code point of two bytes.
Whatever the field codec is, Parse of AccountCreditedDrawdown and of
CurrencyInstructedAmount rejects it in the precheck, and the length found that
the min-length error carries is 2, the number of bytes, not the 1 code point
that the precheck compared with the minimum. -/
theorem C24_counterexample :
    RuneCountInString [195, 169] = 1 ∧
    ∀ c : Converters,
      NewAccountCreditedDrawdown.Parse c [195, 169]
        = some (NewAccountCreditedDrawdown, some (GoError.TagMinLengthErr 7 2)) ∧
      NewCurrencyInstructedAmount.Parse c [195, 169]
        = some (NewCurrencyInstructedAmount, some (GoError.TagMinLengthErr 25 2)) := by
  refine ⟨by decide, fun c => ⟨?_, ?_⟩⟩
  · have h : RuneCountInString [195, 169] < 7 := by decide
    simp only [AccountCreditedDrawdown.Parse, if_pos h, NewTagMinLengthErr, List.length_cons,
      List.length_nil]
  · have h : RuneCountInString [195, 169] < 25 := by decide
    simp only [CurrencyInstructedAmount.Parse, if_pos h, NewTagMinLengthErr, List.length_cons,
      List.length_nil]

/-- C24, amended: whenever Parse of one of the five kinds rejects a record in
the minimum-length precheck, the length found that the returned min-length
error carries is len(record), the length of the record in bytes.  It is never
smaller than the number of code points that the precheck compared with the
minimum, and it equals that number when the record has only single-byte
characters. -/
theorem C24_found_length_is_byte_length (c : Converters) (record : GoString) (min found : Nat) :
    (∀ r s : AccountCreditedDrawdown, RuneCountInString record < 7 →
      r.Parse c record = some (s, some (GoError.TagMinLengthErr min found)) →
      found = record.length ∧ RuneCountInString record ≤ found ∧
        (IsAscii record → found = RuneCountInString record)) ∧
    (∀ r s : AccountDebitedDrawdown, RuneCountInString record < 9 →
      r.Parse c record = some (s, some (GoError.TagMinLengthErr min found)) →
      found = record.length ∧ RuneCountInString record ≤ found ∧
        (IsAscii record → found = RuneCountInString record)) ∧
    (∀ r s : AmountNegotiatedDiscount, RuneCountInString record < 8 →
      r.Parse c record = some (s, some (GoError.TagMinLengthErr min found)) →
      found = record.length ∧ RuneCountInString record ≤ found ∧
        (IsAscii record → found = RuneCountInString record)) ∧
    (∀ r s : CurrencyInstructedAmount, RuneCountInString record < 25 →
      r.Parse c record = some (s, some (GoError.TagMinLengthErr min found)) →
      found = record.length ∧ RuneCountInString record ≤ found ∧
        (IsAscii record → found = RuneCountInString record)) ∧
    (∀ r s : FIBeneficiaryFIAdvice, RuneCountInString record < 9 →
      r.Parse c record = some (s, some (GoError.TagMinLengthErr min found)) →
      found = record.length ∧ RuneCountInString record ≤ found ∧
        (IsAscii record → found = RuneCountInString record)) := by
  have key : found = record.length → found = record.length ∧
      RuneCountInString record ≤ found ∧ (IsAscii record → found = RuneCountInString record) := by
    intro h
    subst h
    exact ⟨rfl, RuneCountInString_le_length record,
      fun ha => (RuneCountInString_ascii record ha).symm⟩
  refine ⟨?_, ?_, ?_, ?_, ?_⟩
  · intro r s hlt h
    simp only [AccountCreditedDrawdown.Parse, if_pos hlt, NewTagMinLengthErr, Option.some.injEq,
      Prod.mk.injEq, GoError.TagMinLengthErr.injEq] at h
    exact key h.2.2.symm
  · intro r s hlt h
    simp only [AccountDebitedDrawdown.Parse, if_pos hlt, NewTagMinLengthErr, Option.some.injEq,
      Prod.mk.injEq, GoError.TagMinLengthErr.injEq] at h
    exact key h.2.2.symm
  · intro r s hlt h
    simp only [AmountNegotiatedDiscount.Parse, if_pos hlt, NewTagMinLengthErr, Option.some.injEq,
      Prod.mk.injEq, GoError.TagMinLengthErr.injEq] at h
    exact key h.2.2.symm
  · intro r s hlt h
    simp only [CurrencyInstructedAmount.Parse, if_pos hlt, NewTagMinLengthErr, Option.some.injEq,
      Prod.mk.injEq, GoError.TagMinLengthErr.injEq] at h
    exact key h.2.2.symm
  · intro r s hlt h
    simp only [FIBeneficiaryFIAdvice.Parse, if_pos hlt, NewTagMinLengthErr, Option.some.injEq,
      Prod.mk.injEq, GoError.TagMinLengthErr.injEq] at h
    exact key h.2.2.symm

/-- Witness of C24: the two-character record "ab" and the two-byte record "é"
given to AccountCreditedDrawdown.Parse. -/
theorem C24_found_length_is_byte_length_witness :
    (RuneCountInString (ascii "ab") < 7 ∧
      NewAccountCreditedDrawdown.Parse specConverters (ascii "ab")
        = some (NewAccountCreditedDrawdown, some (GoError.TagMinLengthErr 7 2)) ∧
      2 = (ascii "ab").length ∧ RuneCountInString (ascii "ab") ≤ 2 ∧
        (IsAscii (ascii "ab") → 2 = RuneCountInString (ascii "ab"))) ∧
    (2 = ([195, 169] : GoString).length ∧ RuneCountInString [195, 169] ≤ 2 ∧
        (IsAscii [195, 169] → 2 = RuneCountInString [195, 169])) :=
  ⟨⟨by decide, by decide,
    (C24_found_length_is_byte_length specConverters (ascii "ab") 7 2).1
      NewAccountCreditedDrawdown NewAccountCreditedDrawdown (by decide) (by decide)⟩,
   (C24_found_length_is_byte_length specConverters [195, 169] 7 2).1
      NewAccountCreditedDrawdown NewAccountCreditedDrawdown (by decide) (by decide)⟩

/-- C29: for every field codec, every segment of the five kinds and every
record with fewer code points than the precheck minimum of the kind (7, 9, 8,
25, 9), Parse returns its min-length error, and the tag and every field of the
segment afterwards equal their values before the call. -/
theorem C29_precheck_failure_leaves_segment (c : Converters) (record : GoString) :
    (RuneCountInString record < 7 → ∀ r : AccountCreditedDrawdown, ∃ s,
      r.Parse c record = some (s, some (NewTagMinLengthErr 7 record.length)) ∧
        s.tag = r.tag ∧
        s.DrawdownCreditAccountNumber = r.DrawdownCreditAccountNumber) ∧
    (RuneCountInString record < 9 → ∀ r : AccountDebitedDrawdown, ∃ s,
      r.Parse c record = some (s, some (NewTagMinLengthErr 9 record.length)) ∧
        s.tag = r.tag ∧
        s.IdentificationCode = r.IdentificationCode ∧
        s.Identifier = r.Identifier ∧
        s.Name = r.Name ∧
        s.Address.AddressLineOne = r.Address.AddressLineOne ∧
        s.Address.AddressLineTwo = r.Address.AddressLineTwo ∧
        s.Address.AddressLineThree = r.Address.AddressLineThree) ∧
    (RuneCountInString record < 8 → ∀ r : AmountNegotiatedDiscount, ∃ s,
      r.Parse c record = some (s, some (NewTagMinLengthErr 8 record.length)) ∧
        s.tag = r.tag ∧
        s.RemittanceAmount.CurrencyCode = r.RemittanceAmount.CurrencyCode ∧
        s.RemittanceAmount.Amount = r.RemittanceAmount.Amount) ∧
    (RuneCountInString record < 25 → ∀ r : CurrencyInstructedAmount, ∃ s,
      r.Parse c record = some (s, some (NewTagMinLengthErr 25 record.length)) ∧
        s.tag = r.tag ∧
        s.SwiftFieldTag = r.SwiftFieldTag ∧
        s.Amount = r.Amount) ∧
    (RuneCountInString record < 9 → ∀ r : FIBeneficiaryFIAdvice, ∃ s,
      r.Parse c record = some (s, some (NewTagMinLengthErr 9 record.length)) ∧
        s.tag = r.tag ∧
        s.Advice.AdviceCode = r.Advice.AdviceCode ∧
        s.Advice.LineOne = r.Advice.LineOne ∧
        s.Advice.LineTwo = r.Advice.LineTwo ∧
        s.Advice.LineThree = r.Advice.LineThree ∧
        s.Advice.LineFour = r.Advice.LineFour ∧
        s.Advice.LineFive = r.Advice.LineFive ∧
        s.Advice.LineSix = r.Advice.LineSix) := by
  refine ⟨?_, ?_, ?_, ?_, ?_⟩
  · intro hlt r
    exact ⟨r, by simp only [AccountCreditedDrawdown.Parse, if_pos hlt], rfl, rfl⟩
  · intro hlt r
    exact ⟨r, by simp only [AccountDebitedDrawdown.Parse, if_pos hlt], rfl, rfl, rfl, rfl, rfl, rfl, rfl⟩
  · intro hlt r
    exact ⟨r, by simp only [AmountNegotiatedDiscount.Parse, if_pos hlt], rfl, rfl, rfl⟩
  · intro hlt r
    exact ⟨r, by simp only [CurrencyInstructedAmount.Parse, if_pos hlt], rfl, rfl, rfl⟩
  · intro hlt r
    exact ⟨r, by simp only [FIBeneficiaryFIAdvice.Parse, if_pos hlt], rfl, rfl, rfl, rfl, rfl, rfl, rfl, rfl⟩

/-- Witness of C29: the six-byte record that is only a tag, given to a segment
of each kind whose tag and fields are all set. -/
theorem C29_precheck_failure_leaves_segment_witness :
    (∃ s, AccountCreditedDrawdown.Parse specConverters ⟨ascii "XXXXXX", ascii "1"⟩
        TagAccountCreditedDrawdown = some (s, some (NewTagMinLengthErr 7 6)) ∧
      s.tag = ascii "XXXXXX" ∧ s.DrawdownCreditAccountNumber = ascii "1") ∧
    (∃ s, AmountNegotiatedDiscount.Parse specConverters ⟨ascii "XXXXXX", ⟨ascii "USD", ascii "1"⟩⟩
        TagAccountCreditedDrawdown = some (s, some (NewTagMinLengthErr 8 6)) ∧
      s.tag = ascii "XXXXXX" ∧ s.RemittanceAmount.CurrencyCode = ascii "USD" ∧
      s.RemittanceAmount.Amount = ascii "1") :=
  ⟨(C29_precheck_failure_leaves_segment specConverters TagAccountCreditedDrawdown).1
      (by decide) ⟨ascii "XXXXXX", ascii "1"⟩,
   (C29_precheck_failure_leaves_segment specConverters TagAccountCreditedDrawdown).2.2.1
      (by decide) ⟨ascii "XXXXXX", ⟨ascii "USD", ascii "1"⟩⟩⟩

/-! ## The tag after Parse -/

theorem AccountCreditedDrawdown_Parse_ok_tag (c : Converters) (r s : AccountCreditedDrawdown)
    (record : GoString) (h : r.Parse c record = some (s, none)) :
    7 ≤ RuneCountInString record ∧ s.tag = record.take 6 := by
  unfold AccountCreditedDrawdown.Parse at h
  split at h
  · simp at h
  · rename_i hpre
    split at h
    · cases h
    · rename_i tag htag
      have e1 := (slice_some _ _ _ _ htag).1
      simp only [List.drop_zero] at e1
      cases hs1 : sliceFrom record (6) with
      | none => simp [hs1] at h
      | some rest1 =>
        cases hp1 : c.parseFixedStringField rest1 9 with
        | error e => simp [hs1, hp1] at h
        | ok p1 =>
          obtain ⟨v1, n1⟩ := p1
          cases hver : c.verifyDataWithReadLength record (6 + n1) with
          | some e => simp [hs1, hp1, hver] at h
          | none =>
            simp only [hs1, hp1, hver, Option.some.injEq, Prod.mk.injEq, and_true] at h
            subst h
            exact ⟨by omega, e1⟩

theorem CurrencyInstructedAmount_Parse_ok_tag (c : Converters) (r s : CurrencyInstructedAmount)
    (record : GoString) (h : r.Parse c record = some (s, none)) :
    25 ≤ RuneCountInString record ∧ s.tag = record.take 6 := by
  unfold CurrencyInstructedAmount.Parse at h
  split at h
  · simp at h
  · rename_i hpre
    split at h
    · cases h
    · rename_i tag htag
      have e1 := (slice_some _ _ _ _ htag).1
      simp only [List.drop_zero] at e1
      cases hs1 : sliceFrom record (6) with
      | none => simp [hs1] at h
      | some rest1 =>
        cases hp1 : c.parseVariableStringField rest1 5 with
        | error e => simp [hs1, hp1] at h
        | ok p1 =>
          obtain ⟨v1, n1⟩ := p1
          cases hs2 : sliceFrom record (6 + n1) with
          | none => simp [hs1, hp1, hs2] at h
          | some rest2 =>
            cases hp2 : c.parseVariableStringField rest2 18 with
            | error e => simp [hs1, hp1, hs2, hp2] at h
            | ok p2 =>
              obtain ⟨v2, n2⟩ := p2
              cases hver : c.verifyDataWithReadLength record (6 + n1 + n2) with
              | some e => simp [hs1, hp1, hs2, hp2, hver] at h
              | none =>
                simp only [hs1, hp1, hs2, hp2, hver, Option.some.injEq, Prod.mk.injEq, and_true] at h
                subst h
                exact ⟨by omega, e1⟩

theorem FIBeneficiaryFIAdvice_Parse_ok_tag (c : Converters) (r s : FIBeneficiaryFIAdvice)
    (record : GoString) (h : r.Parse c record = some (s, none)) :
    9 ≤ RuneCountInString record ∧ s.tag = record.take 6 := by
  unfold FIBeneficiaryFIAdvice.Parse at h
  split at h
  · simp at h
  · rename_i hpre
    split at h
    · cases h
    · rename_i tag htag
      split at h
      · cases h
      · rename_i code hcode
        have e1 := (slice_some _ _ _ _ htag).1
        simp only [List.drop_zero] at e1
        cases hs1 : sliceFrom record (9) with
        | none => simp [hs1] at h
        | some rest1 =>
          cases hp1 : c.parseVariableStringField rest1 26 with
          | error e => simp [hs1, hp1] at h
          | ok p1 =>
            obtain ⟨v1, n1⟩ := p1
            cases hs2 : sliceFrom record (9 + n1) with
            | none => simp [hs1, hp1, hs2] at h
            | some rest2 =>
              cases hp2 : c.parseVariableStringField rest2 33 with
              | error e => simp [hs1, hp1, hs2, hp2] at h
              | ok p2 =>
                obtain ⟨v2, n2⟩ := p2
                cases hs3 : sliceFrom record (9 + n1 + n2) with
                | none => simp [hs1, hp1, hs2, hp2, hs3] at h
                | some rest3 =>
                  cases hp3 : c.parseVariableStringField rest3 33 with
                  | error e => simp [hs1, hp1, hs2, hp2, hs3, hp3] at h
                  | ok p3 =>
                    obtain ⟨v3, n3⟩ := p3
                    cases hs4 : sliceFrom record (9 + n1 + n2 + n3) with
                    | none => simp [hs1, hp1, hs2, hp2, hs3, hp3, hs4] at h
                    | some rest4 =>
                      cases hp4 : c.parseVariableStringField rest4 33 with
                      | error e => simp [hs1, hp1, hs2, hp2, hs3, hp3, hs4, hp4] at h
                      | ok p4 =>
                        obtain ⟨v4, n4⟩ := p4
                        cases hs5 : sliceFrom record (9 + n1 + n2 + n3 + n4) with
                        | none => simp [hs1, hp1, hs2, hp2, hs3, hp3, hs4, hp4, hs5] at h
                        | some rest5 =>
                          cases hp5 : c.parseVariableStringField rest5 33 with
                          | error e => simp [hs1, hp1, hs2, hp2, hs3, hp3, hs4, hp4, hs5, hp5] at h
                          | ok p5 =>
                            obtain ⟨v5, n5⟩ := p5
                            cases hs6 : sliceFrom record (9 + n1 + n2 + n3 + n4 + n5) with
                            | none => simp [hs1, hp1, hs2, hp2, hs3, hp3, hs4, hp4, hs5, hp5, hs6] at h
                            | some rest6 =>
                              cases hp6 : c.parseVariableStringField rest6 33 with
                              | error e => simp [hs1, hp1, hs2, hp2, hs3, hp3, hs4, hp4, hs5, hp5, hs6, hp6] at h
                              | ok p6 =>
                                obtain ⟨v6, n6⟩ := p6
                                cases hver : c.verifyDataWithReadLength record (9 + n1 + n2 + n3 + n4 + n5 + n6) with
                                | some e => simp [hs1, hp1, hs2, hp2, hs3, hp3, hs4, hp4, hs5, hp5, hs6, hp6, hver] at h
                                | none =>
                                  simp only [hs1, hp1, hs2, hp2, hs3, hp3, hs4, hp4, hs5, hp5, hs6, hp6, hver, Option.some.injEq, Prod.mk.injEq, and_true] at h
                                  subst h
                                  exact ⟨by omega, e1⟩

theorem AccountCreditedDrawdown_Validate_nil_tag (v : Validators) (s : AccountCreditedDrawdown)
    (h : s.Validate v = none) : s.tag = TagAccountCreditedDrawdown := by
  by_contra ht
  cases hfi : s.fieldInclusion with
  | some e => simp [AccountCreditedDrawdown.Validate, hfi] at h
  | none => simp [AccountCreditedDrawdown.Validate, hfi, ht] at h

theorem AccountDebitedDrawdown_Validate_nil_tag (v : Validators) (s : AccountDebitedDrawdown)
    (h : s.Validate v = none) : s.tag = TagAccountDebitedDrawdown := by
  by_contra ht
  cases hfi : s.fieldInclusion with
  | some e => simp [AccountDebitedDrawdown.Validate, hfi] at h
  | none => simp [AccountDebitedDrawdown.Validate, hfi, ht] at h

theorem AmountNegotiatedDiscount_Validate_nil_tag (v : Validators) (s : AmountNegotiatedDiscount)
    (h : s.Validate v = none) : s.tag = TagAmountNegotiatedDiscount := by
  by_contra ht
  cases hfi : s.fieldInclusion with
  | some e => simp [AmountNegotiatedDiscount.Validate, hfi] at h
  | none => simp [AmountNegotiatedDiscount.Validate, hfi, ht] at h

theorem CurrencyInstructedAmount_Validate_nil_tag (v : Validators) (s : CurrencyInstructedAmount)
    (h : s.Validate v = none) : s.tag = TagCurrencyInstructedAmount := by
  by_contra ht
  simp [CurrencyInstructedAmount.Validate, ht] at h

theorem FIBeneficiaryFIAdvice_Validate_nil_tag (v : Validators) (s : FIBeneficiaryFIAdvice)
    (h : s.Validate v = none) : s.tag = TagFIBeneficiaryFIAdvice := by
  by_contra ht
  simp [FIBeneficiaryFIAdvice.Validate, ht] at h

/-- C27: for every field codec, each of the five kinds and every record that
Parse accepts, the tag of the segment afterwards is the first six bytes of the
record, whatever they are; so, for all validators, Validate on the parsed
segment returns nil only if the record begins with the constant tag of the
kind. -/
theorem C27_tag_taken_from_record (c : Converters) (v : Validators) (record : GoString) :
    (∀ r s : AccountCreditedDrawdown, r.Parse c record = some (s, none) →
      s.tag = record.take 6 ∧ (record.take 6).length = 6 ∧
        (s.Validate v = none → TagAccountCreditedDrawdown <+: record)) ∧
    (∀ r s : AccountDebitedDrawdown, r.Parse c record = some (s, none) →
      s.tag = record.take 6 ∧ (record.take 6).length = 6 ∧
        (s.Validate v = none → TagAccountDebitedDrawdown <+: record)) ∧
    (∀ r s : AmountNegotiatedDiscount, r.Parse c record = some (s, none) →
      s.tag = record.take 6 ∧ (record.take 6).length = 6 ∧
        (s.Validate v = none → TagAmountNegotiatedDiscount <+: record)) ∧
    (∀ r s : CurrencyInstructedAmount, r.Parse c record = some (s, none) →
      s.tag = record.take 6 ∧ (record.take 6).length = 6 ∧
        (s.Validate v = none → TagCurrencyInstructedAmount <+: record)) ∧
    (∀ r s : FIBeneficiaryFIAdvice, r.Parse c record = some (s, none) →
      s.tag = record.take 6 ∧ (record.take 6).length = 6 ∧
        (s.Validate v = none → TagFIBeneficiaryFIAdvice <+: record)) := by
  have hlen := RuneCountInString_le_length record
  refine ⟨?_, ?_, ?_, ?_, ?_⟩
  · intro r s h
    obtain ⟨hmin, htag⟩ := AccountCreditedDrawdown_Parse_ok_tag c r s record h
    refine ⟨htag, by rw [List.length_take]; omega, fun hv => ?_⟩
    have ht := AccountCreditedDrawdown_Validate_nil_tag v s hv
    rw [← ht, htag]
    exact List.take_prefix 6 record
  · intro r s h
    obtain ⟨hmin, htag, _⟩ := AccountDebitedDrawdown_Parse_ok_inv c r s record h
    refine ⟨htag, by rw [List.length_take]; omega, fun hv => ?_⟩
    have ht := AccountDebitedDrawdown_Validate_nil_tag v s hv
    rw [← ht, htag]
    exact List.take_prefix 6 record
  · intro r s h
    obtain ⟨cc, n1, am, n2, hmin, hs, _, _, _⟩ := AmountNegotiatedDiscount_Parse_ok_inv c r s record h
    have htag : s.tag = record.take 6 := by rw [hs]
    refine ⟨htag, by rw [List.length_take]; omega, fun hv => ?_⟩
    have ht := AmountNegotiatedDiscount_Validate_nil_tag v s hv
    rw [← ht, htag]
    exact List.take_prefix 6 record
  · intro r s h
    obtain ⟨hmin, htag⟩ := CurrencyInstructedAmount_Parse_ok_tag c r s record h
    refine ⟨htag, by rw [List.length_take]; omega, fun hv => ?_⟩
    have ht := CurrencyInstructedAmount_Validate_nil_tag v s hv
    rw [← ht, htag]
    exact List.take_prefix 6 record
  · intro r s h
    obtain ⟨hmin, htag⟩ := FIBeneficiaryFIAdvice_Parse_ok_tag c r s record h
    refine ⟨htag, by rw [List.length_take]; omega, fun hv => ?_⟩
    have ht := FIBeneficiaryFIAdvice_Validate_nil_tag v s hv
    rw [← ht, htag]
    exact List.take_prefix 6 record

/-- Witness of C27, under the codec of the specification: the record "XXXXXX"
with the account number "123456789" is accepted by
AccountCreditedDrawdown.Parse, which stores the foreign tag "XXXXXX"; the
record with the constant tag is accepted and then validates. -/
theorem C27_tag_taken_from_record_witness :
    (NewAccountCreditedDrawdown.Parse specConverters (ascii "XXXXXX123456789")
        = some (⟨ascii "XXXXXX", ascii "123456789"⟩, none) ∧
      (⟨ascii "XXXXXX", ascii "123456789"⟩ : AccountCreditedDrawdown).tag
        = (ascii "XXXXXX123456789").take 6) ∧
    (AccountCreditedDrawdown.Validate sampleValidators
        ⟨TagAccountCreditedDrawdown, ascii "123456789"⟩ = none ∧
      TagAccountCreditedDrawdown <+: TagAccountCreditedDrawdown ++ ascii "123456789") :=
  ⟨⟨by decide,
    ((C27_tag_taken_from_record specConverters sampleValidators (ascii "XXXXXX123456789")).1
      NewAccountCreditedDrawdown ⟨ascii "XXXXXX", ascii "123456789"⟩ (by decide)).1⟩,
   ⟨by decide,
    ((C27_tag_taken_from_record specConverters sampleValidators
        (TagAccountCreditedDrawdown ++ ascii "123456789")).1
      NewAccountCreditedDrawdown ⟨TagAccountCreditedDrawdown, ascii "123456789"⟩
      (by decide)).2.2 (by decide)⟩⟩

/-! ## The identification code -/

/-- C26: for all validators and every AccountDebitedDrawdown with non-empty
IdentificationCode, Identifier and Name and the constant tag, whose
IdentificationCode is not DemandDepositAccountNumber ("D"), Validate returns a
field error that names "IdentificationCode" and carries the code; when
isIdentificationCode accepts the code (a member of the general enumeration) the
cause is ErrIdentificationCode.  Hence Validate returns nil only if
IdentificationCode is "D". -/
theorem C26_only_demand_deposit_code (v : Validators) (s : AccountDebitedDrawdown) :
    (s.IdentificationCode ≠ [] → s.Identifier ≠ [] → s.Name ≠ [] →
      s.tag = TagAccountDebitedDrawdown → s.IdentificationCode ≠ DemandDepositAccountNumber →
      (∃ e, s.Validate v = some (fieldError "IdentificationCode" e (some s.IdentificationCode))) ∧
      (v.isIdentificationCode s.IdentificationCode = none →
        s.Validate v = some (fieldError "IdentificationCode" GoError.ErrIdentificationCode
          (some s.IdentificationCode)))) ∧
    (s.Validate v = none → s.IdentificationCode = DemandDepositAccountNumber) := by
  refine ⟨?_, ?_⟩
  · intro h1 h2 h3 ht hd
    have hfi : s.fieldInclusion = none := by
      simp [AccountDebitedDrawdown.fieldInclusion, h1, h2, h3]
    cases hi : v.isIdentificationCode s.IdentificationCode with
    | some e =>
      exact ⟨⟨e, by simp [AccountDebitedDrawdown.Validate, hfi, ht, hi]⟩, fun h => by cases h⟩
    | none =>
      have hr : s.Validate v = some (fieldError "IdentificationCode"
          GoError.ErrIdentificationCode (some s.IdentificationCode)) := by
        simp [AccountDebitedDrawdown.Validate, hfi, ht, hi, hd]
      exact ⟨⟨_, hr⟩, fun _ => hr⟩
  · intro h
    by_contra hd
    cases hfi : s.fieldInclusion with
    | some e => simp [AccountDebitedDrawdown.Validate, hfi] at h
    | none =>
      by_cases ht : s.tag = TagAccountDebitedDrawdown
      · cases hi : v.isIdentificationCode s.IdentificationCode with
        | some e => simp [AccountDebitedDrawdown.Validate, hfi, ht, hi] at h
        | none => simp [AccountDebitedDrawdown.Validate, hfi, ht, hi, hd] at h
      · simp [AccountDebitedDrawdown.Validate, hfi, ht] at h

/-- Witness of C26: the code "1" with the identifier "id" and the name "nm",
under validators that accept every identification code; and the same segment
with the code "D", which validates. -/
theorem C26_only_demand_deposit_code_witness :
    (AccountDebitedDrawdown.Validate acceptingValidators
        ⟨TagAccountDebitedDrawdown, ascii "1", ascii "id", ascii "nm", ⟨[], [], []⟩⟩
      = some (fieldError "IdentificationCode" GoError.ErrIdentificationCode (some (ascii "1")))) ∧
    (AccountDebitedDrawdown.Validate acceptingValidators
        ⟨TagAccountDebitedDrawdown, ascii "D", ascii "id", ascii "nm", ⟨[], [], []⟩⟩ = none ∧
      ascii "D" = DemandDepositAccountNumber) :=
  ⟨((C26_only_demand_deposit_code acceptingValidators
      ⟨TagAccountDebitedDrawdown, ascii "1", ascii "id", ascii "nm", ⟨[], [], []⟩⟩).1
      (by decide) (by decide) (by decide) rfl (by decide)).2 rfl,
   by decide,
   (C26_only_demand_deposit_code acceptingValidators
      ⟨TagAccountDebitedDrawdown, ascii "D", ascii "id", ascii "nm", ⟨[], [], []⟩⟩).2
      (by decide)⟩

/-! ## Format of the credited account and of the instructed amount -/

/-- C28: AccountCreditedDrawdown.Format does not consult its options.  For
every field codec and every segment the output is the tag followed by
alphaField of DrawdownCreditAccountNumber at width 9, the same string with
VariableLengthFields=true as with false; under the codec of the specification
it is the tag followed by the 9 bytes of the field (the account number with
the spaces that pad it, cut at 9 bytes), which for an account number of at
most 9 bytes is the tag, the account number and the spaces that pad it to 9;
the output has no delimiter other than those inside the tag and the account
number. -/
theorem C28_format_ignores_options :
    (∀ (c : Converters) (s : AccountCreditedDrawdown) (o : FormatOptions),
      s.Format c o = s.tag ++ c.alphaField s.DrawdownCreditAccountNumber 9) ∧
    (∀ (c : Converters) (s : AccountCreditedDrawdown),
      s.Format c { VariableLengthFields := true } = s.Format c { VariableLengthFields := false }) ∧
    (∀ (s : AccountCreditedDrawdown) (o : FormatOptions),
      s.Format specConverters o = s.tag ++ (s.DrawdownCreditAccountNumber
          ++ List.replicate (9 - s.DrawdownCreditAccountNumber.length) 32).take 9 ∧
      (s.Format specConverters o).length = s.tag.length + 9 ∧
      (s.Format specConverters o).count 42
        ≤ s.tag.count 42 + s.DrawdownCreditAccountNumber.count 42) ∧
    (∀ (s : AccountCreditedDrawdown) (o : FormatOptions),
      s.DrawdownCreditAccountNumber.length ≤ 9 →
      s.Format specConverters o = s.tag ++ s.DrawdownCreditAccountNumber
          ++ List.replicate (9 - s.DrawdownCreditAccountNumber.length) 32 ∧
      (s.Format specConverters o).count 42
        = s.tag.count 42 + s.DrawdownCreditAccountNumber.count 42) := by
  refine ⟨fun _ _ _ => rfl, fun _ _ => rfl, ?_, ?_⟩
  · intro s o
    have hF : s.Format specConverters o
        = s.tag ++ specAlphaField s.DrawdownCreditAccountNumber 9 := rfl
    refine ⟨hF, ?_, ?_⟩
    · rw [hF, List.length_append, specAlphaField_length]
    · rw [hF, List.count_append, specAlphaField]
      have h1 := (List.take_sublist 9 (s.DrawdownCreditAccountNumber
          ++ List.replicate (9 - s.DrawdownCreditAccountNumber.length) 32)).count_le 42
      have h2 : (s.DrawdownCreditAccountNumber
          ++ List.replicate (9 - s.DrawdownCreditAccountNumber.length) 32).count 42
            = s.DrawdownCreditAccountNumber.count 42 := by
        rw [List.count_append, List.count_replicate]
        simp
      omega
  · intro s o hlen
    have hF : s.Format specConverters o
        = s.tag ++ s.DrawdownCreditAccountNumber
          ++ List.replicate (9 - s.DrawdownCreditAccountNumber.length) 32 := by
      have : s.Format specConverters o
          = s.tag ++ specAlphaField s.DrawdownCreditAccountNumber 9 := rfl
      rw [this, specAlphaField_of_le _ _ hlen, List.append_assoc]
    refine ⟨hF, ?_⟩
    rw [hF, List.count_append, List.count_append, List.count_replicate]
    simp

/-- Witness of C28: the segment with the account number "12345" is written as
the tag, the number and four spaces in both modes. -/
theorem C28_format_ignores_options_witness :
    AccountCreditedDrawdown.Format specConverters ⟨TagAccountCreditedDrawdown, ascii "12345"⟩
        { VariableLengthFields := true }
      = TagAccountCreditedDrawdown ++ ascii "12345" ++ List.replicate (9 - 5) 32 ∧
    (AccountCreditedDrawdown.Format specConverters ⟨TagAccountCreditedDrawdown, ascii "12345"⟩
        { VariableLengthFields := true }).count 42
      = TagAccountCreditedDrawdown.count 42 + (ascii "12345").count 42 :=
  C28_format_ignores_options.2.2.2 ⟨TagAccountCreditedDrawdown, ascii "12345"⟩
    { VariableLengthFields := true } (by decide)

/-- C25, the code at the failing input: the CurrencyInstructedAmount with
SwiftFieldTag "SWIFT" and Amount "1234,56".  Format builds the amount portion
with formatAlphaField for every field codec, and never with
numericStringField.  Under the codec of the specification FormatAmount with
VariableLengthFields=false is the amount followed by 11 spaces, AmountField()
is 11 zeros followed by the amount, and String() writes the space-padded
form. -/
theorem C25_fixed_amount_is_space_padded :
    (∀ (c : Converters) (s : CurrencyInstructedAmount) (o : FormatOptions),
      s.Format c o = s.tag ++ (c.formatAlphaField s.SwiftFieldTag 5 o ++ Delimiter)
        ++ (c.formatAlphaField s.Amount 18 o ++ Delimiter)) ∧
    CurrencyInstructedAmount.FormatAmount specConverters
        ⟨TagCurrencyInstructedAmount, ascii "SWIFT", ascii "1234,56"⟩
        { VariableLengthFields := false }
      = ascii "1234,56" ++ List.replicate 11 32 ∧
    CurrencyInstructedAmount.AmountField specConverters
        ⟨TagCurrencyInstructedAmount, ascii "SWIFT", ascii "1234,56"⟩
      = List.replicate 11 48 ++ ascii "1234,56" ∧
    CurrencyInstructedAmount.FormatAmount specConverters
        ⟨TagCurrencyInstructedAmount, ascii "SWIFT", ascii "1234,56"⟩
        { VariableLengthFields := false }
      ≠ CurrencyInstructedAmount.AmountField specConverters
        ⟨TagCurrencyInstructedAmount, ascii "SWIFT", ascii "1234,56"⟩ ∧
    CurrencyInstructedAmount.String specConverters
        ⟨TagCurrencyInstructedAmount, ascii "SWIFT", ascii "1234,56"⟩
      = TagCurrencyInstructedAmount ++ ascii "SWIFT*" ++ ascii "1234,56"
        ++ List.replicate 11 32 ++ ascii "*" := by
  refine ⟨fun _ _ _ => rfl, by decide, by decide, by decide, by decide⟩


end Wire
